import Mathlib

/-!
# oauth2_proxy: the authentication state machine, the OAuth callback and the redirect validator

A shallow embedding of `oauthproxy.go`.  Go strings are byte sequences; they are
modelled as lists of characters (`Str`), one character per byte.  Go `error`
values are modelled as `Option Str` (`none` is `nil`), carrying the error text.

Code that the Go file calls but that lives in the standard library or in other
packages (`net/url`, `regexp`, the `cookie` package, the provider interface,
the credential file, the HTML templates) is either modelled by its documented
behaviour or taken as a parameter (`Env`, `Provider`).

Handlers are functions on an explicit `State`: the response written so far, the
request, and the calls made to collaborators.  Calls of `log.Printf` have no
effect on the state and are left out, and with them `getRemoteAddr`, whose
result is only logged.  The pattern `invalidRedirectRe` consists of ASCII bytes
only, so matching it byte by byte agrees with matching it on UTF-8 runes.
-/

namespace OAuth2Proxy

/-! ## Strings -/

/-- A Go string: a sequence of bytes, one `Char` per byte. -/
abbrev Str := List Char

/-- Go `strings.HasPrefix(s, pre)`. -/
def HasPrefix (s pre : Str) : Bool := pre.isPrefixOf s

/-- Go `strings.HasSuffix(s, suf)`. -/
def HasSuffix (s suf : Str) : Bool := suf.isSuffixOf s

/-- Go `strings.SplitN(s, sep, 2)` for a one-byte separator: the text before the
first separator and the text after it, or the whole string alone when the
separator does not occur. -/
def SplitN2 (s : Str) (sep : Char) : List Str :=
  match s.span (fun c => c != sep) with
  | (a, _ :: b) => [a, b]
  | (a, []) => [a]

/-! ## Regular expressions (`regexp`) -/

/-- A character class `[c₁c₂...]`: the alternation of its members. -/
def charClass (cs : List Char) : RegularExpression Char :=
  cs.foldr (fun c r => RegularExpression.char c + r) 0

/-- The class `[/\\]` of the source pattern. -/
def reSlash : RegularExpression Char := charClass ['/', '\\']

/-- The bytes of the class `[\s\v]` of the source pattern: `\s` is tab, newline,
form feed, carriage return and space; `\v` is the vertical tab. -/
def spaceBytes : List Char := ['\t', '\n', '\x0c', '\r', ' ', '\x0b']

/-- The class `[\s\v]` of the source pattern. -/
def reSpace : RegularExpression Char := charClass spaceBytes

/-- The optional expression `r?`. -/
def reOpt (r : RegularExpression Char) : RegularExpression Char := r + 1

/-- Go `regexp.MustCompile("[/\\\\](?:[\\s\\v]*|\\.\\.?)[/\\\\]")`, the pattern
`invalidRedirectRe` of the source. -/
def invalidRedirectRe : RegularExpression Char :=
  reSlash
    * (RegularExpression.star reSpace
        + RegularExpression.char '.' * reOpt (RegularExpression.char '.'))
    * reSlash

/-- Go `(*Regexp).MatchString`: whether the string contains any match of the
expression, that is whether some substring belongs to its language. -/
def MatchString (re : RegularExpression Char) (s : Str) : Bool :=
  s.tails.any (fun t => t.inits.any re.rmatch)

/-! ## URLs, headers, form values -/

/-- The fields of Go `url.URL` that the source reads or writes. -/
structure URL where
  Scheme : Str := []
  Opaque : Str := []
  Host : Str := []
  Path : Str := []
  RawQuery : Str := []
  Fragment : Str := []
deriving DecidableEq, Repr

/-- Go `net/textproto` token bytes, the bytes allowed in a header name. -/
def validHeaderFieldByte (c : Char) : Bool :=
  c.isAlphanum || "!#$%&*+-.^_|~".toList.contains c || c.toNat = 39 || c.toNat = 96

/-- The letter-case pass of `CanonicalMIMEHeaderKey`: the first letter and every
letter after a hyphen in upper case, the others in lower case. -/
def canonicalCase : Bool → Str → Str
  | _, [] => []
  | upper, c :: cs =>
    (if upper then c.toUpper else c.toLower) :: canonicalCase (c == '-') cs

/-- Go `textproto.CanonicalMIMEHeaderKey`: a key holding a byte that is not a
token byte is returned unchanged. -/
def CanonicalMIMEHeaderKey (k : Str) : Str :=
  if k.all validHeaderFieldByte then canonicalCase true k else k

/-- Go `http.Header`: a map from canonical keys to the values of the key. -/
abbrev Header := List (Str × List Str)

/-- Go `Header.Get`: the first value of the key, or the empty string. -/
def Header.Get (h : Header) (key : Str) : Str :=
  match h.lookup (CanonicalMIMEHeaderKey key) with
  | some (v :: _) => v
  | _ => []

/-- Go `Header.Del`. -/
def Header.Del (h : Header) (key : Str) : Header :=
  h.filter (fun kv => kv.1 != CanonicalMIMEHeaderKey key)

/-- Go `Header.Set`: the key is given the single value. -/
def Header.Set (h : Header) (key value : Str) : Header :=
  (CanonicalMIMEHeaderKey key, [value]) :: Header.Del h key

/-- Go `url.Values`: a map from (case-sensitive) keys to values. -/
abbrev Values := List (Str × List Str)

/-- Go `Values.Get`: the first value of the key, or the empty string. -/
def Values.Get (v : Values) (key : Str) : Str :=
  match v.lookup key with
  | some (x :: _) => x
  | _ => []

/-- The parts of Go `http.Request` the source uses.  `ParseFormErr` is the
error `req.ParseForm()` returns and `Form` the field `req.Form` it fills;
`Cookies` are the name/value pairs of the request's `Cookie` header. -/
structure Request where
  Method : Str := []
  Host : Str := []
  RemoteAddr : Str := []
  URL : URL := {}
  Header : Header := []
  Cookies : List (Str × Str) := []
  ParseFormErr : Option Str := none
  Form : Values := []
deriving DecidableEq, Repr

/-- Go `req.Cookie(name)`: the value of the first cookie of that name;
`none` stands for `http.ErrNoCookie`. -/
def Request.Cookie (req : Request) (name : Str) : Option Str :=
  req.Cookies.lookup name

/-! ## Base64 (`encoding/base64`, `StdEncoding`) -/

/-- The value of a byte of the standard Base64 alphabet. -/
def b64Value (c : Char) : Option Nat :=
  if 'A' ≤ c ∧ c ≤ 'Z' then some (c.toNat - 65)
  else if 'a' ≤ c ∧ c ≤ 'z' then some (c.toNat - 97 + 26)
  else if '0' ≤ c ∧ c ≤ '9' then some (c.toNat - 48 + 52)
  else if c = '+' then some 62
  else if c = '/' then some 63
  else none

/-- The quanta of a Base64 text from which carriage returns and newlines have
been removed: four alphabet bytes give three bytes; the last quantum may end in
one or two padding bytes; anything else is corrupt input. -/
def b64Quanta : Str → Option (List Nat)
  | [] => some []
  | a :: b :: c :: d :: rest =>
    match b64Value a, b64Value b, b64Value c, b64Value d with
    | some va, some vb, some vc, some vd =>
      (b64Quanta rest).map
        (fun out => (va * 4 + vb / 16) :: ((vb % 16) * 16 + vc / 4) :: ((vc % 4) * 64 + vd) :: out)
    | some va, some vb, some vc, none =>
      if d = '=' ∧ rest = [] then some [va * 4 + vb / 16, (vb % 16) * 16 + vc / 4] else none
    | some va, some vb, none, _ =>
      if c = '=' ∧ d = '=' ∧ rest = [] then some [va * 4 + vb / 16] else none
    | _, _, _, _ => none
  | _ => none

/-- Go `base64.StdEncoding.DecodeString`, with the decoded bytes read as a
string; `none` is a `CorruptInputError`.  The decoder skips `\r` and `\n`. -/
def b64DecodeString (s : Str) : Option Str :=
  (b64Quanta (s.filter (fun c => c != '\r' && c != '\n'))).map (fun bs => bs.map Char.ofNat)

/-- The byte of the standard Base64 alphabet with the given value. -/
def b64Char (n : Nat) : Char :=
  "ABCDEFGHIJKLMNOPQRSTUVWXYZabcdefghijklmnopqrstuvwxyz0123456789+/".toList.getD n 'A'

/-- Base64 encoding of a byte sequence, with padding. -/
def b64EncodeBytes : List Nat → Str
  | [] => []
  | [a] => [b64Char (a / 4), b64Char ((a % 4) * 16), '=', '=']
  | [a, b] => [b64Char (a / 4), b64Char ((a % 4) * 16 + b / 16), b64Char ((b % 16) * 4), '=']
  | a :: b :: c :: rest =>
    b64Char (a / 4) :: b64Char ((a % 4) * 16 + b / 16) :: b64Char ((b % 16) * 4 + c / 64)
      :: b64Char (c % 64) :: b64EncodeBytes rest

/-- Go `base64.StdEncoding.EncodeToString([]byte(s))`. -/
def b64EncodeToString (s : Str) : Str :=
  b64EncodeBytes (s.map (fun c => c.toNat % 256))

/-- The byte of the URL-safe alphabet that stands for a byte of the standard
alphabet: `-` for `+` and `_` for `/`. -/
def b64ToURL (c : Char) : Char :=
  if c = '+' then '-' else if c = '/' then '_' else c

/-- The byte of the standard alphabet a byte of the URL-safe alphabet stands
for. -/
def b64OfURL (c : Char) : Char :=
  if c = '-' then '+' else if c = '_' then '/' else c

/-- Go `base64.URLEncoding.EncodeToString([]byte(s))`. -/
def b64URLEncodeToString (s : Str) : Str :=
  (b64EncodeToString s).map b64ToURL

/-- Go `base64.URLEncoding.DecodeString`: the standard decoder over the
URL-safe alphabet, in which `+` and `/` are corrupt input. -/
def b64URLDecodeString (s : Str) : Option Str :=
  if s.any (fun c => c == '+' || c == '/') then none
  else b64DecodeString (s.map b64OfURL)

/-- Go `base64.RawURLEncoding.EncodeToString([]byte(s))`: the URL-safe
encoding without the padding bytes. -/
def b64RawURLEncodeToString (s : Str) : Str :=
  (b64URLEncodeToString s).filter (fun c => c != '=')

/-- Go `base64.RawURLEncoding.DecodeString`: a padding byte is corrupt input,
and the last quantum may have two or three bytes. -/
def b64RawURLDecodeString (s : Str) : Option Str :=
  let t := s.filter (fun c => c != '\r' && c != '\n')
  if t.contains '=' then none
  else b64URLDecodeString (t ++ List.replicate ((4 - t.length % 4) % 4) '=')

/-! ### The cookie secret -/

/-- Modelled from the spec: `secretBytes` is called by `NewOAuthProxy` and
tested in `options_test.go`, but the file that defines it is not among the
sources.  The spec: the secret is accepted as Base64, padded or unpadded, that
decodes to exactly 16, 24 or 32 bytes; if decoding fails or yields another
length, the bytes of the original string are the key.  The alphabet is the
URL-safe one, with which the tests encode. -/
def secretBytes (secret : Str) : Str :=
  match (b64URLDecodeString secret).orElse (fun _ => b64RawURLDecodeString secret) with
  | some b => if b.length = 16 ∨ b.length = 24 ∨ b.length = 32 then b else secret
  | none => secret

/-! ## Sessions, cookies, collaborators -/

/-- The `providers.SessionState` value: the authenticated identity.  Times are
nanoseconds since the epoch. -/
structure SessionState where
  AccessToken : Str := []
  ExpiresOn : Int := 0
  RefreshToken : Str := []
  Email : Str := []
  User : Str := []
deriving DecidableEq, Repr

/-- The fields of Go `http.Cookie` that `makeCookie` fills.  `Expires` is in
nanoseconds since the epoch, `SameSite` the numeric `http.SameSite` mode. -/
structure Cookie where
  Name : Str
  Value : Str
  Path : Str
  Domain : Str
  SameSite : Nat
  HttpOnly : Bool
  Secure : Bool
  Expires : Int
deriving DecidableEq, Repr

/-- The `cookie.Cipher` of the proxy, kept abstract. -/
structure Cipher where
  key : Str
deriving DecidableEq, Repr

/-- The `providers.Provider` interface.  A call that returns `(value, error)` is
a pair or an `Except`.  `RefreshSessionIfNeeded` receives the session pointer:
`RefreshSessionIfNeeded` is the pair it returns and `RefreshMutate` the change it
makes in place to a session that is present. -/
structure Provider where
  ProviderName : Str
  GetLoginURL : Str → Str → Str
  Redeem : Str → Str → Except Str SessionState
  GetEmailAddress : SessionState → Str × Option Str
  GetUserName : SessionState → Str × Option Str
  ValidateGroup : Str → Bool
  ValidateSessionState : SessionState → Bool
  RefreshSessionIfNeeded : Option SessionState → Bool × Option Str
  RefreshMutate : SessionState → SessionState
  SessionFromCookie : Str → Option Cipher → Except Str SessionState
  CookieForSession : SessionState → Option Cipher → Except Str Str

/-- The `hmacauth.HmacAuth` object that `hmacauth.NewHmacAuth(hash, key, header,
headers)` builds, by its four arguments. -/
structure HmacAuth where
  hash : Str
  key : Str
  header : Str
  headers : List Str
deriving DecidableEq, Repr

/-- A handler that serves an upstream, by the way it was built: the reverse
proxy of `httputil.NewSingleHostReverseProxy` with its director, the WebSocket
proxy of `wsutil.NewSingleHostReverseProxy`, or the prefix-stripped file server
of `NewFileServer`. -/
inductive UpstreamHandler where
  | reverseProxy (target : URL) (flushInterval : Int) (passHostHeader : Bool)
  | webSocket (target : URL) (insecureSkipVerify : Bool)
  | fileServer (path filesystemPath : Str)
deriving DecidableEq, Repr

/-- The source's `UpstreamProxy` struct. -/
structure UpstreamProxy where
  upstream : Str
  handler : UpstreamHandler
  wsHandler : Option UpstreamHandler
  auth : Option HmacAuth
deriving DecidableEq, Repr

/-- What Go's `http.ServeMux` does with a request: it runs the handler
registered for a pattern, answers with a redirect, with 404 or with 400. -/
inductive MuxOutcome where
  | handler (pattern : Str)
  | redirect (url : Str)
  | notFound
  | badRequest
deriving DecidableEq, Repr

/-- The credential store `HtpasswdFile`, by its contract `Validate(user, password)`. -/
structure HtpasswdFile where
  Validate : Str → Str → Bool

/-- What the handlers take from outside `oauthproxy.go`: the wall clock (one
reading per handled request, in nanoseconds since the epoch), `net/url`, the
`cookie` package, the expiry test of a session, the version constant, the
signature of `hmacauth` and the pattern matching of `http.ServeMux`. -/
structure Env where
  /-- Go `time.Now()`. -/
  now : Int
  /-- Go `url.Parse`; `none` is a parse error. -/
  urlParse : Str → Option URL
  /-- Go `(*url.URL).String`. -/
  urlString : URL → Str
  /-- Go `(*url.URL).RequestURI`. -/
  urlRequestURI : URL → Str
  /-- The call `cookie.Validate(c, seed, expiration)` on a cookie with the given
  name and value: the signed value and its timestamp, `none` when not ok. -/
  cookieValidate : Str → Str → Str → Int → Option (Str × Int)
  /-- The call `cookie.SignedValue(seed, key, value, now)`. -/
  cookieSignedValue : Str → Str → Str → Int → Str
  /-- The call `cookie.Nonce()`. -/
  cookieNonce : Except Str Str
  /-- The method `(*SessionState).IsExpired`. -/
  IsExpired : SessionState → Bool
  /-- The package constant `VERSION`. -/
  VERSION : Str
  /-- The method `RequestSignature` of `hmacauth.HmacAuth`. -/
  hmacRequestSignature : HmacAuth → Request → Str
  /-- The choice Go's `http.ServeMux` makes among its registered patterns. -/
  muxMatch : List Str → Request → MuxOutcome

/-- The `OAuthProxy` struct.  Durations are in nanoseconds.  A compiled
skip-auth pattern is kept as its `MatchString` function, and `serveMux` as the
patterns registered with `serveMux.Handle` and their handlers. -/
structure OAuthProxy where
  CookieSeed : Str
  CookieName : Str
  CSRFCookieName : Str
  CookieDomain : Str
  CookiePath : Str
  CookieSameSite : Nat
  CookieSecure : Bool
  CookieHttpOnly : Bool
  CookieExpire : Int
  CookieRefresh : Int
  Validator : Str → Bool
  RobotsPath : Str
  PingPath : Str
  SignInPath : Str
  SignOutPath : Str
  OAuthStartPath : Str
  OAuthCallbackPath : Str
  AuthOnlyPath : Str
  redirectURL : URL
  whitelistDomains : List Str
  provider : Provider
  ProxyPrefix : Str
  SignInMessage : Str
  HtpasswdFile : Option HtpasswdFile
  DisplayHtpasswdForm : Bool
  SetXAuthRequest : Bool
  PassBasicAuth : Bool
  SkipProviderButton : Bool
  PassUserHeaders : Bool
  BasicAuthPassword : Str
  PassAccessToken : Bool
  ClientIPHeader : Str
  CookieCipher : Option Cipher
  skipAuthRegex : List Str
  skipAuthStripHdrs : Bool
  skipAuthPreflight : Bool
  compiledRegex : List (Str → Bool)
  Footer : Str
  serveMux : List (Str × UpstreamProxy)

/-! ## The response and the handler state -/

/-- What a handler writes as response body: a rendered template or the body of
`http.Redirect`, recorded with its arguments. -/
inductive Page where
  /-- The template `error.html` with the status code, title, message and proxy prefix. -/
  | error (code : Nat) (title message proxyPrefix : Str)
  /-- The call `http.Redirect(rw, req, url, code)`. -/
  | redirect (url : Str) (code : Nat)
  /-- Text written with `fmt.Fprintf`. -/
  | text (s : Str)
  /-- The template `sign_in.html` with the fields of its data. -/
  | signIn (providerName signInMessage : Str) (customLogin : Bool)
      (redirect version proxyPrefix footer : Str)
deriving DecidableEq, Repr

/-- The `http.ResponseWriter`: the header map, the `Set-Cookie` lines (kept as
cookies, in the order they were added), the status code of the first
`WriteHeader`, and what was written to the body. -/
structure ResponseWriter where
  Header : Header := []
  SetCookie : List Cookie := []
  Code : Option Nat := none
  Body : List Page := []
deriving DecidableEq, Repr

/-- A call a handler makes to a collaborator, recorded in order. -/
inductive Event where
  | Redeem (redirectURI code : Str)
  | GetEmailAddress (s : SessionState)
  | GetUserName (s : SessionState)
  | RefreshSessionIfNeeded (s : Option SessionState)
  | ValidateSessionState (s : SessionState)
  | ValidateGroup (email : Str)
  | Validator (email : Str)
  | SaveSession (s : SessionState)
  | ClearSessionCookie
  /-- A call of `Authenticate`, recorded by its callers. -/
  | Authenticate
  /-- The call `p.serveMux.ServeHTTP(rw, req)`, with the request handed over. -/
  | ServeMux (req : Request)
  /-- The call `ServeHTTP(w, r)` of an upstream handler, with the request handed over. -/
  | Handler (h : UpstreamHandler) (req : Request)
deriving DecidableEq, Repr

/-- The state a handler works on: the response being written, the request
(whose headers a handler may change) and the calls made so far. -/
structure State where
  rw : ResponseWriter := {}
  req : Request := {}
  calls : List Event := []
deriving DecidableEq, Repr

/-- Record a call. -/
def State.call (st : State) (e : Event) : State :=
  { st with calls := st.calls ++ [e] }

/-- Record the calls a helper made. -/
def State.callAll (st : State) (es : List Event) : State :=
  { st with calls := st.calls ++ es }

/-- Go `rw.WriteHeader(code)`: only the first call sets the status. -/
def WriteHeader (st : State) (code : Nat) : State :=
  match st.rw.Code with
  | some _ => st
  | none => { st with rw := { st.rw with Code := some code } }

/-- Writing to the body; a write before any `WriteHeader` sends status 200. -/
def WriteBody (st : State) (pg : Page) : State :=
  let st := WriteHeader st 200
  { st with rw := { st.rw with Body := st.rw.Body ++ [pg] } }

/-- Go `isCookieNameValid`: a non-empty token. -/
def isCookieNameValid (name : Str) : Bool :=
  name != [] && name.all validHeaderFieldByte

/-- Go `http.SetCookie(rw, cookie)`: adds a `Set-Cookie` line, unless the
cookie's name is invalid (`cookie.String()` is then empty). -/
def SetCookie (st : State) (c : Cookie) : State :=
  if isCookieNameValid c.Name then
    { st with rw := { st.rw with SetCookie := st.rw.SetCookie ++ [c] } }
  else st

/-- Go `http.Redirect(rw, req, url, code)`: writes the status and the redirect
body; the call is recorded with its arguments (the `Location` header it derives
from `url` is not kept in the header map). -/
def Redirect (st : State) (url : Str) (code : Nat) : State :=
  WriteBody (WriteHeader st code) (Page.redirect url code)

/-! ## `oauthproxy.go` -/

/-- The source's `preventCaching`. -/
def preventCaching (st : State) : State :=
  { st with rw := { st.rw with
      Header := Header.Set st.rw.Header "Cache-Control".toList "no-store".toList } }

/-- The source's `GetRedirectURI`. -/
def GetRedirectURI (env : Env) (p : OAuthProxy) (host : Str) : Str :=
  if p.redirectURL.Host ≠ [] then env.urlString p.redirectURL
  else
    let u := p.redirectURL
    let u := if u.Scheme = [] then
        (if p.CookieSecure then { u with Scheme := "https".toList }
         else { u with Scheme := "http".toList })
      else u
    env.urlString { u with Host := host }

/-- The source's `redeemCode`: the session or the error it returns, and the
provider calls it makes, in order. -/
def redeemCode (env : Env) (p : OAuthProxy) (host code : Str) :
    Except Str SessionState × List Event :=
  if code = [] then (.error "missing code".toList, [])
  else
    let redirectURI := GetRedirectURI env p host
    match p.provider.Redeem redirectURI code with
    | .error e => (.error e, [.Redeem redirectURI code])
    | .ok s =>
      let r1 : SessionState × Option Str × List Event :=
        if s.Email = [] then
          ({ s with Email := (p.provider.GetEmailAddress s).1 },
            (p.provider.GetEmailAddress s).2, [.GetEmailAddress s])
        else (s, none, [])
      let r2 : SessionState × Option Str × List Event :=
        if r1.1.User = [] then
          ({ r1.1 with User := (p.provider.GetUserName r1.1).1 },
            (if (p.provider.GetUserName r1.1).2 = some "not implemented".toList then none
             else (p.provider.GetUserName r1.1).2),
            r1.2.2 ++ [.GetUserName r1.1])
        else r1
      match r2.2.1 with
      | some e => (.error e, .Redeem redirectURI code :: r2.2.2)
      | none => (.ok r2.1, .Redeem redirectURI code :: r2.2.2)

/-- The source's `makeCookie` (its size warning is only logged). -/
def makeCookie (p : OAuthProxy) (name value : Str) (expiration now : Int) : Cookie :=
  { Name := name, Value := value, Path := p.CookiePath, Domain := p.CookieDomain,
    SameSite := p.CookieSameSite, HttpOnly := p.CookieHttpOnly, Secure := p.CookieSecure,
    Expires := now + expiration }

/-- The source's `MakeSessionCookie`. -/
def MakeSessionCookie (env : Env) (p : OAuthProxy) (value : Str) (expiration now : Int) :
    Cookie :=
  let value := if value ≠ [] then env.cookieSignedValue p.CookieSeed p.CookieName value now
    else value
  makeCookie p p.CookieName value expiration now

/-- The source's `MakeCSRFCookie`. -/
def MakeCSRFCookie (p : OAuthProxy) (value : Str) (expiration now : Int) : Cookie :=
  makeCookie p p.CSRFCookieName value expiration now

/-- Go `time.Hour`, in nanoseconds. -/
def Hour : Int := 3600000000000

/-- The source's `ClearCSRFCookie`. -/
def ClearCSRFCookie (env : Env) (p : OAuthProxy) (st : State) : State :=
  SetCookie st (MakeCSRFCookie p [] (Hour * -1) env.now)

/-- The source's `SetCSRFCookie`. -/
def SetCSRFCookie (env : Env) (p : OAuthProxy) (st : State) (val : Str) : State :=
  SetCookie st (MakeCSRFCookie p val p.CookieExpire env.now)

/-- The source's `ClearSessionCookie`. -/
def ClearSessionCookie (env : Env) (p : OAuthProxy) (st : State) : State :=
  let clr := MakeSessionCookie env p [] (Hour * -1) env.now
  let st := SetCookie (st.call .ClearSessionCookie) clr
  if p.CookieDomain = [] then SetCookie st { clr with Domain := st.req.Host } else st

/-- The source's `SetSessionCookie`. -/
def SetSessionCookie (env : Env) (p : OAuthProxy) (st : State) (val : Str) : State :=
  SetCookie st (MakeSessionCookie env p val p.CookieExpire env.now)

/-- The source's `LoadCookiedSession`: the session, its age and the error. -/
def LoadCookiedSession (env : Env) (p : OAuthProxy) (req : Request) :
    Option SessionState × Int × Option Str :=
  match req.Cookie p.CookieName with
  | none =>
    (none, 0, some ("Cookie ".toList ++ '"' :: p.CookieName ++ '"' :: " not present".toList))
  | some value =>
    match env.cookieValidate p.CookieName value p.CookieSeed p.CookieExpire with
    | none => (none, 0, some "Cookie Signature not valid".toList)
    | some (val, timestamp) =>
      match p.provider.SessionFromCookie val p.CookieCipher with
      | .error e => (none, 0, some e)
      | .ok session => (some session, (env.now - env.now % 1000000000) - timestamp, none)

/-- The source's `SaveSession`. -/
def SaveSession (env : Env) (p : OAuthProxy) (st : State) (s : SessionState) :
    Option Str × State :=
  let st := st.call (.SaveSession s)
  match p.provider.CookieForSession s p.CookieCipher with
  | .error e => (some e, st)
  | .ok value => (none, SetSessionCookie env p st value)

/-- The source's `ErrorPage`. -/
def ErrorPage (p : OAuthProxy) (st : State) (code : Nat) (title message : Str) : State :=
  WriteBody (WriteHeader st code) (Page.error code title message p.ProxyPrefix)

/-- The loop of `IsValidRedirect` over the whitelisted domains. -/
def whitelistLoop (host : Str) : List Str → Bool
  | [] => false
  | domain :: rest =>
    if host = domain then true
    else if HasPrefix domain ".".toList && HasSuffix host domain then true
    else whitelistLoop host rest

/-- The source's `IsValidRedirect`. -/
def IsValidRedirect (env : Env) (p : OAuthProxy) (redirect : Str) : Bool :=
  match env.urlParse redirect with
  | none => false
  | some url =>
    if url.Path = p.SignInPath ∨ url.Path = p.OAuthStartPath then false
    else if HasPrefix redirect "/".toList && MatchString invalidRedirectRe redirect then false
    else if HasPrefix redirect "/".toList then true
    else if HasPrefix redirect "http://".toList || HasPrefix redirect "https://".toList then
      whitelistLoop url.Host p.whitelistDomains
    else false

/-- The candidate of `GetRedirect` in the words of the specification: the `rd`
form value if non-empty, else the `X-Auth-Request-Redirect` header if
non-empty, else the request URI. -/
def redirectCandidate (env : Env) (req : Request) : Str :=
  if req.Form.Get "rd".toList ≠ [] then req.Form.Get "rd".toList
  else if req.Header.Get "X-Auth-Request-Redirect".toList ≠ [] then
    req.Header.Get "X-Auth-Request-Redirect".toList
  else env.urlRequestURI req.URL

/-- The source's `GetRedirect`: the redirect and the error. -/
def GetRedirect (env : Env) (p : OAuthProxy) (req : Request) : Str × Option Str :=
  match req.ParseFormErr with
  | some e => ([], some e)
  | none =>
    let redirect := req.Form.Get "rd".toList
    let redirect := if redirect = [] then req.Header.Get "X-Auth-Request-Redirect".toList
      else redirect
    let redirect := if redirect = [] then env.urlRequestURI req.URL else redirect
    let redirect := if !IsValidRedirect env p redirect then "/".toList else redirect
    (redirect, none)

/-- The end of `OAuthCallback`, after the CSRF cookie `c` has been read and
cleared: the comparison with the nonce, the redirect validation and the
authorization of the redeemed session. -/
def callbackFinish (env : Env) (p : OAuthProxy) (st : State) (session : SessionState)
    (c nonce redirect : Str) : State :=
  if c ≠ nonce then ErrorPage p st 403 "Permission Denied".toList "csrf failed".toList
  else
    let redirect := if !IsValidRedirect env p redirect then "/".toList else redirect
    let st := st.call (.Validator session.Email)
    if p.Validator session.Email then
      let st := st.call (.ValidateGroup session.Email)
      if p.provider.ValidateGroup session.Email then
        match SaveSession env p st session with
        | (some _, st) => ErrorPage p st 500 "Internal Error".toList "Internal Error".toList
        | (none, st) => Redirect st redirect 302
      else ErrorPage p st 403 "Permission Denied".toList "Invalid Account".toList
    else ErrorPage p st 403 "Permission Denied".toList "Invalid Account".toList

/-- The source's `OAuthCallback`. -/
def OAuthCallback (env : Env) (p : OAuthProxy) (st : State) : State :=
  let st := preventCaching st
  match st.req.ParseFormErr with
  | some e => ErrorPage p st 500 "Internal Error".toList e
  | none =>
    let errorString := st.req.Form.Get "error".toList
    if errorString ≠ [] then ErrorPage p st 403 "Permission Denied".toList errorString
    else
      let redeemed := redeemCode env p st.req.Host (st.req.Form.Get "code".toList)
      let st := st.callAll redeemed.2
      match redeemed.1 with
      | .error _ => ErrorPage p st 500 "Internal Error".toList "Internal Error".toList
      | .ok session =>
        match SplitN2 (st.req.Form.Get "state".toList) ':' with
        | [nonce, redirect] =>
          match st.req.Cookie p.CSRFCookieName with
          | none =>
            ErrorPage p st 403 "Permission Denied".toList "http: named cookie not present".toList
          | some c => callbackFinish env p (ClearCSRFCookie env p st) session c nonce redirect
        | _ => ErrorPage p st 500 "Internal Error".toList "Invalid State".toList

/-- The source's `CheckBasicAuth`: the session and the error. -/
def CheckBasicAuth (p : OAuthProxy) (req : Request) : Option SessionState × Option Str :=
  match p.HtpasswdFile with
  | none => (none, none)
  | some htpasswd =>
    let auth := req.Header.Get "Authorization".toList
    if auth = [] then (none, none)
    else
      match SplitN2 auth ' ' with
      | [scheme, encoded] =>
        if scheme ≠ "Basic".toList then
          (none, some ("invalid Authorization header ".toList ++ auth))
        else
          match b64DecodeString encoded with
          | none => (none, some "illegal base64 data".toList)
          | some b =>
            match SplitN2 b ':' with
            | [user, password] =>
              if htpasswd.Validate user password then (some { User := user }, none)
              else (none, some (user ++ " not in HtpasswdFile".toList))
            | _ => (none, some ("invalid format ".toList ++ b))
      | _ => (none, some ("invalid Authorization header ".toList ++ auth))

/-- The local variables of `Authenticate`. -/
structure AuthVars where
  session : Option SessionState
  saveSession : Bool := false
  clearSession : Bool := false
  revalidated : Bool := false
deriving DecidableEq, Repr

/-- The cookie load of `Authenticate` and its test whether the cookie is due
for a refresh. -/
def authLoad (env : Env) (p : OAuthProxy) (st : State) : AuthVars :=
  let loaded := LoadCookiedSession env p st.req
  match loaded.1 with
  | some session =>
    { session := some session,
      saveSession := decide (p.CookieRefresh ≠ 0) && decide (loaded.2.1 > p.CookieRefresh)
        && decide (session.AccessToken ≠ []) }
  | none => { session := none }

/-- The call of `RefreshSessionIfNeeded` in `Authenticate`. -/
def authRefresh (p : OAuthProxy) (v : AuthVars) (st : State) : AuthVars × State :=
  let st := st.call (.RefreshSessionIfNeeded v.session)
  let r := p.provider.RefreshSessionIfNeeded v.session
  let v := { v with session := v.session.map p.provider.RefreshMutate }
  match r.2 with
  | some _ => ({ v with clearSession := true, session := none }, st)
  | none =>
    if r.1 then ({ v with saveSession := true, revalidated := true }, st)
    else (v, st)

/-- The expiry test of `Authenticate`. -/
def authExpiry (env : Env) (v : AuthVars) : AuthVars :=
  match v.session with
  | some session =>
    if env.IsExpired session then
      { v with session := none, saveSession := false, clearSession := true }
    else v
  | none => v

/-- The revalidation of `Authenticate`. -/
def authRevalidate (p : OAuthProxy) (v : AuthVars) (st : State) : AuthVars × State :=
  match v.session with
  | some session =>
    if v.saveSession && !v.revalidated then
      if session.AccessToken ≠ [] then
        if !p.provider.ValidateSessionState session then
          ({ v with saveSession := false, session := none, clearSession := true },
            st.call (.ValidateSessionState session))
        else (v, st.call (.ValidateSessionState session))
      else ({ v with saveSession := false }, st)
    else (v, st)
  | none => (v, st)

/-- The authorization test of `Authenticate`. -/
def authValidator (p : OAuthProxy) (v : AuthVars) (st : State) : AuthVars × State :=
  match v.session with
  | some session =>
    if session.Email ≠ [] then
      if !p.Validator session.Email then
        ({ v with session := none, saveSession := false, clearSession := true },
          st.call (.Validator session.Email))
      else (v, st.call (.Validator session.Email))
    else (v, st)
  | none => (v, st)

/-- Go `req.SetBasicAuth(username, password)`. -/
def SetBasicAuth (req : Request) (username password : Str) : Request :=
  let value := "Basic ".toList ++ b64EncodeToString (username ++ ":".toList ++ password)
  { req with Header := Header.Set req.Header "Authorization".toList value }

/-- The end of `Authenticate`, for an authenticated user: the identity headers
on the request and on the response. -/
def authHeaders (p : OAuthProxy) (session : SessionState) (st : State) : State :=
  let req := st.req
  let rw := st.rw
  let req := if p.PassBasicAuth then SetBasicAuth req session.User p.BasicAuthPassword else req
  let req :=
    if p.PassUserHeaders then
      let req := { req with Header := Header.Set req.Header "X-Forwarded-User".toList session.User }
      if session.Email ≠ [] then
        { req with Header := Header.Set req.Header "X-Forwarded-Email".toList session.Email }
      else { req with Header := Header.Del req.Header "X-Forwarded-Email".toList }
    else req
  let rw :=
    if p.SetXAuthRequest then
      let rw := { rw with Header := Header.Set rw.Header "X-Auth-Request-User".toList session.User }
      let rw := if session.Email ≠ [] then
          { rw with Header := Header.Set rw.Header "X-Auth-Request-Email".toList session.Email }
        else rw
      if p.PassAccessToken && decide (session.AccessToken ≠ []) then
        { rw with
          Header := Header.Set rw.Header "X-Auth-Request-Access-Token".toList session.AccessToken }
      else rw
    else rw
  let req :=
    if p.PassAccessToken then
      if session.AccessToken ≠ [] then
        { req with
          Header := Header.Set req.Header "X-Forwarded-Access-Token".toList session.AccessToken }
      else { req with Header := Header.Del req.Header "X-Forwarded-Access-Token".toList }
    else req
  let rw :=
    if session.Email = [] then
      { rw with Header := Header.Set rw.Header "GAP-Auth".toList session.User }
    else { rw with Header := Header.Set rw.Header "GAP-Auth".toList session.Email }
  { st with rw := rw, req := req }

/-- Go `http.StatusAccepted`. -/
def StatusAccepted : Nat := 202

/-- Go `http.StatusForbidden`. -/
def StatusForbidden : Nat := 403

/-- Go `http.StatusInternalServerError`. -/
def StatusInternalServerError : Nat := 500

/-- The part of `Authenticate` after the session has been settled: the save, the
clear, the Basic-auth fallback and the identity headers. -/
def authFinish (env : Env) (p : OAuthProxy) (v : AuthVars) (st : State) : Nat × State :=
  let saved : Option Str × State :=
    match v.session with
    | some session => if v.saveSession then SaveSession env p st session else (none, st)
    | none => (none, st)
  match saved.1 with
  | some _ => (StatusInternalServerError, saved.2)
  | none =>
    let st := saved.2
    let st := if v.clearSession then ClearSessionCookie env p st else st
    let session := match v.session with
      | some session => some session
      | none => (CheckBasicAuth p st.req).1
    match session with
    | none => (StatusForbidden, st)
    | some session => (StatusAccepted, authHeaders p session st)

/-- The source's `Authenticate`: the status it returns and the state it leaves. -/
def Authenticate (env : Env) (p : OAuthProxy) (st : State) : Nat × State :=
  let v := authLoad env p st
  let r := authRefresh p v st
  let v := authExpiry env r.1
  let r := authRevalidate p v r.2
  let r := authValidator p r.1 r.2
  authFinish env p r.1 r.2

/-- The variables of `Authenticate`, and its state, after the refresh, expiry
and revalidation steps, before the authorization test. -/
def authChecked (env : Env) (p : OAuthProxy) (st : State) : AuthVars × State :=
  let r := authRefresh p (authLoad env p st) st
  authRevalidate p (authExpiry env r.1) r.2

/-- The variables of `Authenticate`, and its state, after the authorization
test, before the save step. -/
def authSettled (env : Env) (p : OAuthProxy) (st : State) : AuthVars × State :=
  authValidator p (authChecked env p st).1 (authChecked env p st).2

/-- The value of the variable `session` of `Authenticate` after the Basic-auth
fallback, when the save step has not failed. -/
def authSession (env : Env) (p : OAuthProxy) (st : State) : Option SessionState :=
  match (authSettled env p st).1.session with
  | some session => some session
  | none => (CheckBasicAuth p st.req).1

/-! ### Upstreams -/

/-- The source's constant `SignatureHeader`. -/
def SignatureHeader : Str := "GAP-Signature".toList

/-- The source's variable `SignatureHeaders`. -/
def SignatureHeaders : List Str :=
  ["Content-Length".toList, "Content-Md5".toList, "Content-Type".toList, "Date".toList,
   "Authorization".toList, "X-Forwarded-User".toList, "X-Forwarded-Email".toList,
   "X-Forwarded-Access-Token".toList, "Cookie".toList, "Gap-Auth".toList]

/-- Go `strings.ToLower` on the ASCII letters.  The source only compares its
result with the ASCII word `upgrade`, and no letter outside ASCII has one of the
letters of that word as its lower case, so the comparison is the same. -/
def ToLower (s : Str) : Str := s.map Char.toLower

/-- Go `strings.TrimPrefix`. -/
def TrimPrefix (s pre : Str) : Str :=
  if HasPrefix s pre then s.drop pre.length else s

/-- The method `SignRequest` of `hmacauth.HmacAuth`: the signature of the request
is set as the signature header. -/
def SignRequest (env : Env) (auth : HmacAuth) (req : Request) : Request :=
  { req with Header := Header.Set req.Header auth.header (env.hmacRequestSignature auth req) }

/-- The source's `UpstreamProxy.ServeHTTP`.  What the chosen handler writes to
the response is not modelled; its call is recorded with the request it gets. -/
def UpstreamProxy.ServeHTTP (env : Env) (u : UpstreamProxy) (st : State) : State :=
  let rw := { st.rw with
    Header := Header.Set st.rw.Header "GAP-Upstream-Address".toList u.upstream }
  let req :=
    match u.auth with
    | some auth =>
      let gapAuth := rw.Header.Get "GAP-Auth".toList
      SignRequest env auth
        { st.req with Header := Header.Set st.req.Header "GAP-Auth".toList gapAuth }
    | none => st.req
  let st := { st with rw := rw, req := req }
  match u.wsHandler with
  | some wsHandler =>
    if ToLower (req.Header.Get "Connection".toList) = "upgrade".toList
        ∧ req.Header.Get "Upgrade".toList = "websocket".toList then
      st.call (.Handler wsHandler req)
    else st.call (.Handler u.handler req)
  | none => st.call (.Handler u.handler req)

/-- The source's `NewFileServer`. -/
def NewFileServer (path filesystemPath : Str) : UpstreamHandler :=
  .fileServer path filesystemPath

/-- The signature key of the options, `opts.signatureData`. -/
structure SignatureData where
  hash : Str
  key : Str
deriving DecidableEq, Repr

/-- The fields of `Options` that the upstream registration of `NewOAuthProxy`
reads. -/
structure Options where
  proxyURLs : List URL
  signatureData : Option SignatureData
  FlushInterval : Int
  PassHostHeader : Bool
  ProxyWebSockets : Bool
  SSLInsecureSkipVerify : Bool
deriving DecidableEq, Repr

/-- The source's `NewWebSocketOrRestReverseProxy`.  The reverse proxy keeps the
pointer `u`, whose path the function then empties. -/
def NewWebSocketOrRestReverseProxy (u : URL) (opts : Options) (auth : Option HmacAuth) :
    UpstreamProxy :=
  let u := { u with Path := [] }
  let proxy := UpstreamHandler.reverseProxy u opts.FlushInterval opts.PassHostHeader
  let wsProxy :=
    if opts.ProxyWebSockets then
      let wsScheme := "ws".toList ++ TrimPrefix u.Scheme "http".toList
      some (UpstreamHandler.webSocket { Scheme := wsScheme, Host := u.Host }
        opts.SSLInsecureSkipVerify)
    else none
  { upstream := u.Host, handler := proxy, wsHandler := wsProxy, auth := auth }

/-- Go `serveMux.Handle(pattern, handler)`; `none` is its panic on an empty
pattern or on a pattern registered twice. -/
def muxHandle (mux : List (Str × UpstreamProxy)) (pattern : Str) (h : UpstreamProxy) :
    Option (List (Str × UpstreamProxy)) :=
  if pattern = [] ∨ (mux.lookup pattern).isSome then none else some (mux ++ [(pattern, h)])

/-- The loop of `NewOAuthProxy` over `opts.proxyURLs` that registers the
upstreams; `none` is a panic (unknown scheme, or a panic of `Handle`). -/
def registerUpstreams (opts : Options) (auth : Option HmacAuth) :
    List URL → List (Str × UpstreamProxy) → Option (List (Str × UpstreamProxy))
  | [], mux => some mux
  | u :: rest, mux =>
    if u.Scheme = "http".toList ∨ u.Scheme = "https".toList then
      match muxHandle mux u.Path (NewWebSocketOrRestReverseProxy u opts auth) with
      | some mux => registerUpstreams opts auth rest mux
      | none => none
    else if u.Scheme = "file".toList then
      let path := if u.Fragment ≠ [] then u.Fragment else u.Path
      let proxy := NewFileServer path u.Path
      match muxHandle mux path
          { upstream := path, handler := proxy, wsHandler := none, auth := none } with
      | some mux => registerUpstreams opts auth rest mux
      | none => none
    else none

/-- The `auth` object of `NewOAuthProxy`: present when a signature key is configured. -/
def newHmacAuth (opts : Options) : Option HmacAuth :=
  opts.signatureData.map (fun sigData =>
    { hash := sigData.hash, key := sigData.key, header := SignatureHeader,
      headers := SignatureHeaders })

/-- The `serveMux` that `NewOAuthProxy` builds from the options. -/
def newServeMux (opts : Options) : Option (List (Str × UpstreamProxy)) :=
  registerUpstreams opts (newHmacAuth opts) opts.proxyURLs []

/-- Go `http.Error(w, error, code)`. -/
def httpError (st : State) (error : Str) (code : Nat) : State :=
  let h := Header.Set st.rw.Header "Content-Type".toList "text/plain; charset=utf-8".toList
  let h := Header.Set h "X-Content-Type-Options".toList "nosniff".toList
  WriteBody (WriteHeader { st with rw := { st.rw with Header := h } } code) (Page.text error)

/-- The call `p.serveMux.ServeHTTP(rw, req)`: the mux picks a registered
pattern and runs its `UpstreamProxy`, or answers by itself. -/
def serveMuxServeHTTP (env : Env) (p : OAuthProxy) (st : State) : State :=
  let st := st.call (.ServeMux st.req)
  match env.muxMatch (p.serveMux.map Prod.fst) st.req with
  | .handler pattern =>
    match p.serveMux.lookup pattern with
    | some u => u.ServeHTTP env st
    | none => httpError st "404 page not found".toList 404
  | .redirect url => Redirect st url 301
  | .notFound => httpError st "404 page not found".toList 404
  | .badRequest =>
    WriteHeader { st with rw := { st.rw with
      Header := Header.Set st.rw.Header "Connection".toList "close".toList } } 400

/-! ### The routes -/

/-- The source's `stripAuthHeaders`. -/
def stripAuthHeaders (p : OAuthProxy) (req : Request) : Request :=
  if !p.skipAuthStripHdrs then req
  else
    let req := if p.PassBasicAuth then
        { req with Header := Header.Del req.Header "Authorization".toList }
      else req
    let req := if p.PassUserHeaders then
        let req := { req with Header := Header.Del req.Header "X-Forwarded-User".toList }
        { req with Header := Header.Del req.Header "X-Forwarded-Email".toList }
      else req
    if p.PassAccessToken then
      { req with Header := Header.Del req.Header "X-Forwarded-Access-Token".toList }
    else req

/-- The source's `RobotsTxt`. -/
def RobotsTxt (st : State) : State :=
  WriteBody (WriteHeader st 200) (Page.text "User-agent: *\nDisallow: /".toList)

/-- The source's `PingPage`. -/
def PingPage (st : State) : State :=
  WriteBody (WriteHeader (preventCaching st) 200) (Page.text "OK".toList)

/-- The source's `displayCustomLoginForm`. -/
def displayCustomLoginForm (p : OAuthProxy) : Bool :=
  p.HtpasswdFile.isSome && p.DisplayHtpasswdForm

/-- The source's `SignInPage`. -/
def SignInPage (env : Env) (p : OAuthProxy) (st : State) (code : Nat) : State :=
  let st := WriteHeader (ClearSessionCookie env p (preventCaching st)) code
  match GetRedirect env p st.req with
  | (_, some err) => ErrorPage p st 400 "Bad Request".toList err
  | (redirect_url, none) =>
    WriteBody st (Page.signIn p.provider.ProviderName p.SignInMessage
      (displayCustomLoginForm p) redirect_url env.VERSION p.ProxyPrefix p.Footer)

/-- Go `req.FormValue(key)`: the first value of the key in the parsed form. -/
def Request.FormValue (req : Request) (key : Str) : Str := req.Form.Get key

/-- The request as a call of `req.FormValue` leaves it: `FormValue` parses the
form when that has not been done and ignores the error, and `ParseForm` does not
parse a form twice, so from then on `req.ParseForm()` returns nil. -/
def Request.formRead (req : Request) : Request :=
  { req with ParseFormErr := none }

/-- The source's `ManualSignIn`: the pair it returns, and the request as the
call leaves it, with its form read once the credentials have been looked up. -/
def ManualSignIn (p : OAuthProxy) (req : Request) : (Str × Bool) × Request :=
  match p.HtpasswdFile with
  | none => (([], false), req)
  | some htpasswd =>
    if req.Method ≠ "POST".toList then (([], false), req)
    else
      let user := req.FormValue "username".toList
      let passwd := req.FormValue "password".toList
      let req := req.formRead
      if user = [] then (([], false), req)
      else if htpasswd.Validate user passwd then ((user, true), req)
      else (([], false), req)

/-- The source's `OAuthStart`. -/
def OAuthStart (env : Env) (p : OAuthProxy) (st : State) : State :=
  let st := preventCaching st
  match env.cookieNonce with
  | .error err => ErrorPage p st 500 "Internal Error".toList err
  | .ok nonce =>
    let st := SetCSRFCookie env p st nonce
    match GetRedirect env p st.req with
    | (_, some err) => ErrorPage p st 400 "Bad Request".toList err
    | (redirect, none) =>
      let redirectURI := GetRedirectURI env p st.req.Host
      let state := nonce ++ ":".toList ++ redirect
      Redirect st (p.provider.GetLoginURL redirectURI state) 302

/-- The source's `SignIn`. -/
def SignIn (env : Env) (p : OAuthProxy) (st : State) : State :=
  let manual := ManualSignIn p st.req
  let st := { st with req := manual.2 }
  if manual.1.2 then
    match GetRedirect env p st.req with
    | (_, some err) => ErrorPage p st 400 "Bad Request".toList err
    | (redirect, none) =>
      let st := preventCaching st
      let session : SessionState := { User := manual.1.1 }
      let st := (SaveSession env p st session).2
      Redirect st redirect 302
  else if p.SkipProviderButton then OAuthStart env p st
  else SignInPage env p st 200

/-- The source's `SignOut`. -/
def SignOut (env : Env) (p : OAuthProxy) (st : State) : State :=
  Redirect (ClearSessionCookie env p (preventCaching st)) "/".toList 302

/-- The source's `AuthenticateOnly`. -/
def AuthenticateOnly (env : Env) (p : OAuthProxy) (st : State) : State :=
  let r := Authenticate env p (st.call .Authenticate)
  if r.1 = StatusAccepted then WriteHeader r.2 StatusAccepted
  else httpError r.2 "unauthorized request".toList 401

/-- The source's `Proxy`. -/
def Proxy (env : Env) (p : OAuthProxy) (st : State) : State :=
  let r := Authenticate env p (st.call .Authenticate)
  if r.1 = StatusInternalServerError then
    ErrorPage p r.2 StatusInternalServerError "Internal Error".toList "Internal Error".toList
  else if r.1 = StatusForbidden then
    if p.SkipProviderButton then OAuthStart env p r.2
    else SignInPage env p r.2 StatusForbidden
  else serveMuxServeHTTP env p r.2

/-- The loop of `IsWhitelistedPath` over the compiled patterns. -/
def whitelistedPathLoop (path : Str) : List (Str → Bool) → Bool
  | [] => false
  | u :: rest => if u path then true else whitelistedPathLoop path rest

/-- The source's `IsWhitelistedPath`. -/
def IsWhitelistedPath (p : OAuthProxy) (path : Str) : Bool :=
  whitelistedPathLoop path p.compiledRegex

/-- The source's `IsWhitelistedRequest`. -/
def IsWhitelistedRequest (p : OAuthProxy) (req : Request) : Bool :=
  let isPreflightRequestAllowed := p.skipAuthPreflight && decide (req.Method = "OPTIONS".toList)
  isPreflightRequestAllowed || IsWhitelistedPath p req.URL.Path

/-- The source's `OAuthProxy.ServeHTTP`. -/
def ServeHTTP (env : Env) (p : OAuthProxy) (st : State) : State :=
  let path := st.req.URL.Path
  if path = p.RobotsPath then RobotsTxt st
  else if path = p.PingPath then PingPage st
  else if IsWhitelistedRequest p st.req then
    serveMuxServeHTTP env p { st with req := stripAuthHeaders p st.req }
  else if path = p.SignInPath then SignIn env p st
  else if path = p.SignOutPath then SignOut env p st
  else if path = p.OAuthStartPath then OAuthStart env p st
  else if path = p.OAuthCallbackPath then OAuthCallback env p st
  else if path = p.AuthOnlyPath then AuthenticateOnly env p st
  else Proxy env p st

/-! ## `providers/oidc.go` -/

/-- Go `oauth2.Token`, by the fields the source reads.  `IDToken` is the value
of `token.Extra("id_token").(string)`, `none` when the assertion fails. -/
structure Token where
  AccessToken : Str := []
  RefreshToken : Str := []
  Expiry : Int := 0
  IDToken : Option Str := none
deriving DecidableEq, Repr

/-- The claims `createSessionState` extracts from an ID token; `Verified` is
the pointer `*bool`, `none` when the claim is absent. -/
structure IDTokenClaims where
  Subject : Str := []
  Email : Str := []
  Verified : Option Bool := none
deriving DecidableEq, Repr

/-- The `OIDCProvider` with its collaborators: `Verify` is
`p.Verifier.Verify(ctx, rawIDToken)`, `Claims` is `idToken.Claims(&claims)` on
the verified token, `Exchange` is `c.Exchange(ctx, code)` for the redirect URL
of the configuration, and `TokenSource` is `c.TokenSource(ctx, t).Token()`. -/
structure OIDCProvider where
  Verify : Str → Except Str Str
  Claims : Str → Except Str IDTokenClaims
  Exchange : Str → Str → Except Str Token
  TokenSource : Token → Except Str Token

/-- The source's `createSessionState`. -/
def OIDCProvider.createSessionState (p : OIDCProvider) (token : Token) :
    Except Str SessionState :=
  match token.IDToken with
  | none => .error "token response did not contain an id_token".toList
  | some rawIDToken =>
    match p.Verify rawIDToken with
    | .error err => .error ("could not verify id_token: ".toList ++ err)
    | .ok idToken =>
      match p.Claims idToken with
      | .error err => .error ("failed to parse id_token claims: ".toList ++ err)
      | .ok claims =>
        let claims :=
          if claims.Email = [] then { claims with Email := claims.Subject } else claims
        if claims.Verified = some false then
          .error ("email in id_token (".toList ++ claims.Email ++ ") isn".toList ++
            Char.ofNat 39 :: "t verified".toList)
        else
          .ok { AccessToken := token.AccessToken, RefreshToken := token.RefreshToken,
                ExpiresOn := token.Expiry, Email := claims.Email }

/-- The source's OIDC `Redeem`. -/
def OIDCProvider.Redeem (p : OIDCProvider) (redirectURL code : Str) :
    Except Str SessionState :=
  match p.Exchange redirectURL code with
  | .error err => .error ("token exchange: ".toList ++ err)
  | .ok token =>
    match p.createSessionState token with
    | .error err => .error ("unable to update session: ".toList ++ err)
    | .ok s => .ok s

/-- The source's `redeemRefreshToken`: the error, and the session as the call
leaves it. -/
def OIDCProvider.redeemRefreshToken (env : Env) (p : OIDCProvider) (s : SessionState) :
    Option Str × SessionState :=
  let t : Token := { RefreshToken := s.RefreshToken, Expiry := env.now - Hour }
  match p.TokenSource t with
  | .error err => (some ("failed to get token: ".toList ++ err), s)
  | .ok token =>
    match p.createSessionState token with
    | .error err => (some ("unable to update session: ".toList ++ err), s)
    | .ok newSession =>
      let s := { s with AccessToken := newSession.AccessToken }
      let s := { s with RefreshToken := newSession.RefreshToken }
      let s := { s with ExpiresOn := newSession.ExpiresOn }
      let s := { s with Email := newSession.Email }
      (none, s)

/-- The source's OIDC `RefreshSessionIfNeeded`: the pair it returns, and the
session behind the pointer as the call leaves it. -/
def OIDCProvider.RefreshSessionIfNeeded (env : Env) (p : OIDCProvider)
    (s : Option SessionState) : (Bool × Option Str) × Option SessionState :=
  match s with
  | none => ((false, none), none)
  | some s =>
    if env.now < s.ExpiresOn ∨ s.RefreshToken = [] then ((false, none), some s)
    else
      match p.redeemRefreshToken env s with
      | (some err, s) =>
        ((false, some ("unable to redeem refresh token: ".toList ++ err)), some s)
      | (none, s) => ((true, none), some s)

/-! ### Notions used to state the properties -/

/-- The state whose request carries the header map `h` in place of its own. -/
def State.withHeader (st : State) (h : Header) : State :=
  { st with req := { st.req with Header := h } }

/-- The request with the header map `h` in place of its own. -/
def Request.withHeader (req : Request) (h : OAuth2Proxy.Header) : Request :=
  { req with Header := h }

/-- The request `UpstreamProxy.ServeHTTP` hands on: signed, after the `GAP-Auth`
header of the response has been copied to it, when the upstream has a signer. -/
def UpstreamProxy.outgoing (env : Env) (u : UpstreamProxy) (st : State) : Request :=
  match u.auth with
  | some auth =>
    SignRequest env auth (st.req.withHeader
      (Header.Set st.req.Header "GAP-Auth".toList (Header.Get st.rw.Header "GAP-Auth".toList)))
  | none => st.req

/-- The calls `Authenticate` itself makes. -/
def Event.byAuthenticate : Event → Bool
  | .RefreshSessionIfNeeded _ => true
  | .ValidateSessionState _ => true
  | .Validator _ => true
  | .SaveSession _ => true
  | .ClearSessionCookie => true
  | _ => false

/-- The routes of `ServeHTTP`, in the order of the specification. -/
inductive Route where
  | robots | ping | whitelist | signIn | signOut | oauthStart | oauthCallback | authOnly
  | default
deriving DecidableEq, Repr

/-- The routes of the specification with the condition of each, in order. -/
def routeTable (p : OAuthProxy) (req : Request) : List (Route × Bool) :=
  [(.robots, decide (req.URL.Path = p.RobotsPath)),
   (.ping, decide (req.URL.Path = p.PingPath)),
   (.whitelist, IsWhitelistedRequest p req),
   (.signIn, decide (req.URL.Path = p.SignInPath)),
   (.signOut, decide (req.URL.Path = p.SignOutPath)),
   (.oauthStart, decide (req.URL.Path = p.OAuthStartPath)),
   (.oauthCallback, decide (req.URL.Path = p.OAuthCallbackPath)),
   (.authOnly, decide (req.URL.Path = p.AuthOnlyPath)),
   (.default, true)]

/-- The first route of the table whose condition holds. -/
def firstMatchingRoute (p : OAuthProxy) (req : Request) : Route :=
  match (routeTable p req).find? (fun r => r.2) with
  | some r => r.1
  | none => .default

/-- The handler of a route. -/
def Route.handle (env : Env) (p : OAuthProxy) (st : State) : Route → State
  | .robots => RobotsTxt st
  | .ping => PingPage st
  | .whitelist => serveMuxServeHTTP env p { st with req := stripAuthHeaders p st.req }
  | .signIn => SignIn env p st
  | .signOut => SignOut env p st
  | .oauthStart => OAuthStart env p st
  | .oauthCallback => OAuthCallback env p st
  | .authOnly => AuthenticateOnly env p st
  | .default => Proxy env p st

/-- Whether `OAuthCallback` gets as far as comparing the CSRF cookie with the
nonce: the form parses, there is no provider `error` parameter, the code is
redeemed, the `state` parameter holds a `:` and the CSRF cookie is present. -/
def reachesCSRFCheck (env : Env) (p : OAuthProxy) (req : Request) : Bool :=
  req.ParseFormErr.isNone && decide (req.Form.Get "error".toList = [])
    && (redeemCode env p req.Host (req.Form.Get "code".toList)).1.toBool
    && decide (':' ∈ req.Form.Get "state".toList)
    && (req.Cookie p.CSRFCookieName).isSome

/-! ## An example configuration

A concrete proxy, provider and environment, used to evaluate the handlers on
concrete requests. -/

/-- The values of `url.Parse` at the redirect targets of the examples; any
other text is taken as unparsable. -/
def exampleParse (s : Str) : Option URL :=
  if s = "/dashboard".toList then some { Path := "/dashboard".toList }
  else if s = "/".toList then some { Path := "/".toList }
  else if s = "/ /evil.com".toList then some { Path := "/ /evil.com".toList }
  else if s = "/oauth2/sign_in?rd=x".toList then
    some { Path := "/oauth2/sign_in".toList, RawQuery := "rd=x".toList }
  else if s = "https://sub.allowed.com/x".toList then
    some { Scheme := "https".toList, Host := "sub.allowed.com".toList, Path := "/x".toList }
  else if s = "javascript:alert(1)".toList then
    some { Scheme := "javascript".toList, Opaque := "alert(1)".toList }
  else none

/-- The example provider: it redeems the code `good-code` for the session of
`bob@example.com`, has no user names, and reports every refresh of a present
session as successful. -/
def exampleProvider : Provider where
  ProviderName := "Example".toList
  GetLoginURL := fun redirectURI state => "https://idp.example.com/auth?".toList ++ redirectURI ++ state
  Redeem := fun _ code =>
    if code = "good-code".toList then
      .ok { Email := "bob@example.com".toList, AccessToken := "token".toList }
    else .error "redeem failed".toList
  GetEmailAddress := fun s => (s.Email, none)
  GetUserName := fun _ => ([], some "not implemented".toList)
  ValidateGroup := fun _ => true
  ValidateSessionState := fun _ => true
  RefreshSessionIfNeeded := fun s => (s.isSome, none)
  RefreshMutate := fun s => s
  SessionFromCookie := fun v _ =>
    if v = "bob-expired".toList then
      .ok { Email := "bob@example.com".toList, User := "bob".toList,
            AccessToken := "token".toList, ExpiresOn := 1000 }
    else if v = "bob".toList then
      .ok { Email := "bob@example.com".toList, User := "bob".toList }
    else if v = "bob-token".toList then
      .ok { Email := "bob@example.com".toList, User := "bob".toList,
            AccessToken := "token".toList }
    else if v = "eve".toList then
      .ok { Email := "eve@blocked.com".toList, User := "eve".toList,
            AccessToken := "eve-token".toList }
    else .error "decode failure".toList
  CookieForSession := fun s _ => .ok ("session-of-".toList ++ s.Email)

/-- The example environment.  A cookie value `signed:v` validates to `v`, and
the mux picks the longest registered pattern that is a prefix of the path. -/
def exampleEnv : Env where
  now := 1700000000000000000
  urlParse := exampleParse
  urlString := fun u => u.Scheme ++ "://".toList ++ u.Host ++ u.Path
  urlRequestURI := fun u => u.Path
  cookieValidate := fun _ value _ _ =>
    if HasPrefix value "signed:".toList then some (value.drop 7, 1699999999000000000) else none
  cookieSignedValue := fun _ _ value _ => "signed:".toList ++ value
  cookieNonce := .ok "nonce123".toList
  IsExpired := fun s => decide (s.ExpiresOn ≠ 0) && decide (s.ExpiresOn < 1700000000000000000)
  VERSION := "2.2.1".toList
  hmacRequestSignature := fun auth req =>
    "sha1 ".toList ++ auth.key ++ (auth.headers.map (fun h => req.Header.Get h)).flatten
  muxMatch := fun patterns req =>
    match patterns.filter (fun pat => HasPrefix req.URL.Path pat) with
    | pat :: rest =>
      .handler (rest.foldl (fun best q => if best.length < q.length then q else best) pat)
    | [] => .notFound

/-- The example credential store: `alice` with password `secret`. -/
def exampleHtpasswd : HtpasswdFile where
  Validate := fun u pw => decide (u = "alice".toList) && decide (pw = "secret".toList)

/-- The example options: a signature key, an HTTP upstream at `/` and a file
upstream at `/static/`, with WebSocket proxying. -/
def exampleOptions : Options where
  proxyURLs :=
    [{ Scheme := "http".toList, Host := "backend:8080".toList, Path := "/".toList },
     { Scheme := "file".toList, Path := "/var/www/static".toList,
       Fragment := "/static/".toList }]
  signatureData := some { hash := "sha1".toList, key := "signing-key".toList }
  FlushInterval := 1000000000
  PassHostHeader := true
  ProxyWebSockets := true
  SSLInsecureSkipVerify := false

/-- The example proxy: prefix `/oauth2`, cookie `_oauth2_proxy`, the whitelisted
domain `.allowed.com`, every email authorized, and a credential store that
knows `alice` with password `secret`; its upstreams are those of
`exampleOptions`. -/
def exampleProxy : OAuthProxy where
  CookieSeed := "seed".toList
  CookieName := "_oauth2_proxy".toList
  CSRFCookieName := "_oauth2_proxy_csrf".toList
  CookieDomain := []
  CookiePath := "/".toList
  CookieSameSite := 0
  CookieSecure := true
  CookieHttpOnly := true
  CookieExpire := 168 * Hour
  CookieRefresh := 0
  Validator := fun _ => true
  RobotsPath := "/robots.txt".toList
  PingPath := "/ping".toList
  SignInPath := "/oauth2/sign_in".toList
  SignOutPath := "/oauth2/sign_out".toList
  OAuthStartPath := "/oauth2/start".toList
  OAuthCallbackPath := "/oauth2/callback".toList
  AuthOnlyPath := "/oauth2/auth".toList
  redirectURL := { Path := "/oauth2/callback".toList }
  whitelistDomains := [".allowed.com".toList]
  provider := exampleProvider
  ProxyPrefix := "/oauth2".toList
  SignInMessage := []
  HtpasswdFile := some exampleHtpasswd
  DisplayHtpasswdForm := false
  SetXAuthRequest := false
  PassBasicAuth := false
  SkipProviderButton := false
  PassUserHeaders := true
  BasicAuthPassword := []
  PassAccessToken := false
  ClientIPHeader := []
  CookieCipher := none
  skipAuthRegex := []
  skipAuthStripHdrs := false
  skipAuthPreflight := false
  compiledRegex := []
  Footer := []
  serveMux := (newServeMux exampleOptions).getD []

/-- A callback on which the provider reports an error; the browser still holds
the CSRF cookie. -/
def exampleDeniedCallback : Request where
  Host := "proxy.example.com".toList
  Form := [("error".toList, ["access_denied".toList]),
    ("state".toList, ["nonce123:/dashboard".toList])]
  Cookies := [("_oauth2_proxy_csrf".toList, "nonce123".toList)]

/-- A callback with a redeemable code whose `state` has no `:` separator. -/
def exampleBadStateCallback : Request where
  Host := "proxy.example.com".toList
  Form := [("code".toList, ["good-code".toList]), ("state".toList, ["nonce123".toList])]
  Cookies := [("_oauth2_proxy_csrf".toList, "nonce123".toList)]

/-- A callback with a redeemable code whose nonce differs from the CSRF cookie. -/
def exampleMismatchCallback : Request where
  Host := "proxy.example.com".toList
  Form := [("code".toList, ["good-code".toList]),
    ("state".toList, ["nonce124:/dashboard".toList])]
  Cookies := [("_oauth2_proxy_csrf".toList, "nonce123".toList)]

/-- A request with a signature-valid session cookie of an expired session that
also carries the Basic credentials `alice:secret`. -/
def exampleExpiredBasicRequest : Request where
  Host := "proxy.example.com".toList
  URL := { Path := "/dashboard".toList }
  Header := [("Authorization".toList, ["Basic YWxpY2U6c2VjcmV0".toList])]
  Cookies := [("_oauth2_proxy".toList, "signed:bob-expired".toList)]

/-- The session the example provider decodes from the cookie `bob-expired`. -/
def exampleExpiredSession : SessionState where
  Email := "bob@example.com".toList
  User := "bob".toList
  AccessToken := "token".toList
  ExpiresOn := 1000

/-- A request without a session cookie that carries the Basic credentials
`alice:secret`. -/
def exampleBasicRequest : Request where
  Host := "proxy.example.com".toList
  URL := { Path := "/dashboard".toList }
  Header := [("Authorization".toList, ["Basic YWxpY2U6c2VjcmV0".toList])]

/-- A credential store that knows the user `a:b` with password `c`. -/
def exampleColonHtpasswd : HtpasswdFile where
  Validate := fun u pw => decide (u = "a:b".toList) && decide (pw = "c".toList)

/-- The example proxy with the credential store of the user `a:b`. -/
def exampleColonProxy : OAuthProxy :=
  { exampleProxy with HtpasswdFile := some exampleColonHtpasswd }

/-- A request without a session cookie that carries the Basic credentials of
the user `a:b` with password `c`, the Base64 text of `a:b:c`. -/
def exampleColonRequest : Request where
  Host := "proxy.example.com".toList
  URL := { Path := "/dashboard".toList }
  Header := [("Authorization".toList, ["Basic YTpiOmM=".toList])]

/-- The example proxy with an authorization predicate that admits only
`bob@example.com`. -/
def exampleStrictProxy : OAuthProxy :=
  { exampleProxy with Validator := fun email => decide (email = "bob@example.com".toList) }

/-- A request with a signature-valid session cookie of `eve@blocked.com`. -/
def exampleEveRequest : Request where
  Host := "proxy.example.com".toList
  URL := { Path := "/dashboard".toList }
  Cookies := [("_oauth2_proxy".toList, "signed:eve".toList)]

/-- The session the example provider decodes from the cookie `eve`. -/
def exampleEveSession : SessionState where
  Email := "eve@blocked.com".toList
  User := "eve".toList
  AccessToken := "eve-token".toList

/-- The example provider with a refresh step that never refreshes. -/
def exampleIdleProvider : Provider :=
  { exampleProvider with RefreshSessionIfNeeded := fun _ => (false, none) }

/-- The example proxy with a cookie refresh period of half a second and the
provider that never refreshes. -/
def exampleRevalidateProxy : OAuthProxy :=
  { exampleProxy with CookieRefresh := 500000000, provider := exampleIdleProvider }

/-- A request with a signature-valid session cookie of a session that holds an
access token and no expiry. -/
def exampleTokenRequest : Request where
  Host := "proxy.example.com".toList
  URL := { Path := "/dashboard".toList }
  Cookies := [("_oauth2_proxy".toList, "signed:bob-token".toList)]

/-- The session the example provider decodes from the cookie `bob-token`. -/
def exampleTokenSession : SessionState where
  Email := "bob@example.com".toList
  User := "bob".toList
  AccessToken := "token".toList

/-- The example proxy with preflight requests exempt from authentication. -/
def examplePreflightProxy : OAuthProxy :=
  { exampleProxy with skipAuthPreflight := true }

/-- A preflight request to the sign-in endpoint. -/
def examplePreflightRequest : Request where
  Method := "OPTIONS".toList
  Host := "proxy.example.com".toList
  URL := { Path := "/oauth2/sign_in".toList }

/-- The example proxy with the paths under `/public/` exempt from
authentication; the stripping of headers is off, as in `exampleProxy`. -/
def examplePublicProxy : OAuthProxy :=
  { exampleProxy with compiledRegex := [fun path => HasPrefix path "/public/".toList] }

/-- The proxy `examplePublicProxy` with the stripping of headers on. -/
def exampleStripProxy : OAuthProxy :=
  { examplePublicProxy with skipAuthStripHdrs := true }

/-- A request to an exempt path that claims to be the user `admin`. -/
def exampleSpoofedRequest : Request where
  Host := "proxy.example.com".toList
  URL := { Path := "/public/info".toList }
  Header := [("X-Forwarded-User".toList, ["admin".toList]),
    ("Authorization".toList, ["Basic YWRtaW46eA==".toList])]

/-- The HTTP upstream of `exampleOptions`. -/
def exampleUpstreamURL : URL where
  Scheme := "http".toList
  Host := "backend:8080".toList
  Path := "/".toList

/-- The handler registered for the HTTP upstream of `exampleOptions`. -/
def exampleUpstream : UpstreamProxy :=
  NewWebSocketOrRestReverseProxy exampleUpstreamURL exampleOptions (newHmacAuth exampleOptions)

/-- The signature data of `exampleOptions`. -/
def exampleSignatureData : SignatureData where
  hash := "sha1".toList
  key := "signing-key".toList

/-- A request of `alice` for a file of the static upstream. -/
def exampleStaticRequest : Request where
  Host := "proxy.example.com".toList
  URL := { Path := "/static/app.js".toList }
  Header := [("Authorization".toList, ["Basic YWxpY2U6c2VjcmV0".toList])]

/-- The handlers called in a trace, each with the `Gap-Signature` entry of the
request it was handed. -/
def handlerSignatures (calls : List Event) : List (UpstreamHandler × Option (List Str)) :=
  calls.filterMap fun e =>
    match e with
    | .Handler h req => some (h, req.Header.lookup "Gap-Signature".toList)
    | _ => none

/-- The handlers called in a trace. -/
def handlersCalled (calls : List Event) : List UpstreamHandler :=
  calls.filterMap fun e =>
    match e with
    | .Handler h _ => some h
    | _ => none

/-- An upgrade request as browsers send it: `Connection: Upgrade` and
`Upgrade: websocket`. -/
def exampleBrowserUpgrade : Request where
  Host := "proxy.example.com".toList
  URL := { Path := "/socket".toList }
  Header := [("Connection".toList, ["Upgrade".toList]), ("Upgrade".toList, ["websocket".toList])]

/-- An upgrade request with `Connection: upgrade` and `Upgrade: WebSocket`. -/
def exampleMixedCaseUpgrade : Request where
  Host := "proxy.example.com".toList
  URL := { Path := "/socket".toList }
  Header := [("Connection".toList, ["upgrade".toList]), ("Upgrade".toList, ["WebSocket".toList])]

/-- A provider without an email concept whose `Redeem` names the user: it
redeems the code `good-code` for a session of the user `bob` with no email. -/
def exampleUserProvider : Provider :=
  { exampleProvider with
    Redeem := fun _ code =>
      if code = "good-code".toList then
        .ok { User := "bob".toList, AccessToken := "token".toList }
      else .error "redeem failed".toList
    GetEmailAddress := fun _ => ([], some "not implemented".toList) }

/-- The example proxy with the provider `exampleUserProvider`. -/
def exampleUserProxy : OAuthProxy :=
  { exampleProxy with provider := exampleUserProvider }

/-- A callback with a redeemable code, a well-formed `state` and the matching
CSRF cookie. -/
def exampleGoodCallback : Request where
  Host := "proxy.example.com".toList
  Form := [("code".toList, ["good-code".toList]),
    ("state".toList, ["nonce123:/dashboard".toList])]
  Cookies := [("_oauth2_proxy_csrf".toList, "nonce123".toList)]

/-- A callback whose query holds a redeemable code and a `state` with a
malformed escape: `ParseForm` fails and leaves the parameters it could read. -/
def exampleUnparsableCallback : Request where
  Host := "proxy.example.com".toList
  URL := { Path := "/oauth2/callback".toList, RawQuery := "code=good-code&state=%zz".toList }
  ParseFormErr := some "invalid URL escape".toList
  Form := [("code".toList, ["good-code".toList])]
  Cookies := [("_oauth2_proxy_csrf".toList, "nonce123".toList)]

/-- A request whose `rd` parameter hides `/../` in the middle of a path. -/
def exampleTrickRequest : Request where
  Host := "proxy.example.com".toList
  URL := { Path := "/oauth2/start".toList }
  Form := [("rd".toList, ["/a/../b".toList])]

/-- An OIDC provider: the ID token `signed-id-token` verifies and carries the
subject `sub-1` and the email `bob@example.com` with no `email_verified`
claim; the token source answers the refresh token `refresh-1`. -/
def exampleOIDC : OIDCProvider where
  Verify := fun raw =>
    if raw = "signed-id-token".toList then .ok "payload".toList
    else .error "signature mismatch".toList
  Claims := fun _ =>
    .ok { Subject := "sub-1".toList, Email := "bob@example.com".toList, Verified := none }
  Exchange := fun _ _ => .error "invalid_grant".toList
  TokenSource := fun t =>
    if t.RefreshToken = "refresh-1".toList then
      .ok { AccessToken := "access-2".toList, RefreshToken := "refresh-2".toList,
            Expiry := 1700003600000000000, IDToken := some "signed-id-token".toList }
    else .error "invalid_grant".toList

/-- A token response with an ID token that verifies. -/
def exampleToken : Token where
  AccessToken := "access-2".toList
  RefreshToken := "refresh-2".toList
  Expiry := 1700003600000000000
  IDToken := some "signed-id-token".toList

/-- A session that expired before the time of the example environment and
holds the refresh token `refresh-1`. -/
def exampleStaleSession : SessionState where
  AccessToken := "access-1".toList
  ExpiresOn := 1699990000000000000
  RefreshToken := "refresh-1".toList
  Email := "old@example.com".toList
  User := "bob".toList

/-! ## Lemmas on the response and the handler state -/

@[simp]
theorem call_rw (st : State) (e : Event) : (st.call e).rw = st.rw := rfl

@[simp]
theorem call_req (st : State) (e : Event) : (st.call e).req = st.req := rfl

@[simp]
theorem call_calls (st : State) (e : Event) : (st.call e).calls = st.calls ++ [e] := rfl

@[simp]
theorem preventCaching_req (st : State) : (preventCaching st).req = st.req := rfl

@[simp]
theorem preventCaching_calls (st : State) : (preventCaching st).calls = st.calls := rfl

@[simp]
theorem preventCaching_SetCookie (st : State) :
    (preventCaching st).rw.SetCookie = st.rw.SetCookie := rfl

@[simp]
theorem preventCaching_Code (st : State) : (preventCaching st).rw.Code = st.rw.Code := rfl

@[simp]
theorem preventCaching_Body (st : State) : (preventCaching st).rw.Body = st.rw.Body := rfl

@[simp]
theorem WriteHeader_req (st : State) (c : Nat) : (WriteHeader st c).req = st.req := by
  unfold WriteHeader; split <;> rfl

@[simp]
theorem WriteHeader_calls (st : State) (c : Nat) : (WriteHeader st c).calls = st.calls := by
  unfold WriteHeader; split <;> rfl

@[simp]
theorem WriteHeader_SetCookie (st : State) (c : Nat) :
    (WriteHeader st c).rw.SetCookie = st.rw.SetCookie := by
  unfold WriteHeader; split <;> rfl

@[simp]
theorem WriteHeader_Body (st : State) (c : Nat) :
    (WriteHeader st c).rw.Body = st.rw.Body := by
  unfold WriteHeader; split <;> rfl

@[simp]
theorem WriteHeader_Code (st : State) (c : Nat) :
    (WriteHeader st c).rw.Code = some (st.rw.Code.getD c) := by
  unfold WriteHeader; split <;> simp_all

@[simp]
theorem ErrorPage_req (p : OAuthProxy) (st : State) (c : Nat) (t m : Str) :
    (ErrorPage p st c t m).req = st.req := by
  simp [ErrorPage, WriteBody]

@[simp]
theorem ErrorPage_calls (p : OAuthProxy) (st : State) (c : Nat) (t m : Str) :
    (ErrorPage p st c t m).calls = st.calls := by
  simp [ErrorPage, WriteBody]

@[simp]
theorem ErrorPage_SetCookie (p : OAuthProxy) (st : State) (c : Nat) (t m : Str) :
    (ErrorPage p st c t m).rw.SetCookie = st.rw.SetCookie := by
  simp [ErrorPage, WriteBody]

@[simp]
theorem ErrorPage_Body (p : OAuthProxy) (st : State) (c : Nat) (t m : Str) :
    (ErrorPage p st c t m).rw.Body = st.rw.Body ++ [Page.error c t m p.ProxyPrefix] := by
  simp [ErrorPage, WriteBody]

@[simp]
theorem ErrorPage_Code (p : OAuthProxy) (st : State) (c : Nat) (t m : Str) :
    (ErrorPage p st c t m).rw.Code = some (st.rw.Code.getD c) := by
  simp [ErrorPage, WriteBody]

@[simp]
theorem SetCookie_req (st : State) (c : Cookie) : (SetCookie st c).req = st.req := by
  unfold SetCookie; split <;> rfl

@[simp]
theorem SetCookie_calls (st : State) (c : Cookie) : (SetCookie st c).calls = st.calls := by
  unfold SetCookie; split <;> rfl

@[simp]
theorem SetCookie_Code (st : State) (c : Cookie) : (SetCookie st c).rw.Code = st.rw.Code := by
  unfold SetCookie; split <;> rfl

@[simp]
theorem SetCookie_Body (st : State) (c : Cookie) : (SetCookie st c).rw.Body = st.rw.Body := by
  unfold SetCookie; split <;> rfl
theorem SetCookie_SetCookie (st : State) (c : Cookie) :
    (SetCookie st c).rw.SetCookie =
      st.rw.SetCookie ++ (if isCookieNameValid c.Name = true then [c] else []) := by
  unfold SetCookie; split <;> simp_all

@[simp]
theorem callAll_rw (st : State) (es : List Event) : (st.callAll es).rw = st.rw := rfl

@[simp]
theorem callAll_req (st : State) (es : List Event) : (st.callAll es).req = st.req := rfl

@[simp]
theorem callAll_calls (st : State) (es : List Event) :
    (st.callAll es).calls = st.calls ++ es := rfl

theorem redeemCode_no_save (env : Env) (p : OAuthProxy) (host code : Str) (s : SessionState) :
    Event.SaveSession s ∉ (redeemCode env p host code).2 := by
  unfold redeemCode
  split
  · simp
  · simp only []
    split
    · simp
    · split <;> split_ifs <;> simp

theorem SplitN2_of_mem (s : Str) (c : Char) (h : c ∈ s) :
    SplitN2 s c = [s.takeWhile (fun x => x != c), (s.dropWhile (fun x => x != c)).tail] := by
  unfold SplitN2
  rw [List.span_eq_take_drop]
  have hne : s.dropWhile (fun x => x != c) ≠ [] := by
    intro h0
    rw [List.dropWhile_eq_nil_iff] at h0
    simpa using h0 c h
  cases hd : s.dropWhile (fun x => x != c) with
  | nil => exact absurd hd hne
  | cons a b => rfl

theorem SplitN2_of_not_mem (s : Str) (c : Char) (h : c ∉ s) : SplitN2 s c = [s] := by
  unfold SplitN2
  rw [List.span_eq_take_drop]
  have h0 : s.dropWhile (fun x => x != c) = [] := by
    rw [List.dropWhile_eq_nil_iff]
    intro x hx
    have : x ≠ c := fun e => h (e ▸ hx)
    simpa using this
  have h1 : s.takeWhile (fun x => x != c) = s := by
    rw [List.takeWhile_eq_self_iff]
    intro x hx
    have : x ≠ c := fun e => h (e ▸ hx)
    simpa using this
  rw [h0, h1]

/-! ## Lemmas on the redirect pattern and the whitelist loop -/

theorem charClass_rmatch_iff (cs : List Char) (x : Str) :
    (charClass cs).rmatch x = true ↔ ∃ c ∈ cs, x = [c] := by
  induction cs with
  | nil => simp [charClass]
  | cons c cs ih =>
    have h : charClass (c :: cs) = RegularExpression.char c + charClass cs := rfl
    rw [h, RegularExpression.add_rmatch_iff, ih, RegularExpression.char_rmatch_iff]
    simp

theorem star_charClass_rmatch (cs : List Char) (x : Str) (h : ∀ c ∈ x, c ∈ cs) :
    (RegularExpression.star (charClass cs)).rmatch x = true := by
  rw [RegularExpression.star_rmatch_iff]
  refine ⟨x.map (fun c => [c]), ?_, ?_⟩
  · clear h
    induction x with
    | nil => rfl
    | cons a x ih => simpa using ih
  · intro t ht
    rw [List.mem_map] at ht
    obtain ⟨c, hc, rfl⟩ := ht
    exact ⟨by simp, (charClass_rmatch_iff cs [c]).2 ⟨c, h c hc, rfl⟩⟩

theorem invalidRedirectRe_rmatch (a b : Char) (mid : Str)
    (ha : a = '/' ∨ a = '\\') (hb : b = '/' ∨ b = '\\')
    (hmid : (∀ c ∈ mid, c ∈ spaceBytes) ∨ mid = ['.'] ∨ mid = ['.', '.']) :
    invalidRedirectRe.rmatch (a :: mid ++ [b]) = true := by
  unfold invalidRedirectRe
  rw [RegularExpression.mul_rmatch_iff]
  refine ⟨a :: mid, [b], by simp, ?_, ?_⟩
  · rw [RegularExpression.mul_rmatch_iff]
    refine ⟨[a], mid, by simp, ?_, ?_⟩
    · exact (charClass_rmatch_iff _ _).2 ⟨a, by rcases ha with h | h <;> simp [h], rfl⟩
    · rw [RegularExpression.add_rmatch_iff]
      rcases hmid with h | h | h
      · exact Or.inl (star_charClass_rmatch _ _ h)
      · right; subst h; decide
      · right; subst h; decide
  · exact (charClass_rmatch_iff _ _).2 ⟨b, by rcases hb with h | h <;> simp [h], rfl⟩

theorem MatchString_of_infix (re : RegularExpression Char) (pre m post : Str)
    (h : re.rmatch m = true) : MatchString re (pre ++ m ++ post) = true := by
  unfold MatchString
  rw [List.any_eq_true]
  refine ⟨m ++ post, ?_, ?_⟩
  · rw [List.mem_tails, List.append_assoc]
    exact List.suffix_append _ _
  · rw [List.any_eq_true]
    exact ⟨m, by rw [List.mem_inits]; exact List.prefix_append _ _, h⟩

theorem whitelistLoop_iff (host : Str) (ds : List Str) :
    whitelistLoop host ds = true ↔
      ∃ d ∈ ds, host = d ∨ (['.'] <+: d ∧ d <:+ host) := by
  induction ds with
  | nil => simp [whitelistLoop]
  | cons d ds ih =>
    have hstep : whitelistLoop host (d :: ds) =
        (if host = d then true
         else if (List.isPrefixOf ['.'] d && List.isSuffixOf d host) = true then true
         else whitelistLoop host ds) := rfl
    have hcond : (List.isPrefixOf ['.'] d && List.isSuffixOf d host) = true ↔
        (['.'] <+: d ∧ d <:+ host) := by
      rw [Bool.and_eq_true, List.isPrefixOf_iff_prefix, List.isSuffixOf_iff_suffix]
    rw [hstep]
    simp only [List.mem_cons, exists_eq_or_imp]
    by_cases h1 : host = d
    · simp [h1]
    · by_cases h2 : (List.isPrefixOf ['.'] d && List.isSuffixOf d host) = true
      · rw [if_neg h1, if_pos h2]
        simp [hcond.1 h2]
      · rw [if_neg h1, if_neg h2, ih]
        simp [h1, mt hcond.2 h2]

/-! ## Lemmas on `OAuthCallback` -/

@[simp]
theorem Redirect_SetCookie (st : State) (u : Str) (c : Nat) :
    (Redirect st u c).rw.SetCookie = st.rw.SetCookie := by
  simp [Redirect, WriteBody]

theorem SaveSession_SetCookie_prefix (env : Env) (p : OAuthProxy) (st : State)
    (s : SessionState) : st.rw.SetCookie <+: (SaveSession env p st s).2.rw.SetCookie := by
  unfold SaveSession
  simp only []
  split
  · exact List.prefix_refl _
  · simp only [SetSessionCookie, SetCookie_SetCookie, call_rw]
    exact List.prefix_append _ _

theorem callbackFinish_SetCookie_prefix (env : Env) (p : OAuthProxy) (st : State)
    (session : SessionState) (c nonce redirect : Str) :
    st.rw.SetCookie <+: (callbackFinish env p st session c nonce redirect).rw.SetCookie := by
  have h := SaveSession_SetCookie_prefix env p
    ((st.call (.Validator session.Email)).call (.ValidateGroup session.Email)) session
  unfold callbackFinish
  simp only []
  split_ifs <;> first
    | (simp only [ErrorPage_SetCookie, call_rw]; exact List.prefix_refl _)
    | (split
       · next e st1 heq => rw [heq] at h; simpa using h
       · next st1 heq => rw [heq] at h; simpa using h)

theorem callbackFinish_mismatch (env : Env) (p : OAuthProxy) (st : State)
    (session : SessionState) (c nonce redirect : Str) (h : c ≠ nonce) :
    callbackFinish env p st session c nonce redirect =
      ErrorPage p st 403 "Permission Denied".toList "csrf failed".toList := by
  unfold callbackFinish
  rw [if_pos h]

theorem ClearCSRFCookie_SetCookie (env : Env) (p : OAuthProxy) (st : State)
    (hname : isCookieNameValid p.CSRFCookieName = true) :
    (ClearCSRFCookie env p st).rw.SetCookie =
      st.rw.SetCookie ++ [MakeCSRFCookie p [] (Hour * -1) env.now] := by
  have hn : isCookieNameValid (MakeCSRFCookie p [] (Hour * -1) env.now).Name = true := hname
  rw [ClearCSRFCookie, SetCookie_SetCookie, if_pos hn]

theorem ClearCSRFCookie_SetCookie_subset (env : Env) (p : OAuthProxy) (st : State) :
    ∀ c ∈ (ClearCSRFCookie env p st).rw.SetCookie,
      c ∈ st.rw.SetCookie ∨ c = MakeCSRFCookie p [] (Hour * -1) env.now := by
  intro c hc
  rw [ClearCSRFCookie, SetCookie_SetCookie] at hc
  split_ifs at hc
  · simpa using hc
  · left; simpa using hc

@[simp]
theorem ClearCSRFCookie_calls (env : Env) (p : OAuthProxy) (st : State) :
    (ClearCSRFCookie env p st).calls = st.calls := by
  simp [ClearCSRFCookie]

@[simp]
theorem ClearCSRFCookie_Body (env : Env) (p : OAuthProxy) (st : State) :
    (ClearCSRFCookie env p st).rw.Body = st.rw.Body := by
  simp [ClearCSRFCookie]

@[simp]
theorem ClearCSRFCookie_Code (env : Env) (p : OAuthProxy) (st : State) :
    (ClearCSRFCookie env p st).rw.Code = st.rw.Code := by
  simp [ClearCSRFCookie]

/-- The two ways `OAuthCallback` ends: with an error page before the CSRF cookie
is read, or in `callbackFinish` after the cookie has been cleared. -/
theorem OAuthCallback_cases (env : Env) (p : OAuthProxy) (req : Request) :
    (∃ evs code title message,
      OAuthCallback env p { req := req } =
        ErrorPage p ((preventCaching { req := req }).callAll evs) code title message ∧
      (∀ s, Event.SaveSession s ∉ evs) ∧
      reachesCSRFCheck env p req = false ∧
      (code = 403 ∧ title = "Permission Denied".toList ∨
        code = 500 ∧ title = "Internal Error".toList) ∧
      (req.ParseFormErr = none → req.Form.Get "error".toList = [] →
        (redeemCode env p req.Host (req.Form.Get "code".toList)).1.toBool = true →
        (':' ∈ req.Form.Get "state".toList →
          code = 403 ∧ title = "Permission Denied".toList) ∧
        (':' ∉ req.Form.Get "state".toList →
          code = 500 ∧ title = "Internal Error".toList ∧ message = "Invalid State".toList))) ∨
    (∃ session c,
      (redeemCode env p req.Host (req.Form.Get "code".toList)).1 = .ok session ∧
      req.Cookie p.CSRFCookieName = some c ∧
      ':' ∈ req.Form.Get "state".toList ∧
      reachesCSRFCheck env p req = true ∧
      OAuthCallback env p { req := req } =
        callbackFinish env p
          (ClearCSRFCookie env p ((preventCaching { req := req }).callAll
            (redeemCode env p req.Host (req.Form.Get "code".toList)).2))
          session c ((req.Form.Get "state".toList).takeWhile (fun x => x != ':'))
          ((req.Form.Get "state".toList).dropWhile (fun x => x != ':')).tail) := by
  have hsave := redeemCode_no_save env p req.Host (req.Form.Get "code".toList)
  unfold OAuthCallback reachesCSRFCheck
  simp only [preventCaching_req]
  cases hform : req.ParseFormErr with
  | some e =>
    left
    exact ⟨[], 500, _, e, rfl, by simp, by simp, Or.inr ⟨rfl, rfl⟩, by simp⟩
  | none =>
    simp only []
    by_cases herr : req.Form.Get "error".toList = []
    · rw [if_neg (not_not.2 herr)]
      simp only [callAll_req, preventCaching_req]
      cases hred : (redeemCode env p req.Host (req.Form.Get "code".toList)).1 with
      | error e =>
        left
        exact ⟨_, 500, _, _, rfl, hsave, by simp [Except.toBool], Or.inr ⟨rfl, rfl⟩,
          by simp [Except.toBool]⟩
      | ok session =>
        simp only []
        by_cases hcolon : ':' ∈ req.Form.Get "state".toList
        · rw [SplitN2_of_mem _ _ hcolon]
          simp only []
          cases hc : req.Cookie p.CSRFCookieName with
          | none =>
            left
            exact ⟨_, 403, _, _, rfl, hsave, by simp, Or.inl ⟨rfl, rfl⟩,
              fun _ _ _ => ⟨fun _ => ⟨rfl, rfl⟩, fun h => absurd hcolon h⟩⟩
          | some c =>
            right
            refine ⟨session, c, rfl, rfl, hcolon, ?_, rfl⟩
            rw [decide_eq_true herr, decide_eq_true hcolon]
            rfl
        · rw [SplitN2_of_not_mem _ _ hcolon]
          left
          refine ⟨_, 500, _, _, rfl, hsave, ?_, Or.inr ⟨rfl, rfl⟩,
            fun _ _ _ => ⟨fun h => absurd h hcolon, fun _ => ⟨rfl, rfl, rfl⟩⟩⟩
          rw [decide_eq_false hcolon]
          simp
    · left
      rw [if_pos herr]
      refine ⟨[], 403, _, _, rfl, by simp, ?_, Or.inl ⟨rfl, rfl⟩, fun _ h => absurd h herr⟩
      rw [decide_eq_false herr]
      simp

/-! ## Lemmas on `Authenticate` -/

@[simp]
theorem ClearSessionCookie_req (env : Env) (p : OAuthProxy) (st : State) :
    (ClearSessionCookie env p st).req = st.req := by
  unfold ClearSessionCookie; simp only []; split_ifs <;> simp

@[simp]
theorem ClearSessionCookie_calls (env : Env) (p : OAuthProxy) (st : State) :
    (ClearSessionCookie env p st).calls = st.calls ++ [Event.ClearSessionCookie] := by
  unfold ClearSessionCookie; simp only []; split_ifs <;> simp

theorem ClearSessionCookie_SetCookie (env : Env) (p : OAuthProxy) (st : State)
    (hname : isCookieNameValid p.CookieName = true) :
    (ClearSessionCookie env p st).rw.SetCookie =
      st.rw.SetCookie ++
        MakeSessionCookie env p [] (Hour * -1) env.now ::
          (if p.CookieDomain = [] then
            [{ MakeSessionCookie env p [] (Hour * -1) env.now with Domain := st.req.Host }]
           else []) := by
  have h1 : ∀ e, (MakeSessionCookie env p [] e env.now).Name = p.CookieName := fun _ => rfl
  unfold ClearSessionCookie
  simp only []
  split_ifs <;> simp [SetCookie_SetCookie, h1, hname]

@[simp]
theorem authHeaders_calls (p : OAuthProxy) (s : SessionState) (st : State) :
    (authHeaders p s st).calls = st.calls := rfl

@[simp]
theorem authHeaders_SetCookie (p : OAuthProxy) (s : SessionState) (st : State) :
    (authHeaders p s st).rw.SetCookie = st.rw.SetCookie := by
  unfold authHeaders
  simp only []
  split_ifs <;> rfl

theorem authFinish_dropped (env : Env) (p : OAuthProxy) (v : AuthVars) (st : State)
    (hs : v.session = none) (hc : v.clearSession = true) :
    authFinish env p v st =
      match (CheckBasicAuth p st.req).1 with
      | none => (StatusForbidden, ClearSessionCookie env p st)
      | some basic => (StatusAccepted, authHeaders p basic (ClearSessionCookie env p st)) := by
  unfold authFinish
  simp only [hs, hc, if_true, ClearSessionCookie_req]

theorem Authenticate_of_expired (env : Env) (p : OAuthProxy) (st : State) (session : SessionState)
    (hload : (LoadCookiedSession env p st.req).1 = some session)
    (hexp : env.IsExpired (p.provider.RefreshMutate session) = true) :
    Authenticate env p st =
      match (CheckBasicAuth p st.req).1 with
      | none => (StatusForbidden,
          ClearSessionCookie env p (st.call (.RefreshSessionIfNeeded (some session))))
      | some basic => (StatusAccepted, authHeaders p basic
          (ClearSessionCookie env p (st.call (.RefreshSessionIfNeeded (some session))))) := by
  unfold Authenticate
  simp only [authLoad, hload, authRefresh]
  cases h2 : (p.provider.RefreshSessionIfNeeded (some session)).2 with
  | some e =>
    simp only [authExpiry, authRevalidate, authValidator]
    rw [authFinish_dropped _ _ _ _ rfl rfl]
    rfl
  | none =>
    simp only []
    cases h1 : (p.provider.RefreshSessionIfNeeded (some session)).1 with
    | true =>
      simp only [if_true, authExpiry, Option.map_some', hexp, authRevalidate, authValidator]
      rw [authFinish_dropped _ _ _ _ rfl rfl]
      rfl
    | false =>
      simp only [Bool.false_eq_true, if_false, authExpiry, Option.map_some', hexp, if_true,
        authRevalidate, authValidator]
      rw [authFinish_dropped _ _ _ _ rfl rfl]
      rfl

/-! ## The authentication state machine -/

/-- C1 (amended).  For every request whose session cookie loads (it is
signature-valid and decodes to a session; its name is a valid cookie name) and
whose session is expired after the refresh step, whatever `RefreshSessionIfNeeded` reported, `Authenticate` saves no
session and clears the session cookie: the only calls it makes are the refresh
and `ClearSessionCookie`, and the only `Set-Cookie` lines it adds are those of
the session cookie with an empty value and an expiry one hour in the past.  It
returns forbidden (403) when the Basic-auth fallback `CheckBasicAuth` yields no
session, and accepted (202) when that fallback yields one. -/
theorem Authenticate_expired_session (env : Env) (p : OAuthProxy) (st : State)
    (session : SessionState)
    (hname : isCookieNameValid p.CookieName = true)
    (hload : (LoadCookiedSession env p st.req).1 = some session)
    (hexp : env.IsExpired (p.provider.RefreshMutate session) = true) :
    (Authenticate env p st).1 =
        (if (CheckBasicAuth p st.req).1 = none then StatusForbidden else StatusAccepted) ∧
    (Authenticate env p st).2.calls =
        st.calls ++ [Event.RefreshSessionIfNeeded (some session), Event.ClearSessionCookie] ∧
    (Authenticate env p st).2.rw.SetCookie =
        st.rw.SetCookie ++
          MakeSessionCookie env p [] (Hour * -1) env.now ::
            (if p.CookieDomain = [] then
              [{ MakeSessionCookie env p [] (Hour * -1) env.now with Domain := st.req.Host }]
             else []) ∧
    (MakeSessionCookie env p [] (Hour * -1) env.now).Name = p.CookieName ∧
    (MakeSessionCookie env p [] (Hour * -1) env.now).Value = [] ∧
    (MakeSessionCookie env p [] (Hour * -1) env.now).Expires < env.now := by
  rw [Authenticate_of_expired env p st session hload hexp]
  refine ⟨?_, ?_, ?_, rfl, rfl, ?_⟩
  · cases (CheckBasicAuth p st.req).1 <;> simp
  · cases (CheckBasicAuth p st.req).1 <;> simp
  · cases (CheckBasicAuth p st.req).1 <;>
      simp [ClearSessionCookie_SetCookie _ _ _ hname]
  · show env.now + Hour * -1 < env.now
    unfold Hour
    omega

/-- The theorem `Authenticate_expired_session` at the example request with an
expired session cookie. -/
theorem Authenticate_expired_session_witness :
    isCookieNameValid exampleProxy.CookieName = true ∧
    (LoadCookiedSession exampleEnv exampleProxy
      ({ req := exampleExpiredBasicRequest } : State).req).1 = some exampleExpiredSession ∧
    exampleEnv.IsExpired (exampleProxy.provider.RefreshMutate exampleExpiredSession) = true ∧
    (Authenticate exampleEnv exampleProxy { req := exampleExpiredBasicRequest }).2.calls =
      [Event.RefreshSessionIfNeeded (some exampleExpiredSession), Event.ClearSessionCookie] :=
  ⟨by decide, by decide, by decide,
    (Authenticate_expired_session exampleEnv exampleProxy { req := exampleExpiredBasicRequest }
      exampleExpiredSession (by decide) (by decide) (by decide)).2.1⟩

/-- C1 as stated fails: the example request carries a signature-valid cookie of
an expired session, the provider reports the refresh as successful, and the
request also carries the Basic credentials `alice:secret` that the credential
store validates; `Authenticate` returns accepted (202), not forbidden (403). -/
theorem expired_cookie_with_basic_auth_is_accepted :
    (LoadCookiedSession exampleEnv exampleProxy exampleExpiredBasicRequest).1
      = some exampleExpiredSession ∧
    exampleProxy.provider.RefreshSessionIfNeeded (some exampleExpiredSession) = (true, none) ∧
    exampleEnv.IsExpired (exampleProxy.provider.RefreshMutate exampleExpiredSession) = true ∧
    (Authenticate exampleEnv exampleProxy { req := exampleExpiredBasicRequest }).1
      = StatusAccepted ∧
    (Authenticate exampleEnv exampleProxy { req := exampleExpiredBasicRequest }).1
      ≠ StatusForbidden := by
  decide

/-! ## The OAuth callback -/

/-- C2 (amended).  With a CSRF cookie name that is a valid cookie name,
`OAuthCallback` clears the CSRF cookie exactly when it gets as far as the CSRF
comparison (the form parses, there is no provider `error`
parameter, the code is redeemed, `state` holds a `:` and the CSRF cookie is
present): then the first `Set-Cookie` line of the response is the CSRF cookie
with an empty value and an expiry in the past, whatever happens afterwards
(nonce mismatch, unauthorized account, failed save, success).  On every earlier
exit the response carries no `Set-Cookie` line at all. -/
theorem OAuthCallback_clears_csrf_once_checked (env : Env) (p : OAuthProxy) (req : Request)
    (hname : isCookieNameValid p.CSRFCookieName = true) :
    (reachesCSRFCheck env p req = true →
      ∃ rest, (OAuthCallback env p { req := req }).rw.SetCookie =
        MakeCSRFCookie p [] (Hour * -1) env.now :: rest) ∧
    (reachesCSRFCheck env p req = false →
      (OAuthCallback env p { req := req }).rw.SetCookie = []) ∧
    (MakeCSRFCookie p [] (Hour * -1) env.now).Name = p.CSRFCookieName ∧
    (MakeCSRFCookie p [] (Hour * -1) env.now).Value = [] ∧
    (MakeCSRFCookie p [] (Hour * -1) env.now).Expires < env.now := by
  have hlt : (MakeCSRFCookie p [] (Hour * -1) env.now).Expires < env.now := by
    show env.now + Hour * -1 < env.now
    unfold Hour
    omega
  rcases OAuthCallback_cases env p req with
    ⟨evs, code, title, message, hout, -, hreach, -, -⟩ | ⟨session, c, -, -, -, hreach, hout⟩
  · refine ⟨fun h => ?_, fun _ => ?_, rfl, rfl, hlt⟩
    · rw [hreach] at h; exact absurd h (by decide)
    · rw [hout]; rfl
  · refine ⟨fun _ => ?_, fun h => ?_, rfl, rfl, hlt⟩
    · have hpre := callbackFinish_SetCookie_prefix env p
        (ClearCSRFCookie env p ((preventCaching { req := req }).callAll
          (redeemCode env p req.Host (req.Form.Get "code".toList)).2))
        session c ((req.Form.Get "state".toList).takeWhile (fun x => x != ':'))
        ((req.Form.Get "state".toList).dropWhile (fun x => x != ':')).tail
      rw [← hout, ClearCSRFCookie_SetCookie env p _ hname] at hpre
      obtain ⟨rest, hrest⟩ := hpre
      exact ⟨rest, by rw [← hrest]; rfl⟩
    · rw [hreach] at h; exact absurd h (by decide)

/-- The theorem `OAuthCallback_clears_csrf_once_checked` at the example callback
whose nonce differs from the CSRF cookie. -/
theorem OAuthCallback_clears_csrf_once_checked_witness :
    isCookieNameValid exampleProxy.CSRFCookieName = true ∧
    reachesCSRFCheck exampleEnv exampleProxy exampleMismatchCallback = true ∧
    ∃ rest, (OAuthCallback exampleEnv exampleProxy { req := exampleMismatchCallback }).rw.SetCookie =
      MakeCSRFCookie exampleProxy [] (Hour * -1) exampleEnv.now :: rest :=
  ⟨by decide, by decide,
    (OAuthCallback_clears_csrf_once_checked exampleEnv exampleProxy exampleMismatchCallback
      (by decide)).1 (by decide)⟩

/-- C2 as stated fails: on the example callback with a provider `error`
parameter the browser holds the CSRF cookie, the response is a 403 error page,
and no `Set-Cookie` line is emitted, so the CSRF cookie is not cleared. -/
theorem provider_error_callback_keeps_csrf_cookie :
    exampleDeniedCallback.Cookie exampleProxy.CSRFCookieName = some "nonce123".toList ∧
    (OAuthCallback exampleEnv exampleProxy { req := exampleDeniedCallback }).rw.Code = some 403 ∧
    (OAuthCallback exampleEnv exampleProxy { req := exampleDeniedCallback }).rw.SetCookie = [] ∧
    ¬ ∃ c ∈ (OAuthCallback exampleEnv exampleProxy { req := exampleDeniedCallback }).rw.SetCookie,
        c.Name = exampleProxy.CSRFCookieName ∧ c.Value = [] ∧ c.Expires < exampleEnv.now := by
  decide

/-- C3.  For every request handled by `OAuthCallback` in which the CSRF cookie
is absent, or its value differs from the part of the `state` parameter before
the first `:`, the callback is rejected: `SaveSession` is never called, the only
`Set-Cookie` line the response can carry is the cleared CSRF cookie (no session
cookie is set), and the response is a single error page with status 403 or 500,
never a redirect and never status 302. -/
theorem OAuthCallback_rejects_csrf_failure (env : Env) (p : OAuthProxy) (req : Request)
    (h : req.Cookie p.CSRFCookieName = none ∨
      ∃ c, req.Cookie p.CSRFCookieName = some c ∧
        c ≠ (req.Form.Get "state".toList).takeWhile (fun x => x != ':')) :
    (∀ s, Event.SaveSession s ∉ (OAuthCallback env p { req := req }).calls) ∧
    (∀ c ∈ (OAuthCallback env p { req := req }).rw.SetCookie,
      c = MakeCSRFCookie p [] (Hour * -1) env.now) ∧
    (∃ code title message,
      (OAuthCallback env p { req := req }).rw.Body = [Page.error code title message p.ProxyPrefix] ∧
      (OAuthCallback env p { req := req }).rw.Code = some code ∧ (code = 403 ∨ code = 500)) ∧
    (∀ url code, Page.redirect url code ∉ (OAuthCallback env p { req := req }).rw.Body) ∧
    (OAuthCallback env p { req := req }).rw.Code ≠ some 302 := by
  have key : (∀ s, Event.SaveSession s ∉ (OAuthCallback env p { req := req }).calls) ∧
      (∀ c ∈ (OAuthCallback env p { req := req }).rw.SetCookie,
        c = MakeCSRFCookie p [] (Hour * -1) env.now) ∧
      (∃ code title message,
        (OAuthCallback env p { req := req }).rw.Body =
          [Page.error code title message p.ProxyPrefix] ∧
        (OAuthCallback env p { req := req }).rw.Code = some code ∧ (code = 403 ∨ code = 500)) := by
    rcases OAuthCallback_cases env p req with
      ⟨evs, code, title, message, hout, hsave, -, hcode, -⟩ | ⟨session, c, -, hc, -, -, hout⟩
    · rw [hout]
      refine ⟨fun s => ?_, fun c hc => ?_, code, title, message, ?_, ?_, ?_⟩
      · simpa using hsave s
      · simp at hc
      · simp
      · simp
      · rcases hcode with ⟨h1, -⟩ | ⟨h1, -⟩
        · exact Or.inl h1
        · exact Or.inr h1
    · rcases h with h | ⟨c', hc', hne⟩
      · rw [h] at hc; exact absurd hc (by simp)
      · rw [hc] at hc'
        have hcc : c = c' := Option.some.inj hc'
        subst hcc
        rw [hout, callbackFinish_mismatch _ _ _ _ _ _ _ hne]
        have hsave := redeemCode_no_save env p req.Host (req.Form.Get "code".toList)
        refine ⟨fun s => ?_, fun x hx => ?_, 403, "Permission Denied".toList,
          "csrf failed".toList, ?_, ?_, Or.inl rfl⟩
        · simpa using hsave s
        · rw [ErrorPage_SetCookie] at hx
          rcases ClearCSRFCookie_SetCookie_subset env p _ x hx with h0 | h0
          · simp at h0
          · exact h0
        · simp
        · simp
  obtain ⟨k1, k2, code, title, message, hbody, hcode, hc⟩ := key
  refine ⟨k1, k2, ⟨code, title, message, hbody, hcode, hc⟩, fun url c => ?_, ?_⟩
  · rw [hbody]; simp
  · rw [hcode]
    rcases hc with h1 | h1 <;> simp [h1]

/-- The theorem `OAuthCallback_rejects_csrf_failure` at the example callback
whose nonce differs from the CSRF cookie. -/
theorem OAuthCallback_rejects_csrf_failure_witness :
    (exampleMismatchCallback.Cookie exampleProxy.CSRFCookieName = none ∨
      ∃ c, exampleMismatchCallback.Cookie exampleProxy.CSRFCookieName = some c ∧
        c ≠ (exampleMismatchCallback.Form.Get "state".toList).takeWhile (fun x => x != ':')) ∧
    ∀ s, Event.SaveSession s ∉
      (OAuthCallback exampleEnv exampleProxy { req := exampleMismatchCallback }).calls :=
  ⟨Or.inr ⟨"nonce123".toList, by decide, by decide⟩,
    (OAuthCallback_rejects_csrf_failure exampleEnv exampleProxy exampleMismatchCallback
      (Or.inr ⟨"nonce123".toList, by decide, by decide⟩)).1⟩

/-- C4 (amended).  For every `OAuthCallback` request whose form parses, without
a provider `error` parameter and with a redeemed code: a missing CSRF cookie or
a CSRF cookie that differs from the nonce half of `state` (when `state` holds a
`:`) is answered with a 403 "Permission Denied" page, and a `state` without a
`:` separator is answered with the 500 "Internal Error" page "Invalid State". -/
theorem OAuthCallback_csrf_state_error_status (env : Env) (p : OAuthProxy) (req : Request)
    (hform : req.ParseFormErr = none)
    (herr : req.Form.Get "error".toList = [])
    (hred : (redeemCode env p req.Host (req.Form.Get "code".toList)).1.toBool = true)
    (hcase : ':' ∉ req.Form.Get "state".toList ∨ req.Cookie p.CSRFCookieName = none ∨
      ∃ c, req.Cookie p.CSRFCookieName = some c ∧
        c ≠ (req.Form.Get "state".toList).takeWhile (fun x => x != ':')) :
    (':' ∈ req.Form.Get "state".toList →
      (OAuthCallback env p { req := req }).rw.Code = some 403 ∧
      ∃ message, (OAuthCallback env p { req := req }).rw.Body =
        [Page.error 403 "Permission Denied".toList message p.ProxyPrefix]) ∧
    (':' ∉ req.Form.Get "state".toList →
      (OAuthCallback env p { req := req }).rw.Code = some 500 ∧
      (OAuthCallback env p { req := req }).rw.Body =
        [Page.error 500 "Internal Error".toList "Invalid State".toList p.ProxyPrefix]) := by
  rcases OAuthCallback_cases env p req with
    ⟨evs, code, title, message, hout, -, -, -, hst⟩ | ⟨session, c, -, hc, hcolon, -, hout⟩
  · obtain ⟨h1, h2⟩ := hst hform herr hred
    rw [hout]
    refine ⟨fun hcol => ?_, fun hcol => ?_⟩
    · obtain ⟨rfl, rfl⟩ := h1 hcol
      exact ⟨by simp, message, by simp⟩
    · obtain ⟨rfl, rfl, rfl⟩ := h2 hcol
      exact ⟨by simp, by simp⟩
  · refine ⟨fun _ => ?_, fun hcol => absurd hcolon hcol⟩
    rcases hcase with h | h | ⟨c', hc', hne⟩
    · exact absurd hcolon h
    · rw [h] at hc; exact absurd hc (by simp)
    · rw [hc] at hc'
      have hcc : c = c' := Option.some.inj hc'
      subst hcc
      rw [hout, callbackFinish_mismatch _ _ _ _ _ _ _ hne]
      exact ⟨by simp, "csrf failed".toList, by simp⟩

/-- The theorem `OAuthCallback_csrf_state_error_status` at the example callback
whose `state` has no separator. -/
theorem OAuthCallback_csrf_state_error_status_witness :
    exampleBadStateCallback.ParseFormErr = none ∧
    exampleBadStateCallback.Form.Get "error".toList = [] ∧
    (redeemCode exampleEnv exampleProxy exampleBadStateCallback.Host
      (exampleBadStateCallback.Form.Get "code".toList)).1.toBool = true ∧
    ':' ∉ exampleBadStateCallback.Form.Get "state".toList ∧
    (OAuthCallback exampleEnv exampleProxy { req := exampleBadStateCallback }).rw.Code = some 500 :=
  ⟨by decide, by decide, by decide, by decide,
    ((OAuthCallback_csrf_state_error_status exampleEnv exampleProxy exampleBadStateCallback
      (by decide) (by decide) (by decide) (Or.inl (by decide))).2 (by decide)).1⟩

/-- C4 as stated fails: the example callback has no `error` parameter, a
redeemable code and a `state` without `:`; the response status is 500, not 403. -/
theorem malformed_state_callback_is_internal_error :
    exampleBadStateCallback.ParseFormErr = none ∧
    exampleBadStateCallback.Form.Get "error".toList = [] ∧
    (redeemCode exampleEnv exampleProxy exampleBadStateCallback.Host
      (exampleBadStateCallback.Form.Get "code".toList)).1.toBool = true ∧
    ':' ∉ exampleBadStateCallback.Form.Get "state".toList ∧
    (OAuthCallback exampleEnv exampleProxy { req := exampleBadStateCallback }).rw.Code = some 500 ∧
    (OAuthCallback exampleEnv exampleProxy { req := exampleBadStateCallback }).rw.Code ≠ some 403 := by
  decide

/-! ## The redirect validator -/

/-- C5.  For every candidate that begins with `/` followed by a run of zero or
more whitespace or vertical-tab bytes, or by one or two literal dots, and then by
`/` or `\`, `IsValidRedirect` returns false, for every whitelist, every
sign-in and start path, and every behaviour of the URL parser. -/
theorem IsValidRedirect_rejects_trick_prefix (env : Env) (p : OAuthProxy)
    (mid rest : Str) (sep : Char)
    (hmid : (∀ c ∈ mid, c ∈ spaceBytes) ∨ mid = ['.'] ∨ mid = ['.', '.'])
    (hsep : sep = '/' ∨ sep = '\\') :
    IsValidRedirect env p ('/' :: mid ++ sep :: rest) = false := by
  have hm : MatchString invalidRedirectRe ('/' :: mid ++ sep :: rest) = true := by
    have := MatchString_of_infix invalidRedirectRe [] ('/' :: mid ++ [sep]) rest
      (invalidRedirectRe_rmatch '/' sep mid (Or.inl rfl) hsep hmid)
    simpa using this
  have hp : HasPrefix ('/' :: mid ++ sep :: rest) "/".toList = true := by
    simp [HasPrefix]
  unfold IsValidRedirect
  cases env.urlParse ('/' :: mid ++ sep :: rest) with
  | none => rfl
  | some url =>
    simp only [hm, hp]
    split_ifs <;> simp_all

/-- The theorem `IsValidRedirect_rejects_trick_prefix` at the candidate `/ /evil.com`. -/
theorem IsValidRedirect_rejects_trick_prefix_witness :
    ((∀ c ∈ [' '], c ∈ spaceBytes) ∨ [' '] = ['.'] ∨ [' '] = ['.', '.']) ∧
    ('/' = '/' ∨ '/' = '\\') ∧
    IsValidRedirect exampleEnv exampleProxy "/ /evil.com".toList = false :=
  ⟨Or.inl (by decide), Or.inl rfl,
    IsValidRedirect_rejects_trick_prefix exampleEnv exampleProxy [' '] "evil.com".toList '/'
      (Or.inl (by decide)) (Or.inl rfl)⟩

/-- C6.  For every candidate that begins with `http://` or `https://`, parses as
a URL and whose path is neither the sign-in path nor the OAuth-start path,
`IsValidRedirect` returns true if and only if some whitelisted domain `d` equals
the URL's host, or starts with `.` and is a suffix of the host; with an empty
whitelist every such candidate is rejected. -/
theorem IsValidRedirect_absolute_iff_whitelisted (env : Env) (p : OAuthProxy)
    (redirect : Str) (url : URL)
    (hpre : "http://".toList <+: redirect ∨ "https://".toList <+: redirect)
    (hparse : env.urlParse redirect = some url)
    (hsign : url.Path ≠ p.SignInPath) (hstart : url.Path ≠ p.OAuthStartPath) :
    (IsValidRedirect env p redirect = true ↔
      ∃ d ∈ p.whitelistDomains, url.Host = d ∨ (['.'] <+: d ∧ d <:+ url.Host)) ∧
    (p.whitelistDomains = [] → IsValidRedirect env p redirect = false) := by
  have hns : HasPrefix redirect ['/'] = false := by
    rcases hpre with ⟨t, rfl⟩ | ⟨t, rfl⟩ <;> rfl
  have hh : (HasPrefix redirect ['h', 't', 't', 'p', ':', '/', '/'] ||
      HasPrefix redirect ['h', 't', 't', 'p', 's', ':', '/', '/']) = true := by
    rcases hpre with h | h
    · exact Bool.or_eq_true_iff.2 (Or.inl (List.isPrefixOf_iff_prefix.2 h))
    · exact Bool.or_eq_true_iff.2 (Or.inr (List.isPrefixOf_iff_prefix.2 h))
  have key : IsValidRedirect env p redirect = whitelistLoop url.Host p.whitelistDomains := by
    unfold IsValidRedirect
    simp [hparse, hsign, hstart, hns, hh]
  refine ⟨by rw [key, whitelistLoop_iff], fun h => ?_⟩
  rw [key, h]; rfl

/-- The theorem `IsValidRedirect_absolute_iff_whitelisted` at the candidate
`https://sub.allowed.com/x` with the whitelisted domain `.allowed.com`. -/
theorem IsValidRedirect_absolute_iff_whitelisted_witness :
    ("http://".toList <+: "https://sub.allowed.com/x".toList ∨
      "https://".toList <+: "https://sub.allowed.com/x".toList) ∧
    exampleEnv.urlParse "https://sub.allowed.com/x".toList =
      some { Scheme := "https".toList, Host := "sub.allowed.com".toList, Path := "/x".toList } ∧
    "/x".toList ≠ exampleProxy.SignInPath ∧ "/x".toList ≠ exampleProxy.OAuthStartPath ∧
    IsValidRedirect exampleEnv exampleProxy "https://sub.allowed.com/x".toList = true :=
  ⟨Or.inr (by decide), by decide, by decide, by decide,
    ((IsValidRedirect_absolute_iff_whitelisted exampleEnv exampleProxy
      "https://sub.allowed.com/x".toList
      { Scheme := "https".toList, Host := "sub.allowed.com".toList, Path := "/x".toList }
      (Or.inr (by decide)) (by decide) (by decide) (by decide)).1).2
      ⟨".allowed.com".toList, by decide, Or.inr ⟨by decide, by decide⟩⟩⟩

/-- C7.  For every candidate that begins with `/`, parses as a URL, has a path
different from the sign-in path and the OAuth-start path, and contains no match
of the open-redirect pattern, `IsValidRedirect` returns true, whatever the
domain whitelist is. -/
theorem IsValidRedirect_accepts_plain_path (env : Env) (p : OAuthProxy)
    (redirect : Str) (url : URL)
    (hpre : "/".toList <+: redirect)
    (hparse : env.urlParse redirect = some url)
    (hsign : url.Path ≠ p.SignInPath) (hstart : url.Path ≠ p.OAuthStartPath)
    (hre : MatchString invalidRedirectRe redirect = false) :
    IsValidRedirect env p redirect = true := by
  have hp : HasPrefix redirect ['/'] = true := List.isPrefixOf_iff_prefix.2 hpre
  unfold IsValidRedirect
  simp [hparse, hsign, hstart, hp, hre]

/-- The theorem `IsValidRedirect_accepts_plain_path` at the candidate `/dashboard`
with an empty whitelist. -/
theorem IsValidRedirect_accepts_plain_path_witness :
    "/".toList <+: "/dashboard".toList ∧
    exampleEnv.urlParse "/dashboard".toList = some { Path := "/dashboard".toList } ∧
    "/dashboard".toList ≠ exampleProxy.SignInPath ∧
    "/dashboard".toList ≠ exampleProxy.OAuthStartPath ∧
    MatchString invalidRedirectRe "/dashboard".toList = false ∧
    IsValidRedirect exampleEnv { exampleProxy with whitelistDomains := [] }
      "/dashboard".toList = true :=
  ⟨by decide, by decide, by decide, by decide, by decide,
    IsValidRedirect_accepts_plain_path exampleEnv { exampleProxy with whitelistDomains := [] }
      "/dashboard".toList { Path := "/dashboard".toList }
      (by decide) (by decide) (by decide) (by decide) (by decide)⟩

/-- C8.  For every candidate whose parsed URL path equals the sign-in path or
the OAuth-start path, `IsValidRedirect` returns false, whatever the form of the
candidate and whatever the whitelist. -/
theorem IsValidRedirect_rejects_auth_paths (env : Env) (p : OAuthProxy)
    (redirect : Str) (url : URL)
    (hparse : env.urlParse redirect = some url)
    (hpath : url.Path = p.SignInPath ∨ url.Path = p.OAuthStartPath) :
    IsValidRedirect env p redirect = false := by
  unfold IsValidRedirect
  simp [hparse, hpath]

/-- The theorem `IsValidRedirect_rejects_auth_paths` at the candidate
`/oauth2/sign_in?rd=x`. -/
theorem IsValidRedirect_rejects_auth_paths_witness :
    exampleEnv.urlParse "/oauth2/sign_in?rd=x".toList =
      some { Path := "/oauth2/sign_in".toList, RawQuery := "rd=x".toList } ∧
    ("/oauth2/sign_in".toList = exampleProxy.SignInPath ∨
      "/oauth2/sign_in".toList = exampleProxy.OAuthStartPath) ∧
    IsValidRedirect exampleEnv exampleProxy "/oauth2/sign_in?rd=x".toList = false :=
  ⟨by decide, Or.inl (by decide),
    IsValidRedirect_rejects_auth_paths exampleEnv exampleProxy "/oauth2/sign_in?rd=x".toList
      { Path := "/oauth2/sign_in".toList, RawQuery := "rd=x".toList }
      (by decide) (Or.inl (by decide))⟩

/-- C9.  For every candidate that begins with none of `/`, `http://` and
`https://`, `IsValidRedirect` returns false, for every whitelist. -/
theorem IsValidRedirect_rejects_other_schemes (env : Env) (p : OAuthProxy) (redirect : Str)
    (h1 : ¬ "/".toList <+: redirect) (h2 : ¬ "http://".toList <+: redirect)
    (h3 : ¬ "https://".toList <+: redirect) :
    IsValidRedirect env p redirect = false := by
  have e1 : HasPrefix redirect ['/'] = false :=
    Bool.eq_false_iff.2 (fun h => h1 (List.isPrefixOf_iff_prefix.1 h))
  have e2 : HasPrefix redirect ['h', 't', 't', 'p', ':', '/', '/'] = false :=
    Bool.eq_false_iff.2 (fun h => h2 (List.isPrefixOf_iff_prefix.1 h))
  have e3 : HasPrefix redirect ['h', 't', 't', 'p', 's', ':', '/', '/'] = false :=
    Bool.eq_false_iff.2 (fun h => h3 (List.isPrefixOf_iff_prefix.1 h))
  unfold IsValidRedirect
  cases env.urlParse redirect with
  | none => rfl
  | some url => simp [e1, e2, e3]

/-- The theorem `IsValidRedirect_rejects_other_schemes` at the candidate
`javascript:alert(1)`. -/
theorem IsValidRedirect_rejects_other_schemes_witness :
    ¬ "/".toList <+: "javascript:alert(1)".toList ∧
    ¬ "http://".toList <+: "javascript:alert(1)".toList ∧
    ¬ "https://".toList <+: "javascript:alert(1)".toList ∧
    IsValidRedirect exampleEnv exampleProxy "javascript:alert(1)".toList = false :=
  ⟨by decide, by decide, by decide,
    IsValidRedirect_rejects_other_schemes exampleEnv exampleProxy "javascript:alert(1)".toList
      (by decide) (by decide) (by decide)⟩

/-- C10.  For every request whose form data parses, `GetRedirect` returns
without error the candidate (the `rd` form value if non-empty, else the
`X-Auth-Request-Redirect` header if non-empty, else the request URI) when
`IsValidRedirect` accepts the candidate, and `/` otherwise; hence the returned
redirect is either `/` or a value `IsValidRedirect` accepts. -/
theorem GetRedirect_candidate_or_root (env : Env) (p : OAuthProxy) (req : Request)
    (hform : req.ParseFormErr = none) :
    GetRedirect env p req =
      (if IsValidRedirect env p (redirectCandidate env req) = true then redirectCandidate env req
       else "/".toList, none) ∧
    ((GetRedirect env p req).1 = "/".toList ∨
      IsValidRedirect env p (GetRedirect env p req).1 = true) := by
  have key : GetRedirect env p req =
      (if IsValidRedirect env p (redirectCandidate env req) = true then redirectCandidate env req
       else "/".toList, none) := by
    unfold GetRedirect redirectCandidate
    rw [hform]
    by_cases h1 : req.Form.Get "rd".toList = []
    · by_cases h2 : req.Header.Get "X-Auth-Request-Redirect".toList = []
      · simp only [h1, h2, if_true, ne_eq, not_true_eq_false, if_false]
        cases IsValidRedirect env p (env.urlRequestURI req.URL) <;> rfl
      · simp only [h1, h2, if_true, ne_eq, not_true_eq_false, if_false, not_false_eq_true]
        cases IsValidRedirect env p (req.Header.Get "X-Auth-Request-Redirect".toList) <;> rfl
    · simp only [h1, if_true, ne_eq, not_true_eq_false, if_false, not_false_eq_true]
      cases IsValidRedirect env p (req.Form.Get "rd".toList) <;> rfl
  refine ⟨key, ?_⟩
  rw [key]
  by_cases h : IsValidRedirect env p (redirectCandidate env req) = true
  · right; rw [if_pos h]; exact h
  · left; rw [if_neg h]

/-- The theorem `GetRedirect_candidate_or_root` at a request with `rd=/dashboard`. -/
theorem GetRedirect_candidate_or_root_witness :
    ({ Form := [("rd".toList, ["/dashboard".toList])] } : Request).ParseFormErr = none ∧
    GetRedirect exampleEnv exampleProxy { Form := [("rd".toList, ["/dashboard".toList])] } =
      ("/dashboard".toList, none) :=
  ⟨rfl, (GetRedirect_candidate_or_root exampleEnv exampleProxy
      { Form := [("rd".toList, ["/dashboard".toList])] } rfl).1.trans (by decide)⟩

/-! ## Base64 round trip and splitting -/

theorem b64Value_b64Char_fin : ∀ n : Fin 64, b64Value (b64Char n) = some n.val := by decide

theorem b64Value_b64Char (n : Nat) (h : n < 64) : b64Value (b64Char n) = some n :=
  b64Value_b64Char_fin ⟨n, h⟩

theorem b64Char_keep_fin : ∀ n : Fin 64,
    (b64Char n != '\r' && b64Char n != '\n') = true := by decide

theorem b64Char_keep (n : Nat) (h : n < 64) :
    (b64Char n != '\r' && b64Char n != '\n') = true :=
  b64Char_keep_fin ⟨n, h⟩

theorem b64Value_pad : b64Value '=' = none := by decide

/-- The quanta of an encoding decode to the encoded bytes. -/
theorem b64Quanta_encode (bs : List Nat) (h : ∀ b ∈ bs, b < 256) :
    b64Quanta (b64EncodeBytes bs) = some bs := by
  induction bs using b64EncodeBytes.induct with
  | case1 => rfl
  | case2 a =>
    have ha : a < 256 := h a (by simp)
    simp only [b64EncodeBytes, b64Quanta]
    rw [b64Value_b64Char _ (by omega), b64Value_b64Char _ (by omega), b64Value_pad]
    simp only [and_self, if_true]
    congr 2
    omega
  | case3 a b =>
    have ha : a < 256 := h a (by simp)
    have hb : b < 256 := h b (by simp)
    simp only [b64EncodeBytes, b64Quanta]
    rw [b64Value_b64Char _ (by omega), b64Value_b64Char _ (by omega),
      b64Value_b64Char _ (by omega), b64Value_pad]
    simp only [and_self, if_true]
    congr 2
    · omega
    · congr 1; omega
  | case4 a b c rest ih =>
    have ha : a < 256 := h a (by simp)
    have hb : b < 256 := h b (by simp)
    have hc : c < 256 := h c (by simp)
    have hrest : ∀ x ∈ rest, x < 256 := fun x hx => h x (by simp [hx])
    simp only [b64EncodeBytes, b64Quanta]
    rw [b64Value_b64Char _ (by omega), b64Value_b64Char _ (by omega),
      b64Value_b64Char _ (by omega), b64Value_b64Char _ (by omega)]
    simp only [ih hrest, Option.map_some']
    congr 2
    · omega
    · congr 1
      · omega
      · congr 1; omega

theorem b64EncodeBytes_keep (bs : List Nat) (h : ∀ b ∈ bs, b < 256) :
    ∀ c ∈ b64EncodeBytes bs, (c != '\r' && c != '\n') = true := by
  induction bs using b64EncodeBytes.induct with
  | case1 => simp [b64EncodeBytes]
  | case2 a =>
    have ha : a < 256 := h a (by simp)
    intro c hc
    simp only [b64EncodeBytes, List.mem_cons, List.mem_singleton, List.not_mem_nil, or_false] at hc
    rcases hc with rfl | rfl | rfl | rfl
    · exact b64Char_keep _ (by omega)
    · exact b64Char_keep _ (by omega)
    · decide
    · decide
  | case3 a b =>
    have ha : a < 256 := h a (by simp)
    have hb : b < 256 := h b (by simp)
    intro c hc
    simp only [b64EncodeBytes, List.mem_cons, List.mem_singleton, List.not_mem_nil, or_false] at hc
    rcases hc with rfl | rfl | rfl | rfl
    · exact b64Char_keep _ (by omega)
    · exact b64Char_keep _ (by omega)
    · exact b64Char_keep _ (by omega)
    · decide
  | case4 a b c rest ih =>
    have ha : a < 256 := h a (by simp)
    have hb : b < 256 := h b (by simp)
    have hc : c < 256 := h c (by simp)
    have hrest : ∀ x ∈ rest, x < 256 := fun x hx => h x (by simp [hx])
    intro x hx
    simp only [b64EncodeBytes, List.mem_cons] at hx
    rcases hx with rfl | rfl | rfl | rfl | hx
    · exact b64Char_keep _ (by omega)
    · exact b64Char_keep _ (by omega)
    · exact b64Char_keep _ (by omega)
    · exact b64Char_keep _ (by omega)
    · exact ih hrest x hx

/-- Decoding the standard encoding of a byte string gives the string back. -/
theorem b64DecodeString_encode (s : Str) (h : ∀ c ∈ s, c.toNat < 256) :
    b64DecodeString (b64EncodeToString s) = some s := by
  have hb : ∀ b ∈ s.map (fun c => c.toNat % 256), b < 256 := by
    intro b hb
    rw [List.mem_map] at hb
    obtain ⟨c, -, rfl⟩ := hb
    omega
  unfold b64DecodeString b64EncodeToString
  rw [List.filter_eq_self.2 (b64EncodeBytes_keep _ hb), b64Quanta_encode _ hb]
  simp only [Option.map_some', List.map_map]
  congr 1
  conv_rhs => rw [← List.map_id s]
  apply List.map_congr_left
  intro c hc
  have hc256 := h c hc
  simp only [Function.comp, id]
  rw [Nat.mod_eq_of_lt hc256]
  exact Char.ofNat_toNat c

theorem SplitN2_append (a b : Str) (sep : Char) (h : sep ∉ a) :
    SplitN2 (a ++ sep :: b) sep = [a, b] := by
  rw [SplitN2_of_mem _ _ (by simp)]
  have hall : ∀ x ∈ a, (x != sep) = true := by
    intro x hx
    have : x ≠ sep := fun e => h (e ▸ hx)
    simpa using this
  rw [List.takeWhile_append_of_pos hall, List.dropWhile_append_of_pos hall]
  simp

/-! ## Lookups in a header map -/

theorem lookup_filter_ne (h : Header) (c k : Str) (hne : k ≠ c) :
    (h.filter (fun kv => kv.1 != c)).lookup k = h.lookup k := by
  induction h with
  | nil => rfl
  | cons kv rest ih =>
    obtain ⟨k0, v0⟩ := kv
    by_cases h0 : k0 = c
    · subst h0
      have hk : (k == k0) = false := by simpa using hne
      simp [List.filter_cons, List.lookup_cons, hk, ih]
    · have hk : (k0 != c) = true := by simpa using h0
      simp only [List.filter_cons, hk, if_true, List.lookup_cons]
      rw [ih]

theorem lookup_filter_self (h : Header) (c : Str) :
    (h.filter (fun kv => kv.1 != c)).lookup c = none := by
  induction h with
  | nil => rfl
  | cons kv rest ih =>
    obtain ⟨k0, v0⟩ := kv
    by_cases h0 : k0 = c
    · subst h0
      simp [List.filter_cons, ih]
    · have hk : (k0 != c) = true := by simpa using h0
      have hk2 : (c == k0) = false := by simpa using (Ne.symm h0)
      simp only [List.filter_cons, hk, if_true, List.lookup_cons, hk2]
      exact ih

theorem lookup_Del_self (h : Header) (key : Str) :
    (Header.Del h key).lookup (CanonicalMIMEHeaderKey key) = none :=
  lookup_filter_self h _

theorem lookup_Del_other (h : Header) (key k : Str) (hne : k ≠ CanonicalMIMEHeaderKey key) :
    (Header.Del h key).lookup k = h.lookup k :=
  lookup_filter_ne h _ k hne

theorem lookup_Set_self (h : Header) (key value : Str) :
    (Header.Set h key value).lookup (CanonicalMIMEHeaderKey key) = some [value] := by
  simp [Header.Set, List.lookup_cons]

theorem lookup_Set_other (h : Header) (key value k : Str)
    (hne : k ≠ CanonicalMIMEHeaderKey key) :
    (Header.Set h key value).lookup k = h.lookup k := by
  have hk : (k == CanonicalMIMEHeaderKey key) = false := by simpa using hne
  simp only [Header.Set, List.lookup_cons, hk]
  exact lookup_Del_other h key k hne

theorem Get_Set_self (h : Header) (key value : Str) :
    Header.Get (Header.Set h key value) key = value := by
  simp only [Header.Get, lookup_Set_self]

theorem Get_Set_other (h : Header) (key value k : Str)
    (hne : CanonicalMIMEHeaderKey k ≠ CanonicalMIMEHeaderKey key) :
    Header.Get (Header.Set h key value) k = Header.Get h k := by
  simp only [Header.Get, lookup_Set_other h key value _ hne]

theorem Get_Del_other (h : Header) (key k : Str)
    (hne : CanonicalMIMEHeaderKey k ≠ CanonicalMIMEHeaderKey key) :
    Header.Get (Header.Del h key) k = Header.Get h k := by
  simp only [Header.Get, lookup_Del_other h key _ hne]

/-! ## The steps of `Authenticate` -/

theorem Authenticate_eq (env : Env) (p : OAuthProxy) (st : State) :
    Authenticate env p st =
      authFinish env p (authSettled env p st).1 (authSettled env p st).2 := rfl

theorem LoadCookiedSession_congr (env : Env) (p : OAuthProxy) (r1 r2 : Request)
    (h : r1.Cookies = r2.Cookies) :
    LoadCookiedSession env p r1 = LoadCookiedSession env p r2 := by
  unfold LoadCookiedSession Request.Cookie
  rw [h]

theorem authRefresh_req (p : OAuthProxy) (v : AuthVars) (st : State) :
    (authRefresh p v st).2.req = st.req := by
  unfold authRefresh
  simp only []
  split
  · rfl
  · split <;> rfl

theorem authRefresh_rw (p : OAuthProxy) (v : AuthVars) (st : State) :
    (authRefresh p v st).2.rw = st.rw := by
  unfold authRefresh
  simp only []
  split
  · rfl
  · split <;> rfl

theorem authRefresh_calls (p : OAuthProxy) (v : AuthVars) (st : State) :
    (authRefresh p v st).2.calls = st.calls ++ [Event.RefreshSessionIfNeeded v.session] := by
  unfold authRefresh
  simp only []
  split
  · rfl
  · split <;> rfl

theorem authRevalidate_req (p : OAuthProxy) (v : AuthVars) (st : State) :
    (authRevalidate p v st).2.req = st.req := by
  unfold authRevalidate
  split
  · split_ifs <;> rfl
  · rfl

theorem authRevalidate_rw (p : OAuthProxy) (v : AuthVars) (st : State) :
    (authRevalidate p v st).2.rw = st.rw := by
  unfold authRevalidate
  split
  · split_ifs <;> rfl
  · rfl

theorem authValidator_req (p : OAuthProxy) (v : AuthVars) (st : State) :
    (authValidator p v st).2.req = st.req := by
  unfold authValidator
  split
  · split_ifs <;> rfl
  · rfl

theorem authValidator_rw (p : OAuthProxy) (v : AuthVars) (st : State) :
    (authValidator p v st).2.rw = st.rw := by
  unfold authValidator
  split
  · split_ifs <;> rfl
  · rfl

theorem authChecked_req (env : Env) (p : OAuthProxy) (st : State) :
    (authChecked env p st).2.req = st.req := by
  unfold authChecked
  simp only [authRevalidate_req, authRefresh_req]

theorem authChecked_rw (env : Env) (p : OAuthProxy) (st : State) :
    (authChecked env p st).2.rw = st.rw := by
  unfold authChecked
  simp only [authRevalidate_rw, authRefresh_rw]

theorem authSettled_req (env : Env) (p : OAuthProxy) (st : State) :
    (authSettled env p st).2.req = st.req := by
  unfold authSettled
  rw [authValidator_req, authChecked_req]

theorem authSettled_rw (env : Env) (p : OAuthProxy) (st : State) :
    (authSettled env p st).2.rw = st.rw := by
  unfold authSettled
  rw [authValidator_rw, authChecked_rw]

@[simp]
theorem SaveSession_req (env : Env) (p : OAuthProxy) (st : State) (s : SessionState) :
    (SaveSession env p st s).2.req = st.req := by
  unfold SaveSession
  simp only []
  split <;> simp [SetSessionCookie]

@[simp]
theorem authHeaders_Code (p : OAuthProxy) (s : SessionState) (st : State) :
    (authHeaders p s st).rw.Code = st.rw.Code := by
  unfold authHeaders
  simp only []
  split_ifs <;> rfl

@[simp]
theorem authHeaders_Body (p : OAuthProxy) (s : SessionState) (st : State) :
    (authHeaders p s st).rw.Body = st.rw.Body := by
  unfold authHeaders
  simp only []
  split_ifs <;> rfl

/-! ## Basic credentials without a cookie -/

theorem CheckBasicAuth_of_basic (p : OAuthProxy) (req : Request) (htpasswd : HtpasswdFile)
    (user password : Str)
    (hstore : p.HtpasswdFile = some htpasswd)
    (hbytes : ∀ c ∈ user ++ ':' :: password, c.toNat < 256)
    (hcolon : ':' ∉ user)
    (hauth : req.Header.Get "Authorization".toList =
      "Basic ".toList ++ b64EncodeToString (user ++ ":".toList ++ password)) :
    CheckBasicAuth p req =
      if htpasswd.Validate user password then (some { User := user }, none)
      else (none, some (user ++ " not in HtpasswdFile".toList)) := by
  have hsplit : SplitN2 ("Basic ".toList ++ b64EncodeToString (user ++ ":".toList ++ password)) ' '
      = ["Basic".toList, b64EncodeToString (user ++ ":".toList ++ password)] :=
    SplitN2_append "Basic".toList _ ' ' (by decide)
  have hcat : user ++ ":".toList ++ password = user ++ ':' :: password := by simp
  have hdec : b64DecodeString (b64EncodeToString (user ++ ":".toList ++ password))
      = some (user ++ ':' :: password) := by
    rw [hcat]
    exact b64DecodeString_encode _ hbytes
  have hpair : SplitN2 (user ++ ':' :: password) ':' = [user, password] :=
    SplitN2_append user password ':' hcolon
  have hne : "Basic ".toList ++ b64EncodeToString (user ++ ":".toList ++ password) ≠ [] := by
    intro h
    have := congrArg List.length h
    simp at this
  unfold CheckBasicAuth
  rw [hstore]
  simp only [hauth]
  rw [if_neg hne, hsplit]
  simp only [ne_eq, not_true_eq_false, if_false, hdec, hpair]

theorem authLoad_no_cookie (env : Env) (p : OAuthProxy) (st : State)
    (h : st.req.Cookie p.CookieName = none) :
    authLoad env p st = { session := none } := by
  unfold authLoad LoadCookiedSession
  rw [h]

theorem authSettled_no_session (env : Env) (p : OAuthProxy) (st : State)
    (hcookie : st.req.Cookie p.CookieName = none)
    (hrefresh : p.provider.RefreshSessionIfNeeded none = (false, none)) :
    authSettled env p st =
      ({ session := none }, st.call (.RefreshSessionIfNeeded none)) := by
  unfold authSettled authChecked
  rw [authLoad_no_cookie env p st hcookie]
  simp only [authRefresh, hrefresh, Option.map_none', Bool.false_eq_true, if_false, authExpiry,
    authRevalidate, authValidator]

theorem Authenticate_no_session (env : Env) (p : OAuthProxy) (st : State)
    (hcookie : st.req.Cookie p.CookieName = none)
    (hrefresh : p.provider.RefreshSessionIfNeeded none = (false, none)) :
    Authenticate env p st =
      match (CheckBasicAuth p st.req).1 with
      | none => (StatusForbidden, st.call (.RefreshSessionIfNeeded none))
      | some session =>
        (StatusAccepted, authHeaders p session (st.call (.RefreshSessionIfNeeded none))) := by
  rw [Authenticate_eq, authSettled_no_session env p st hcookie hrefresh]
  unfold authFinish
  simp only [Bool.false_eq_true, if_false, call_req]

theorem authHeaders_GAPAuth (p : OAuthProxy) (s : SessionState) (st : State) :
    (authHeaders p s st).rw.Header.Get "GAP-Auth".toList =
      if s.Email = [] then s.User else s.Email := by
  unfold authHeaders
  simp only []
  split_ifs <;> exact Get_Set_self _ _ _

/-- C11 (amended). On a request with no session cookie, for a provider whose
refresh of an absent session returns `(false, nil)`, whose `Authorization`
header is `Basic ` followed by the Base64 text of `user:password`, where the
user name holds no colon and the credential store validates the pair,
`Authenticate` returns accepted (202) with the session whose `User` is the user
and whose other fields are empty, sets the `GAP-Auth` response header to the
user, neither sets nor clears the session cookie, and calls nothing but the
refresh step. -/
theorem Authenticate_basic_auth_accepted (env : Env) (p : OAuthProxy) (st : State)
    (htpasswd : HtpasswdFile) (user password : Str)
    (hcookie : st.req.Cookie p.CookieName = none)
    (hrefresh : p.provider.RefreshSessionIfNeeded none = (false, none))
    (hstore : p.HtpasswdFile = some htpasswd)
    (hbytes : ∀ c ∈ user ++ ':' :: password, c.toNat < 256)
    (hcolon : ':' ∉ user)
    (hauth : st.req.Header.Get "Authorization".toList =
      "Basic ".toList ++ b64EncodeToString (user ++ ":".toList ++ password))
    (hvalid : htpasswd.Validate user password = true) :
    Authenticate env p st =
      (StatusAccepted,
        authHeaders p { User := user } (st.call (.RefreshSessionIfNeeded none))) ∧
    authSession env p st = some { User := user } ∧
    (Authenticate env p st).2.rw.Header.Get "GAP-Auth".toList = user ∧
    (Authenticate env p st).2.rw.SetCookie = st.rw.SetCookie ∧
    (Authenticate env p st).2.calls = st.calls ++ [Event.RefreshSessionIfNeeded none] := by
  have hbasic := CheckBasicAuth_of_basic p st.req htpasswd user password hstore hbytes hcolon hauth
  rw [hvalid, if_pos rfl] at hbasic
  have hA := Authenticate_no_session env p st hcookie hrefresh
  rw [hbasic] at hA
  simp only [] at hA
  refine ⟨hA, ?_, ?_, ?_, ?_⟩
  · unfold authSession
    rw [authSettled_no_session env p st hcookie hrefresh, hbasic]
  · rw [hA, authHeaders_GAPAuth]
    rfl
  · rw [hA]; simp
  · rw [hA]; simp

/-! ## A session the authorization predicate rejects -/

@[simp]
theorem SetCookie_Header (st : State) (c : Cookie) :
    (SetCookie st c).rw.Header = st.rw.Header := by
  unfold SetCookie; split <;> rfl

@[simp]
theorem ClearSessionCookie_Header (env : Env) (p : OAuthProxy) (st : State) :
    (ClearSessionCookie env p st).rw.Header = st.rw.Header := by
  unfold ClearSessionCookie; simp only []; split_ifs <;> simp

theorem ClearSessionCookie_SetCookie_congr (env : Env) (p : OAuthProxy) (st st' : State)
    (hrw : st.rw = st'.rw) (hreq : st.req = st'.req) :
    (ClearSessionCookie env p st).rw.SetCookie = (ClearSessionCookie env p st').rw.SetCookie := by
  unfold ClearSessionCookie
  simp only [SetCookie_SetCookie, SetCookie_req, call_req, call_rw, hrw, hreq]
  split_ifs <;> simp only [SetCookie_SetCookie, SetCookie_req, call_req, call_rw, hrw, hreq]

theorem authHeaders_req_congr (p : OAuthProxy) (s : SessionState) (st st' : State)
    (h : st.req = st'.req) : (authHeaders p s st).req = (authHeaders p s st').req := by
  unfold authHeaders
  simp only [h]

theorem authHeaders_rw_Header_congr (p : OAuthProxy) (s : SessionState) (st st' : State)
    (h : st.rw.Header = st'.rw.Header) :
    (authHeaders p s st).rw.Header = (authHeaders p s st').rw.Header := by
  unfold authHeaders
  simp only [h]
  split_ifs <;> simp only [h]

theorem authChecked_calls_save (env : Env) (p : OAuthProxy) (st : State) (s : SessionState)
    (h : Event.SaveSession s ∈ (authChecked env p st).2.calls) :
    Event.SaveSession s ∈ st.calls := by
  unfold authChecked authRevalidate at h
  simp only [] at h
  split at h
  · split_ifs at h <;> simpa [authRefresh_calls] using h
  · simpa [authRefresh_calls] using h

theorem Authenticate_of_rejected (env : Env) (p : OAuthProxy) (st : State)
    (session : SessionState)
    (hsess : (authChecked env p st).1.session = some session)
    (hemail : session.Email ≠ [])
    (hreject : p.Validator session.Email = false) :
    Authenticate env p st =
      match (CheckBasicAuth p st.req).1 with
      | none => (StatusForbidden,
          ClearSessionCookie env p ((authChecked env p st).2.call (.Validator session.Email)))
      | some basic => (StatusAccepted, authHeaders p basic
          (ClearSessionCookie env p ((authChecked env p st).2.call (.Validator session.Email)))) := by
  have hset : (authSettled env p st).1.session = none ∧
      (authSettled env p st).1.clearSession = true ∧
      (authSettled env p st).2 = (authChecked env p st).2.call (.Validator session.Email) := by
    unfold authSettled authValidator
    rw [hsess]
    simp only [ne_eq, hemail, not_false_eq_true, if_true, hreject, Bool.not_false, and_self]
  rw [Authenticate_eq, authFinish_dropped _ _ _ _ hset.1 hset.2.1, hset.2.2]
  simp only [call_req, authChecked_req]

/-- C12. When the session left by the refresh, expiry and revalidation steps
has a non-empty email that the `Validator` rejects, `Authenticate` drops it:
the calls that follow are the `Validator` call and the clearing of the session
cookie, no session is saved in the call, the cookies set are those of
`ClearSessionCookie`, and the status, the request and the response headers are
those of the Basic-auth fallback alone (403 and nothing written without one),
so nothing of the rejected session reaches a request or response header. -/
theorem Authenticate_drops_rejected_session (env : Env) (p : OAuthProxy) (st : State)
    (session : SessionState)
    (hsess : (authChecked env p st).1.session = some session)
    (hemail : session.Email ≠ [])
    (hreject : p.Validator session.Email = false) :
    (Authenticate env p st).2.calls =
      (authChecked env p st).2.calls ++
        [Event.Validator session.Email, Event.ClearSessionCookie] ∧
    (∀ s, Event.SaveSession s ∈ (Authenticate env p st).2.calls →
      Event.SaveSession s ∈ st.calls) ∧
    (Authenticate env p st).2.rw.SetCookie = (ClearSessionCookie env p st).rw.SetCookie ∧
    (Authenticate env p st).1 =
      (if (CheckBasicAuth p st.req).1 = none then StatusForbidden else StatusAccepted) ∧
    (Authenticate env p st).2.req =
      (match (CheckBasicAuth p st.req).1 with
       | none => st.req
       | some basic => (authHeaders p basic st).req) ∧
    (Authenticate env p st).2.rw.Header =
      (match (CheckBasicAuth p st.req).1 with
       | none => st.rw.Header
       | some basic => (authHeaders p basic st).rw.Header) := by
  have hA := Authenticate_of_rejected env p st session hsess hemail hreject
  have hcalls : (Authenticate env p st).2.calls =
      (authChecked env p st).2.calls ++
        [Event.Validator session.Email, Event.ClearSessionCookie] := by
    rw [hA]
    cases (CheckBasicAuth p st.req).1 <;> simp
  have hcookie : (ClearSessionCookie env p
        ((authChecked env p st).2.call (.Validator session.Email))).rw.SetCookie =
      (ClearSessionCookie env p st).rw.SetCookie :=
    ClearSessionCookie_SetCookie_congr env p _ _
      (by rw [call_rw, authChecked_rw]) (by rw [call_req, authChecked_req])
  refine ⟨hcalls, fun s hs => ?_, ?_, ?_, ?_, ?_⟩
  · rw [hcalls] at hs
    simp only [List.mem_append, List.mem_cons, List.mem_singleton, reduceCtorEq,
      List.not_mem_nil, or_false] at hs
    exact authChecked_calls_save env p st s hs
  · rw [hA]
    cases (CheckBasicAuth p st.req).1 <;> simp [hcookie]
  · rw [hA]
    cases (CheckBasicAuth p st.req).1 <;> simp
  · rw [hA]
    cases (CheckBasicAuth p st.req).1 with
    | none => simp [authChecked_req]
    | some basic =>
      simp only []
      exact authHeaders_req_congr p basic _ _ (by simp [authChecked_req])
  · rw [hA]
    cases (CheckBasicAuth p st.req).1 with
    | none => simp [authChecked_rw]
    | some basic =>
      simp only []
      exact authHeaders_rw_Header_congr p basic _ _ (by simp [authChecked_rw])

/-! ## The forwarded identity headers -/

theorem canon_XFU : CanonicalMIMEHeaderKey "X-Forwarded-User".toList
    = "X-Forwarded-User".toList := by decide

theorem canon_XFE : CanonicalMIMEHeaderKey "X-Forwarded-Email".toList
    = "X-Forwarded-Email".toList := by decide

theorem canon_XFAT : CanonicalMIMEHeaderKey "X-Forwarded-Access-Token".toList
    = "X-Forwarded-Access-Token".toList := by decide

theorem canon_Authorization : CanonicalMIMEHeaderKey "Authorization".toList
    = "Authorization".toList := by decide

/-- The forwarded-user headers on the request after `authHeaders`. -/
theorem authHeaders_user_headers (p : OAuthProxy) (s : SessionState) (st : State)
    (hpass : p.PassUserHeaders = true) :
    (authHeaders p s st).req.Header.lookup "X-Forwarded-User".toList = some [s.User] ∧
    (authHeaders p s st).req.Header.lookup "X-Forwarded-Email".toList =
      (if s.Email = [] then none else some [s.Email]) := by
  have e1 : "X-Forwarded-User".toList ≠ CanonicalMIMEHeaderKey "X-Forwarded-Email".toList := by
    decide
  have e2 : "X-Forwarded-User".toList
      ≠ CanonicalMIMEHeaderKey "X-Forwarded-Access-Token".toList := by decide
  have e3 : "X-Forwarded-Email".toList
      ≠ CanonicalMIMEHeaderKey "X-Forwarded-Access-Token".toList := by decide
  have s1 := fun h v => lookup_Set_self h "X-Forwarded-User".toList v
  have s2 := fun h v => lookup_Set_self h "X-Forwarded-Email".toList v
  have d2 := fun h => lookup_Del_self h "X-Forwarded-Email".toList
  rw [canon_XFU] at s1
  rw [canon_XFE] at s2 d2
  unfold authHeaders
  simp only [hpass, if_true]
  by_cases hE : s.Email = []
  · simp only [hE, ne_eq, not_true_eq_false, if_false, if_true]
    split_ifs <;>
      simp only [lookup_Set_other _ _ _ _ e2, lookup_Del_other _ _ _ e2,
        lookup_Set_other _ _ _ _ e3, lookup_Del_other _ _ _ e3,
        lookup_Del_other _ _ _ e1, s1, d2, and_self]
  · simp only [hE, ne_eq, not_false_eq_true, if_false, if_true]
    split_ifs <;>
      simp only [lookup_Set_other _ _ _ _ e2, lookup_Del_other _ _ _ e2,
        lookup_Set_other _ _ _ _ e3, lookup_Del_other _ _ _ e3,
        lookup_Set_other _ _ _ _ e1, s1, s2, and_self]

/-- The forwarded access token on the request after `authHeaders`. -/
theorem authHeaders_token_header (p : OAuthProxy) (s : SessionState) (st : State)
    (hpass : p.PassAccessToken = true) :
    (authHeaders p s st).req.Header.lookup "X-Forwarded-Access-Token".toList =
      (if s.AccessToken = [] then none else some [s.AccessToken]) := by
  have s3 := fun h v => lookup_Set_self h "X-Forwarded-Access-Token".toList v
  have d3 := fun h => lookup_Del_self h "X-Forwarded-Access-Token".toList
  rw [canon_XFAT] at s3 d3
  unfold authHeaders
  simp only [hpass, if_true]
  by_cases hT : s.AccessToken = []
  · simp only [hT, ne_eq, not_true_eq_false, if_false, if_true, d3]
  · simp only [hT, ne_eq, not_false_eq_true, if_false, if_true, s3]

theorem SaveSession_fst (env : Env) (p : OAuthProxy) (st st' : State) (s : SessionState) :
    (SaveSession env p st s).1 = (SaveSession env p st' s).1 := by
  unfold SaveSession
  simp only []
  split <;> rfl

/-- When `authFinish` returns accepted, it ends in `authHeaders` for the session
left by the earlier steps or found by the Basic-auth fallback. -/
theorem authFinish_accepted (env : Env) (p : OAuthProxy) (v : AuthVars) (st : State)
    (hacc : (authFinish env p v st).1 = StatusAccepted) :
    ∃ session st',
      (match v.session with
        | some s => some s
        | none => (CheckBasicAuth p st.req).1) = some session ∧
      st'.req = st.req ∧
      (authFinish env p v st).2 = authHeaders p session st' := by
  have hreq : ∀ s0 : State, s0.req = st.req →
      (if v.clearSession = true then ClearSessionCookie env p s0 else s0).req = st.req := by
    intro s0 h0
    split_ifs <;> simp [h0]
  unfold authFinish at hacc ⊢
  cases hv : v.session with
  | none =>
    simp only [hv] at hacc ⊢
    rw [hreq st rfl] at hacc ⊢
    cases hb : (CheckBasicAuth p st.req).1 with
    | none =>
      rw [hb] at hacc
      simp [StatusForbidden, StatusAccepted] at hacc
    | some b => exact ⟨b, _, rfl, hreq st rfl, rfl⟩
  | some s =>
    simp only [hv] at hacc ⊢
    by_cases hsave : v.saveSession = true
    · simp only [hsave, if_true] at hacc ⊢
      cases hs : (SaveSession env p st s).1 with
      | some e =>
        rw [hs] at hacc
        simp [StatusInternalServerError, StatusAccepted] at hacc
      | none =>
        simp only [hs]
        exact ⟨s, _, rfl, hreq _ (SaveSession_req env p st s), rfl⟩
    · simp only [hsave, if_false]
      exact ⟨s, _, rfl, hreq st rfl, rfl⟩

theorem Authenticate_accepted (env : Env) (p : OAuthProxy) (st : State)
    (hacc : (Authenticate env p st).1 = StatusAccepted) :
    ∃ session st', authSession env p st = some session ∧ st'.req = st.req ∧
      (Authenticate env p st).2 = authHeaders p session st' := by
  rw [Authenticate_eq] at hacc ⊢
  obtain ⟨session, st', h1, h2, h3⟩ := authFinish_accepted env p _ _ hacc
  rw [authSettled_req] at h1 h2
  exact ⟨session, st', h1, h2, h3⟩

theorem authLoad_congr (env : Env) (p : OAuthProxy) (st st' : State)
    (h : st.req.Cookies = st'.req.Cookies) : authLoad env p st = authLoad env p st' := by
  unfold authLoad
  rw [LoadCookiedSession_congr env p st.req st'.req h]

theorem authRefresh_fst (p : OAuthProxy) (v : AuthVars) (st st' : State) :
    (authRefresh p v st).1 = (authRefresh p v st').1 := by
  unfold authRefresh
  simp only []
  split
  · rfl
  · split <;> rfl

theorem authRevalidate_fst (p : OAuthProxy) (v : AuthVars) (st st' : State) :
    (authRevalidate p v st).1 = (authRevalidate p v st').1 := by
  unfold authRevalidate
  split
  · split_ifs <;> rfl
  · rfl

theorem authValidator_fst (p : OAuthProxy) (v : AuthVars) (st st' : State) :
    (authValidator p v st).1 = (authValidator p v st').1 := by
  unfold authValidator
  split
  · split_ifs <;> rfl
  · rfl

theorem authSettled_fst_congr (env : Env) (p : OAuthProxy) (st st' : State)
    (h : st.req.Cookies = st'.req.Cookies) :
    (authSettled env p st).1 = (authSettled env p st').1 := by
  unfold authSettled authChecked
  simp only []
  rw [authLoad_congr env p st st' h,
    authValidator_fst p _ _ (authRevalidate p
      (authExpiry env (authRefresh p (authLoad env p st') st').1)
      (authRefresh p (authLoad env p st') st').2).2,
    authRevalidate_fst p _ _ (authRefresh p (authLoad env p st') st').2,
    authRefresh_fst p _ st st']

theorem CheckBasicAuth_congr (p : OAuthProxy) (r1 r2 : Request)
    (h : r1.Header.Get "Authorization".toList = r2.Header.Get "Authorization".toList) :
    CheckBasicAuth p r1 = CheckBasicAuth p r2 := by
  unfold CheckBasicAuth
  rw [h]

theorem authFinish_fst_congr (env : Env) (p : OAuthProxy) (v : AuthVars) (st st' : State)
    (h : CheckBasicAuth p st.req = CheckBasicAuth p st'.req) :
    (authFinish env p v st).1 = (authFinish env p v st').1 := by
  have hreq : ∀ s0 s1 : State, s0.req = s1.req →
      (if v.clearSession = true then ClearSessionCookie env p s0 else s0).req = s1.req := by
    intro s0 s1 h0
    split_ifs <;> simp [h0]
  unfold authFinish
  cases hv : v.session with
  | none =>
    simp only []
    rw [hreq st st rfl, hreq st' st' rfl, h]
    cases (CheckBasicAuth p st'.req).1 <;> rfl
  | some s =>
    simp only []
    by_cases hsave : v.saveSession = true
    · simp only [hsave, if_true]
      rw [SaveSession_fst env p st st' s]
      cases (SaveSession env p st' s).1 <;> rfl
    · have hs : v.saveSession = false := by simpa using hsave
      simp only [hs, Bool.false_eq_true, if_false]

theorem Authenticate_congr (env : Env) (p : OAuthProxy) (st st' : State)
    (hc : st.req.Cookies = st'.req.Cookies)
    (ha : st.req.Header.Get "Authorization".toList = st'.req.Header.Get "Authorization".toList) :
    (Authenticate env p st).1 = (Authenticate env p st').1 ∧
    authSession env p st = authSession env p st' := by
  have hb := CheckBasicAuth_congr p st.req st'.req ha
  constructor
  · rw [Authenticate_eq, Authenticate_eq, authSettled_fst_congr env p st st' hc]
    apply authFinish_fst_congr
    rw [authSettled_req, authSettled_req]
    exact hb
  · unfold authSession
    rw [authSettled_fst_congr env p st st' hc, hb]

/-- C13. When `Authenticate` returns accepted there is a session: with
`PassUserHeaders` the request header `X-Forwarded-User` holds exactly its
`User` and `X-Forwarded-Email` holds exactly its `Email`, or is absent when the
email is empty; with `PassAccessToken` the header `X-Forwarded-Access-Token`
holds exactly its access token, or is absent when that is empty.  A request
that differs from this one only in the client-supplied values of these three
headers is accepted with the same session and ends with the same values. -/
theorem Authenticate_forwarded_headers (env : Env) (p : OAuthProxy) (st : State)
    (hacc : (Authenticate env p st).1 = StatusAccepted) :
    ∃ session, authSession env p st = some session ∧
      (p.PassUserHeaders = true →
        (Authenticate env p st).2.req.Header.lookup "X-Forwarded-User".toList
          = some [session.User] ∧
        (Authenticate env p st).2.req.Header.lookup "X-Forwarded-Email".toList
          = (if session.Email = [] then none else some [session.Email])) ∧
      (p.PassAccessToken = true →
        (Authenticate env p st).2.req.Header.lookup "X-Forwarded-Access-Token".toList
          = (if session.AccessToken = [] then none else some [session.AccessToken])) ∧
      ∀ h : Header,
        (∀ k, k ≠ "X-Forwarded-User".toList → k ≠ "X-Forwarded-Email".toList →
          k ≠ "X-Forwarded-Access-Token".toList → h.lookup k = st.req.Header.lookup k) →
        (Authenticate env p (st.withHeader h)).1 = StatusAccepted ∧
        authSession env p (st.withHeader h) = some session ∧
        (p.PassUserHeaders = true →
          (Authenticate env p (st.withHeader h)).2.req.Header.lookup "X-Forwarded-User".toList
            = (Authenticate env p st).2.req.Header.lookup "X-Forwarded-User".toList ∧
          (Authenticate env p (st.withHeader h)).2.req.Header.lookup "X-Forwarded-Email".toList
            = (Authenticate env p st).2.req.Header.lookup "X-Forwarded-Email".toList) ∧
        (p.PassAccessToken = true →
          (Authenticate env p (st.withHeader h)).2.req.Header.lookup
              "X-Forwarded-Access-Token".toList
            = (Authenticate env p st).2.req.Header.lookup "X-Forwarded-Access-Token".toList) := by
  have key : ∀ st0 : State, (Authenticate env p st0).1 = StatusAccepted →
      ∀ session, authSession env p st0 = some session →
      (p.PassUserHeaders = true →
        (Authenticate env p st0).2.req.Header.lookup "X-Forwarded-User".toList
          = some [session.User] ∧
        (Authenticate env p st0).2.req.Header.lookup "X-Forwarded-Email".toList
          = (if session.Email = [] then none else some [session.Email])) ∧
      (p.PassAccessToken = true →
        (Authenticate env p st0).2.req.Header.lookup "X-Forwarded-Access-Token".toList
          = (if session.AccessToken = [] then none else some [session.AccessToken])) := by
    intro st0 h0 session hs
    obtain ⟨session', st', hs', -, hout⟩ := Authenticate_accepted env p st0 h0
    rw [hs] at hs'
    have hss : session = session' := Option.some.inj hs'
    subst hss
    rw [hout]
    exact ⟨fun hp => authHeaders_user_headers p session st' hp,
      fun hp => authHeaders_token_header p session st' hp⟩
  obtain ⟨session, st', hs, -, -⟩ := Authenticate_accepted env p st hacc
  obtain ⟨k1, k2⟩ := key st hacc session hs
  refine ⟨session, hs, k1, k2, fun h hagree => ?_⟩
  have hauth : (st.withHeader h).req.Header.Get "Authorization".toList
      = st.req.Header.Get "Authorization".toList := by
    show Header.Get h "Authorization".toList = Header.Get st.req.Header "Authorization".toList
    unfold Header.Get
    rw [canon_Authorization, hagree _ (by decide) (by decide) (by decide)]
  obtain ⟨c1, c2⟩ := Authenticate_congr env p (st.withHeader h) st rfl hauth
  have hacc2 : (Authenticate env p (st.withHeader h)).1 = StatusAccepted := c1.trans hacc
  have hs2 : authSession env p (st.withHeader h) = some session := c2.trans hs
  obtain ⟨j1, j2⟩ := key (st.withHeader h) hacc2 session hs2
  refine ⟨hacc2, hs2, fun hp => ?_, fun hp => ?_⟩
  · rw [(j1 hp).1, (j1 hp).2, (k1 hp).1, (k1 hp).2]
    exact ⟨rfl, rfl⟩
  · rw [j2 hp, k2 hp]

/-! ## When the provider revalidates a session -/

@[simp]
theorem SaveSession_calls (env : Env) (p : OAuthProxy) (st : State) (s : SessionState) :
    (SaveSession env p st s).2.calls = st.calls ++ [Event.SaveSession s] := by
  unfold SaveSession
  simp only []
  split <;> simp [SetSessionCookie]

theorem authFinish_calls_validate (env : Env) (p : OAuthProxy) (v : AuthVars) (st : State)
    (s : SessionState) :
    Event.ValidateSessionState s ∈ (authFinish env p v st).2.calls ↔
      Event.ValidateSessionState s ∈ st.calls := by
  unfold authFinish
  cases hv : v.session with
  | none =>
    simp only []
    cases (CheckBasicAuth p
      (if v.clearSession = true then ClearSessionCookie env p st else st).req).1 <;>
      (simp only []; split_ifs <;> simp)
  | some s0 =>
    simp only []
    by_cases hsave : v.saveSession = true
    · simp only [hsave, if_true]
      cases (SaveSession env p st s0).1 <;>
        (simp only []; first | (split_ifs <;> simp) | simp)
    · have hs : v.saveSession = false := by simpa using hsave
      simp only [hs, Bool.false_eq_true, if_false]
      split_ifs <;> simp

theorem authValidator_calls_validate (p : OAuthProxy) (v : AuthVars) (st : State)
    (s : SessionState) :
    Event.ValidateSessionState s ∈ (authValidator p v st).2.calls ↔
      Event.ValidateSessionState s ∈ st.calls := by
  unfold authValidator
  split
  · split_ifs <;> simp
  · rfl

theorem authRevalidate_calls_validate (p : OAuthProxy) (v : AuthVars) (st : State)
    (s : SessionState) :
    Event.ValidateSessionState s ∈ (authRevalidate p v st).2.calls ↔
      Event.ValidateSessionState s ∈ st.calls ∨
        (v.session = some s ∧ v.saveSession = true ∧ v.revalidated = false ∧
          s.AccessToken ≠ []) := by
  unfold authRevalidate
  cases hv : v.session with
  | none => simp
  | some s0 =>
    simp only []
    by_cases h1 : v.saveSession = true
    · by_cases h2 : v.revalidated = true
      · simp [h1, h2]
      · have h2' : v.revalidated = false := by simpa using h2
        by_cases h3 : s0.AccessToken = []
        · simp only [h1, h2', Bool.not_false, Bool.and_self, if_true, ne_eq, h3,
            not_true_eq_false, if_false, Option.some.injEq, true_and]
          constructor
          · exact fun h => Or.inl h
          · rintro (h | ⟨rfl, h⟩)
            · exact h
            · exact absurd h3 h
        · simp only [h1, h2', Bool.not_false, Bool.and_self, if_true, ne_eq, h3,
            not_false_eq_true, Option.some.injEq, true_and]
          split_ifs <;>
          · simp only [call_calls, List.mem_append, List.mem_singleton,
              Event.ValidateSessionState.injEq]
            constructor
            · rintro (h | h)
              · exact Or.inl h
              · exact Or.inr ⟨h.symm, h ▸ h3⟩
            · rintro (h | ⟨h, -⟩)
              · exact Or.inl h
              · exact Or.inr h.symm
    · have h1' : v.saveSession = false := by simpa using h1
      simp [h1']

theorem Authenticate_calls_validate (env : Env) (p : OAuthProxy) (rw : ResponseWriter)
    (req : Request) (s : SessionState) :
    Event.ValidateSessionState s ∈ (Authenticate env p { rw := rw, req := req }).2.calls ↔
      ((authExpiry env (authRefresh p (authLoad env p { rw := rw, req := req })
            { rw := rw, req := req }).1).session = some s ∧
        (authExpiry env (authRefresh p (authLoad env p { rw := rw, req := req })
            { rw := rw, req := req }).1).saveSession = true ∧
        (authExpiry env (authRefresh p (authLoad env p { rw := rw, req := req })
            { rw := rw, req := req }).1).revalidated = false ∧
        s.AccessToken ≠ []) := by
  rw [Authenticate_eq, authFinish_calls_validate]
  unfold authSettled
  rw [authValidator_calls_validate]
  unfold authChecked
  simp only []
  rw [authRevalidate_calls_validate, authRefresh_calls]
  simp

/-- C14. In a call of `Authenticate` in which `RefreshSessionIfNeeded`
returns `(true, nil)` the provider is never asked `ValidateSessionState`; and
wherever it is asked, the cookie held a session older than a non-zero
`CookieRefresh` with an access token, the refresh step returned `(false, nil)`,
and the session asked about is that session, not expired. -/
theorem Authenticate_revalidates_only_when_due (env : Env) (p : OAuthProxy)
    (rw : ResponseWriter) (req : Request) :
    (p.provider.RefreshSessionIfNeeded (LoadCookiedSession env p req).1 = (true, none) →
      ∀ s, Event.ValidateSessionState s ∉
        (Authenticate env p { rw := rw, req := req }).2.calls) ∧
    (∀ s, Event.ValidateSessionState s ∈
        (Authenticate env p { rw := rw, req := req }).2.calls →
      ∃ loaded, (LoadCookiedSession env p req).1 = some loaded ∧
        p.CookieRefresh ≠ 0 ∧ (LoadCookiedSession env p req).2.1 > p.CookieRefresh ∧
        loaded.AccessToken ≠ [] ∧
        p.provider.RefreshSessionIfNeeded (some loaded) = (false, none) ∧
        s = p.provider.RefreshMutate loaded ∧
        env.IsExpired s = false ∧ s.AccessToken ≠ []) := by
  have key : ∀ s, Event.ValidateSessionState s ∈
        (Authenticate env p { rw := rw, req := req }).2.calls →
      ∃ loaded, (LoadCookiedSession env p req).1 = some loaded ∧
        p.CookieRefresh ≠ 0 ∧ (LoadCookiedSession env p req).2.1 > p.CookieRefresh ∧
        loaded.AccessToken ≠ [] ∧
        p.provider.RefreshSessionIfNeeded (some loaded) = (false, none) ∧
        s = p.provider.RefreshMutate loaded ∧
        env.IsExpired s = false ∧ s.AccessToken ≠ [] := by
    intro s hs
    rw [Authenticate_calls_validate] at hs
    obtain ⟨h1, h2, h3, h4⟩ := hs
    unfold authLoad at h1 h2 h3
    simp only [] at h1 h2 h3
    cases hl : (LoadCookiedSession env p req).1 with
    | none =>
      rw [hl] at h1
      simp only [authRefresh, Option.map_none'] at h1
      cases hr2 : (p.provider.RefreshSessionIfNeeded none).2 with
      | some e => rw [hr2] at h1; simp [authExpiry] at h1
      | none =>
        rw [hr2] at h1
        cases hr1 : (p.provider.RefreshSessionIfNeeded none).1 <;>
          (rw [hr1] at h1; simp [authExpiry] at h1)
    | some loaded =>
      rw [hl] at h1 h2 h3
      simp only [authRefresh, Option.map_some'] at h1 h2 h3
      cases hr2 : (p.provider.RefreshSessionIfNeeded (some loaded)).2 with
      | some e => rw [hr2] at h1; simp [authExpiry] at h1
      | none =>
        rw [hr2] at h1 h2 h3
        cases hr1 : (p.provider.RefreshSessionIfNeeded (some loaded)).1 with
        | true =>
          rw [hr1] at h3
          simp only [if_true, authExpiry] at h3
          split_ifs at h3
        | false =>
          rw [hr1] at h1 h2
          simp only [Bool.false_eq_true, if_false, authExpiry] at h1 h2
          by_cases hexp : env.IsExpired (p.provider.RefreshMutate loaded) = true
          · simp [hexp] at h1
          · have hexp' : env.IsExpired (p.provider.RefreshMutate loaded) = false := by
              simpa using hexp
            simp only [hexp', Bool.false_eq_true, if_false, Option.some.injEq] at h1 h2
            simp only [Bool.and_eq_true, decide_eq_true_eq] at h2
            obtain ⟨⟨g1, g2⟩, g3⟩ := h2
            refine ⟨loaded, rfl, g1, g2, g3, ?_, h1.symm, ?_, h4⟩
            · exact Prod.ext hr1 hr2
            · rw [← h1]; exact hexp'
  refine ⟨fun href s hs => ?_, key⟩
  obtain ⟨loaded, hl, -, -, -, hr, -⟩ := key s hs
  rw [hl, hr] at href
  simp at href

/-! ## The default route -/

@[simp]
theorem WriteBody_calls (st : State) (pg : Page) : (WriteBody st pg).calls = st.calls := by
  simp [WriteBody]

@[simp]
theorem WriteBody_req (st : State) (pg : Page) : (WriteBody st pg).req = st.req := by
  simp [WriteBody]

@[simp]
theorem Redirect_calls (st : State) (u : Str) (c : Nat) : (Redirect st u c).calls = st.calls := by
  simp [Redirect]

@[simp]
theorem Redirect_req (st : State) (u : Str) (c : Nat) : (Redirect st u c).req = st.req := by
  simp [Redirect]

@[simp]
theorem httpError_calls (st : State) (e : Str) (c : Nat) : (httpError st e c).calls = st.calls := by
  simp [httpError]

theorem UpstreamProxy_ServeHTTP_calls (env : Env) (u : UpstreamProxy) (st : State) :
    ∃ h r, (u.ServeHTTP env st).calls = st.calls ++ [Event.Handler h r] := by
  unfold UpstreamProxy.ServeHTTP
  simp only []
  split
  · split_ifs <;> exact ⟨_, _, rfl⟩
  · exact ⟨_, _, rfl⟩

theorem serveMuxServeHTTP_calls (env : Env) (p : OAuthProxy) (st : State) :
    ∃ es, (serveMuxServeHTTP env p st).calls = st.calls ++ Event.ServeMux st.req :: es ∧
      ∀ e ∈ es, ∃ h r, e = Event.Handler h r := by
  unfold serveMuxServeHTTP
  simp only []
  split
  · split
    · rename_i u _
      obtain ⟨h, r, hc⟩ := UpstreamProxy_ServeHTTP_calls env u (st.call (.ServeMux st.req))
      exact ⟨[Event.Handler h r], by rw [hc]; simp, by simp⟩
    · exact ⟨[], by simp, by simp⟩
  · exact ⟨[], by simp, by simp⟩
  · exact ⟨[], by simp, by simp⟩
  · exact ⟨[], by simp, by simp⟩

theorem authRevalidate_calls_by (p : OAuthProxy) (v : AuthVars) (st : State) :
    ∀ e ∈ (authRevalidate p v st).2.calls, e ∈ st.calls ∨ e.byAuthenticate = true := by
  unfold authRevalidate
  split
  · split_ifs <;> intro e he
    all_goals first
      | exact Or.inl he
      | (simp only [call_calls, List.mem_append, List.mem_singleton] at he
         rcases he with he | rfl
         · exact Or.inl he
         · exact Or.inr rfl)
  · exact fun e he => Or.inl he

theorem authValidator_calls_by (p : OAuthProxy) (v : AuthVars) (st : State) :
    ∀ e ∈ (authValidator p v st).2.calls, e ∈ st.calls ∨ e.byAuthenticate = true := by
  unfold authValidator
  split
  · split_ifs <;> intro e he
    all_goals first
      | exact Or.inl he
      | (simp only [call_calls, List.mem_append, List.mem_singleton] at he
         rcases he with he | rfl
         · exact Or.inl he
         · exact Or.inr rfl)
  · exact fun e he => Or.inl he

theorem authFinish_calls_by (env : Env) (p : OAuthProxy) (v : AuthVars) (st : State) :
    ∀ e ∈ (authFinish env p v st).2.calls, e ∈ st.calls ∨ e.byAuthenticate = true := by
  have hclear : ∀ s0 : State, (∀ e ∈ s0.calls, e ∈ st.calls ∨ e.byAuthenticate = true) →
      ∀ e ∈ (if v.clearSession = true then ClearSessionCookie env p s0 else s0).calls,
        e ∈ st.calls ∨ e.byAuthenticate = true := by
    intro s0 h0 e he
    split_ifs at he
    · simp only [ClearSessionCookie_calls, List.mem_append, List.mem_singleton] at he
      rcases he with he | rfl
      · exact h0 e he
      · exact Or.inr rfl
    · exact h0 e he
  have hsave : ∀ s, ∀ e ∈ (SaveSession env p st s).2.calls,
      e ∈ st.calls ∨ e.byAuthenticate = true := by
    intro s e he
    simp only [SaveSession_calls, List.mem_append, List.mem_singleton] at he
    rcases he with he | rfl
    · exact Or.inl he
    · exact Or.inr rfl
  unfold authFinish
  cases hv : v.session with
  | none =>
    simp only []
    cases (CheckBasicAuth p
      (if v.clearSession = true then ClearSessionCookie env p st else st).req).1 with
    | none => exact hclear st (fun e he => Or.inl he)
    | some b =>
      simp only [authHeaders_calls]
      exact hclear st (fun e he => Or.inl he)
  | some s0 =>
    simp only []
    by_cases hs : v.saveSession = true
    · simp only [hs, if_true]
      cases (SaveSession env p st s0).1 with
      | some err => exact hsave s0
      | none =>
        simp only [authHeaders_calls]
        exact hclear _ (hsave s0)
    · have hs' : v.saveSession = false := by simpa using hs
      simp only [hs', Bool.false_eq_true, if_false, authHeaders_calls]
      exact hclear st (fun e he => Or.inl he)

theorem Authenticate_calls_by (env : Env) (p : OAuthProxy) (st : State) :
    ∀ e ∈ (Authenticate env p st).2.calls, e ∈ st.calls ∨ e.byAuthenticate = true := by
  intro e he
  rw [Authenticate_eq] at he
  rcases authFinish_calls_by env p _ _ e he with h | h
  · unfold authSettled at h
    rcases authValidator_calls_by p _ _ e h with h | h
    · unfold authChecked at h
      rcases authRevalidate_calls_by p _ _ e h with h | h
      · rw [authRefresh_calls] at h
        simp only [List.mem_append, List.mem_singleton] at h
        rcases h with h | rfl
        · exact Or.inl h
        · exact Or.inr rfl
      · exact Or.inr h
    · exact Or.inr h
  · exact Or.inr h

theorem Authenticate_status (env : Env) (p : OAuthProxy) (st : State) :
    (Authenticate env p st).1 = StatusAccepted ∨ (Authenticate env p st).1 = StatusForbidden ∨
      (Authenticate env p st).1 = StatusInternalServerError := by
  rw [Authenticate_eq]
  generalize (authSettled env p st).1 = v
  generalize (authSettled env p st).2 = st'
  unfold authFinish
  simp only []
  split
  · exact Or.inr (Or.inr rfl)
  · split
    · exact Or.inr (Or.inl rfl)
    · exact Or.inl rfl

@[simp]
theorem OAuthStart_calls (env : Env) (p : OAuthProxy) (st : State) :
    (OAuthStart env p st).calls = st.calls := by
  unfold OAuthStart
  simp only []
  split
  · simp
  · split <;> simp [SetCSRFCookie]

@[simp]
theorem SignInPage_calls (env : Env) (p : OAuthProxy) (st : State) (code : Nat) :
    (SignInPage env p st code).calls = st.calls ++ [Event.ClearSessionCookie] := by
  unfold SignInPage
  simp only []
  split <;> simp

/-- C15. The status of `Authenticate` is one of accepted (202), forbidden (403)
and internal error (500); `Proxy` calls the upstream mux exactly when the
status is accepted, and then it is the mux on the state `Authenticate` left;
on forbidden it is the sign-in page (or the OAuth start when the provider
button is skipped) and on internal error the error page. -/
theorem Proxy_forwards_iff_accepted (env : Env) (p : OAuthProxy) (rw : ResponseWriter)
    (req : Request) :
    ((Authenticate env p (State.call { rw := rw, req := req } .Authenticate)).1 = StatusAccepted ∨
      (Authenticate env p (State.call { rw := rw, req := req } .Authenticate)).1
        = StatusForbidden ∨
      (Authenticate env p (State.call { rw := rw, req := req } .Authenticate)).1
        = StatusInternalServerError) ∧
    ((∃ r, Event.ServeMux r ∈ (Proxy env p { rw := rw, req := req }).calls) ↔
      (Authenticate env p (State.call { rw := rw, req := req } .Authenticate)).1
        = StatusAccepted) ∧
    ((Authenticate env p (State.call { rw := rw, req := req } .Authenticate)).1 = StatusAccepted →
      Proxy env p { rw := rw, req := req } = serveMuxServeHTTP env p
        (Authenticate env p (State.call { rw := rw, req := req } .Authenticate)).2) ∧
    ((Authenticate env p (State.call { rw := rw, req := req } .Authenticate)).1 = StatusForbidden →
      Proxy env p { rw := rw, req := req } =
        if p.SkipProviderButton = true then OAuthStart env p
          (Authenticate env p (State.call { rw := rw, req := req } .Authenticate)).2
        else SignInPage env p
          (Authenticate env p (State.call { rw := rw, req := req } .Authenticate)).2
          StatusForbidden) ∧
    ((Authenticate env p (State.call { rw := rw, req := req } .Authenticate)).1
        = StatusInternalServerError →
      Proxy env p { rw := rw, req := req } = ErrorPage p
        (Authenticate env p (State.call { rw := rw, req := req } .Authenticate)).2
        StatusInternalServerError "Internal Error".toList "Internal Error".toList) := by
  have hby := Authenticate_calls_by env p (State.call { rw := rw, req := req } .Authenticate)
  have hno : ∀ r, Event.ServeMux r ∉
      (Authenticate env p (State.call { rw := rw, req := req } .Authenticate)).2.calls := by
    intro r hr
    rcases hby _ hr with h | h
    · simp [State.call] at h
    · simp [Event.byAuthenticate] at h
  have h3 := Authenticate_status env p (State.call { rw := rw, req := req } .Authenticate)
  obtain ⟨a, ha⟩ : ∃ a, a = Authenticate env p
      (State.call { rw := rw, req := req } .Authenticate) := ⟨_, rfl⟩
  have hP : Proxy env p { rw := rw, req := req } =
      if a.1 = StatusInternalServerError then
        ErrorPage p a.2 StatusInternalServerError "Internal Error".toList "Internal Error".toList
      else if a.1 = StatusForbidden then
        if p.SkipProviderButton = true then OAuthStart env p a.2
        else SignInPage env p a.2 StatusForbidden
      else serveMuxServeHTTP env p a.2 := by
    rw [ha]; rfl
  rw [← ha] at hno h3 ⊢
  rw [hP]
  have n1 : StatusAccepted ≠ StatusInternalServerError := by decide
  have n2 : StatusAccepted ≠ StatusForbidden := by decide
  have n3 : StatusForbidden ≠ StatusInternalServerError := by decide
  refine ⟨h3, ?_, ?_, ?_, ?_⟩
  · rcases h3 with h | h | h
    · rw [h, if_neg n1, if_neg n2]
      obtain ⟨es, hc, -⟩ := serveMuxServeHTTP_calls env p a.2
      exact ⟨fun _ => rfl, fun _ => ⟨a.2.req, by rw [hc]; simp⟩⟩
    · rw [h, if_neg n3, if_pos rfl]
      constructor
      · rintro ⟨r, hr⟩
        exfalso
        split_ifs at hr
        · rw [OAuthStart_calls] at hr
          exact hno r hr
        · rw [SignInPage_calls] at hr
          simp only [List.mem_append, List.mem_singleton, reduceCtorEq, or_false] at hr
          exact hno r hr
      · intro h'
        exact absurd h' n2.symm
    · rw [h, if_pos rfl]
      constructor
      · rintro ⟨r, hr⟩
        rw [ErrorPage_calls] at hr
        exact absurd hr (hno r)
      · intro h'
        exact absurd h' n1.symm
  · intro h
    rw [h, if_neg n1, if_neg n2]
  · intro h
    rw [h, if_neg n3, if_pos rfl]
  · intro h
    rw [h, if_pos rfl]

/-! ## The order of the routes -/

theorem whitelistedPathLoop_iff (path : Str) (us : List (Str → Bool)) :
    whitelistedPathLoop path us = true ↔ ∃ u ∈ us, u path = true := by
  induction us with
  | nil => simp [whitelistedPathLoop]
  | cons u us ih =>
    unfold whitelistedPathLoop
    by_cases h : u path = true
    · simp [h]
    · simp [h, ih]

theorem IsWhitelistedRequest_iff (p : OAuthProxy) (req : Request) :
    IsWhitelistedRequest p req = true ↔
      (p.skipAuthPreflight = true ∧ req.Method = "OPTIONS".toList) ∨
        ∃ u ∈ p.compiledRegex, u req.URL.Path = true := by
  unfold IsWhitelistedRequest IsWhitelistedPath
  simp only [Bool.or_eq_true, Bool.and_eq_true, decide_eq_true_eq, whitelistedPathLoop_iff]

theorem ServeHTTP_eq_route (env : Env) (p : OAuthProxy) (st : State) :
    ServeHTTP env p st = (firstMatchingRoute p st.req).handle env p st := by
  unfold ServeHTTP firstMatchingRoute routeTable
  simp only []
  by_cases h1 : st.req.URL.Path = p.RobotsPath
  · simp only [if_pos h1, decide_eq_true h1, List.find?, Route.handle]
  by_cases h2 : st.req.URL.Path = p.PingPath
  · simp only [if_neg h1, decide_eq_false h1, if_pos h2, decide_eq_true h2, List.find?,
      Route.handle]
  cases h3 : IsWhitelistedRequest p st.req with
  | true =>
    simp only [if_neg h1, decide_eq_false h1, if_neg h2, decide_eq_false h2, if_true,
      List.find?, Route.handle]
  | false =>
    by_cases h4 : st.req.URL.Path = p.SignInPath
    · simp only [if_neg h1, decide_eq_false h1, if_neg h2, decide_eq_false h2,
        Bool.false_eq_true, if_false, if_pos h4, decide_eq_true h4, List.find?, Route.handle]
    by_cases h5 : st.req.URL.Path = p.SignOutPath
    · simp only [if_neg h1, decide_eq_false h1, if_neg h2, decide_eq_false h2,
        Bool.false_eq_true, if_false, if_neg h4, decide_eq_false h4, if_pos h5,
        decide_eq_true h5, List.find?, Route.handle]
    by_cases h6 : st.req.URL.Path = p.OAuthStartPath
    · simp only [if_neg h1, decide_eq_false h1, if_neg h2, decide_eq_false h2,
        Bool.false_eq_true, if_false, if_neg h4, decide_eq_false h4, if_neg h5,
        decide_eq_false h5, if_pos h6, decide_eq_true h6, List.find?, Route.handle]
    by_cases h7 : st.req.URL.Path = p.OAuthCallbackPath
    · simp only [if_neg h1, decide_eq_false h1, if_neg h2, decide_eq_false h2,
        Bool.false_eq_true, if_false, if_neg h4, decide_eq_false h4, if_neg h5,
        decide_eq_false h5, if_neg h6, decide_eq_false h6, if_pos h7, decide_eq_true h7,
        List.find?, Route.handle]
    by_cases h8 : st.req.URL.Path = p.AuthOnlyPath
    · simp only [if_neg h1, decide_eq_false h1, if_neg h2, decide_eq_false h2,
        Bool.false_eq_true, if_false, if_neg h4, decide_eq_false h4, if_neg h5,
        decide_eq_false h5, if_neg h6, decide_eq_false h6, if_neg h7, decide_eq_false h7,
        if_pos h8, decide_eq_true h8, List.find?, Route.handle]
    · simp only [if_neg h1, decide_eq_false h1, if_neg h2, decide_eq_false h2,
        Bool.false_eq_true, if_false, if_neg h4, decide_eq_false h4, if_neg h5,
        decide_eq_false h5, if_neg h6, decide_eq_false h6, if_neg h7, decide_eq_false h7,
        if_neg h8, decide_eq_false h8, List.find?, Route.handle]

/-- C16. The handler `ServeHTTP` runs is that of the first matching route in
the order robots, ping, whitelist, sign-in, sign-out, OAuth start, OAuth
callback, auth-only, default.  A request to the robots or ping path makes no
call at all, so it is never forwarded; a request to another path that is
whitelisted (preflight skipping is on and the method is `OPTIONS`, or a
skip-auth pattern matches the path) goes to the upstream mux without a call of
`Authenticate` or of anything `Authenticate` calls, whatever its path. -/
theorem ServeHTTP_route_order (env : Env) (p : OAuthProxy) (rw : ResponseWriter)
    (req : Request) :
    ServeHTTP env p { rw := rw, req := req } =
      (firstMatchingRoute p req).handle env p { rw := rw, req := req } ∧
    (req.URL.Path = p.RobotsPath ∨ req.URL.Path = p.PingPath →
      (ServeHTTP env p { rw := rw, req := req }).calls = []) ∧
    (req.URL.Path ≠ p.RobotsPath → req.URL.Path ≠ p.PingPath →
      ((p.skipAuthPreflight = true ∧ req.Method = "OPTIONS".toList) ∨
        ∃ u ∈ p.compiledRegex, u req.URL.Path = true) →
      ServeHTTP env p { rw := rw, req := req } =
        serveMuxServeHTTP env p { rw := rw, req := stripAuthHeaders p req } ∧
      Event.ServeMux (stripAuthHeaders p req) ∈ (ServeHTTP env p { rw := rw, req := req }).calls ∧
      (∀ e ∈ (ServeHTTP env p { rw := rw, req := req }).calls,
        e ≠ Event.Authenticate ∧ e.byAuthenticate = false)) := by
  refine ⟨ServeHTTP_eq_route env p _, ?_, ?_⟩
  · intro h
    unfold ServeHTTP
    simp only []
    by_cases h1 : req.URL.Path = p.RobotsPath
    · rw [if_pos h1]
      simp [RobotsTxt]
    · rcases h with h | h
      · exact absurd h h1
      · rw [if_neg h1, if_pos h]
        simp [PingPage]
  · intro h1 h2 hw
    have hw' : IsWhitelistedRequest p req = true := (IsWhitelistedRequest_iff p req).2 hw
    have hS : ServeHTTP env p { rw := rw, req := req } =
        serveMuxServeHTTP env p { rw := rw, req := stripAuthHeaders p req } := by
      unfold ServeHTTP
      simp only []
      rw [if_neg h1, if_neg h2, if_pos hw']
    obtain ⟨es, hc, hes⟩ := serveMuxServeHTTP_calls env p
      { rw := rw, req := stripAuthHeaders p req }
    refine ⟨hS, ?_, ?_⟩
    · rw [hS, hc]; simp
    · intro e he
      rw [hS, hc] at he
      simp only [List.nil_append, List.mem_cons] at he
      rcases he with rfl | he
      · exact ⟨by simp, rfl⟩
      · obtain ⟨h, r, rfl⟩ := hes e he
        exact ⟨by simp, rfl⟩

/-! ## The whitelist route and the identity headers -/

theorem stripAuthHeaders_off (p : OAuthProxy) (req : Request)
    (h : p.skipAuthStripHdrs = false) : stripAuthHeaders p req = req := by
  unfold stripAuthHeaders
  simp [h]

/-- What `stripAuthHeaders` removes when stripping is enabled: each header of a
feature that is switched on, and no header of a feature that is switched off. -/
theorem stripAuthHeaders_on (p : OAuthProxy) (req : Request)
    (h : p.skipAuthStripHdrs = true) :
    (stripAuthHeaders p req).Header.lookup "Authorization".toList =
      (if p.PassBasicAuth = true then none else req.Header.lookup "Authorization".toList) ∧
    (stripAuthHeaders p req).Header.lookup "X-Forwarded-User".toList =
      (if p.PassUserHeaders = true then none
       else req.Header.lookup "X-Forwarded-User".toList) ∧
    (stripAuthHeaders p req).Header.lookup "X-Forwarded-Email".toList =
      (if p.PassUserHeaders = true then none
       else req.Header.lookup "X-Forwarded-Email".toList) ∧
    (stripAuthHeaders p req).Header.lookup "X-Forwarded-Access-Token".toList =
      (if p.PassAccessToken = true then none
       else req.Header.lookup "X-Forwarded-Access-Token".toList) := by
  have dA := fun h => lookup_Del_self h "Authorization".toList
  have dU := fun h => lookup_Del_self h "X-Forwarded-User".toList
  have dE := fun h => lookup_Del_self h "X-Forwarded-Email".toList
  have dT := fun h => lookup_Del_self h "X-Forwarded-Access-Token".toList
  rw [canon_Authorization] at dA
  rw [canon_XFU] at dU
  rw [canon_XFE] at dE
  rw [canon_XFAT] at dT
  have oAU := fun h => lookup_Del_other h "X-Forwarded-User".toList "Authorization".toList
    (by decide)
  have oAE := fun h => lookup_Del_other h "X-Forwarded-Email".toList "Authorization".toList
    (by decide)
  have oAT := fun h => lookup_Del_other h "X-Forwarded-Access-Token".toList
    "Authorization".toList (by decide)
  have oUA := fun h => lookup_Del_other h "Authorization".toList "X-Forwarded-User".toList
    (by decide)
  have oUE := fun h => lookup_Del_other h "X-Forwarded-Email".toList "X-Forwarded-User".toList
    (by decide)
  have oUT := fun h => lookup_Del_other h "X-Forwarded-Access-Token".toList
    "X-Forwarded-User".toList (by decide)
  have oEA := fun h => lookup_Del_other h "Authorization".toList "X-Forwarded-Email".toList
    (by decide)
  have oEU := fun h => lookup_Del_other h "X-Forwarded-User".toList "X-Forwarded-Email".toList
    (by decide)
  have oET := fun h => lookup_Del_other h "X-Forwarded-Access-Token".toList
    "X-Forwarded-Email".toList (by decide)
  have oTA := fun h => lookup_Del_other h "Authorization".toList
    "X-Forwarded-Access-Token".toList (by decide)
  have oTU := fun h => lookup_Del_other h "X-Forwarded-User".toList
    "X-Forwarded-Access-Token".toList (by decide)
  have oTE := fun h => lookup_Del_other h "X-Forwarded-Email".toList
    "X-Forwarded-Access-Token".toList (by decide)
  unfold stripAuthHeaders
  simp only [h, Bool.not_true, Bool.false_eq_true, if_false]
  cases p.PassBasicAuth <;> cases p.PassUserHeaders <;> cases p.PassAccessToken <;>
    simp only [Bool.false_eq_true, if_false, if_true, dA, dU, dE, dT, oAU, oAE, oAT, oUA, oUE,
      oUT, oEA, oEU, oET, oTA, oTU, oTE, and_self]

/-- C17 (amended). A request that takes the whitelist route reaches the
upstream mux as `stripAuthHeaders` leaves it, and only so.  With
`skipAuthStripHdrs` off that is the request unchanged.  With it on,
`Authorization` is removed when `PassBasicAuth` is on, `X-Forwarded-User` and
`X-Forwarded-Email` when `PassUserHeaders` is on, and
`X-Forwarded-Access-Token` when `PassAccessToken` is on; a header whose flag is
off is left as the client sent it. -/
theorem whitelisted_request_headers (env : Env) (p : OAuthProxy) (rw : ResponseWriter)
    (req : Request)
    (hrobots : req.URL.Path ≠ p.RobotsPath) (hping : req.URL.Path ≠ p.PingPath)
    (hwhite : IsWhitelistedRequest p req = true) :
    Event.ServeMux (stripAuthHeaders p req) ∈ (ServeHTTP env p { rw := rw, req := req }).calls ∧
    (∀ r, Event.ServeMux r ∈ (ServeHTTP env p { rw := rw, req := req }).calls →
      r = stripAuthHeaders p req) ∧
    (p.skipAuthStripHdrs = false → stripAuthHeaders p req = req) ∧
    (p.skipAuthStripHdrs = true →
      (stripAuthHeaders p req).Header.lookup "Authorization".toList =
        (if p.PassBasicAuth = true then none else req.Header.lookup "Authorization".toList) ∧
      (stripAuthHeaders p req).Header.lookup "X-Forwarded-User".toList =
        (if p.PassUserHeaders = true then none
         else req.Header.lookup "X-Forwarded-User".toList) ∧
      (stripAuthHeaders p req).Header.lookup "X-Forwarded-Email".toList =
        (if p.PassUserHeaders = true then none
         else req.Header.lookup "X-Forwarded-Email".toList) ∧
      (stripAuthHeaders p req).Header.lookup "X-Forwarded-Access-Token".toList =
        (if p.PassAccessToken = true then none
         else req.Header.lookup "X-Forwarded-Access-Token".toList)) := by
  have hS : ServeHTTP env p { rw := rw, req := req } =
      serveMuxServeHTTP env p { rw := rw, req := stripAuthHeaders p req } := by
    unfold ServeHTTP
    simp only []
    rw [if_neg hrobots, if_neg hping, if_pos hwhite]
  obtain ⟨es, hc, hes⟩ := serveMuxServeHTTP_calls env p
    { rw := rw, req := stripAuthHeaders p req }
  refine ⟨?_, ?_, stripAuthHeaders_off p req, stripAuthHeaders_on p req⟩
  · rw [hS, hc]; simp
  · intro r hr
    rw [hS, hc] at hr
    simp only [List.nil_append, List.mem_cons, Event.ServeMux.injEq] at hr
    rcases hr with h | h
    · exact h
    · obtain ⟨h', r', he⟩ := hes _ h
      exact absurd he (by simp)

/-! ## Upstreams: signing and the WebSocket dispatch -/

theorem muxHandle_mem (mux mux' : List (Str × UpstreamProxy)) (pattern : Str)
    (h : UpstreamProxy) (hm : muxHandle mux pattern h = some mux') :
    ∀ e ∈ mux', e ∈ mux ∨ e = (pattern, h) := by
  unfold muxHandle at hm
  split_ifs at hm
  simp only [Option.some.injEq] at hm
  subst hm
  intro e he
  simpa using he

/-- Every upstream that the registration loop adds is the reverse proxy of an
`http` or `https` URL, built with the signer, or the file server of a `file`
URL, built without one. -/
theorem registerUpstreams_mem (opts : Options) (auth : Option HmacAuth) :
    ∀ (urls : List URL) (mux0 mux : List (Str × UpstreamProxy)),
      registerUpstreams opts auth urls mux0 = some mux →
      ∀ e ∈ mux, e ∈ mux0 ∨ ∃ url ∈ urls,
        ((url.Scheme = "http".toList ∨ url.Scheme = "https".toList) ∧
          e.2 = NewWebSocketOrRestReverseProxy url opts auth) ∨
        (url.Scheme = "file".toList ∧ e.2.auth = none ∧ e.2.wsHandler = none ∧
          e.2.handler = NewFileServer e.1 url.Path) := by
  intro urls
  induction urls with
  | nil =>
    intro mux0 mux h e he
    simp only [registerUpstreams, Option.some.injEq] at h
    subst h
    exact Or.inl he
  | cons u rest ih =>
    intro mux0 mux h e he
    unfold registerUpstreams at h
    by_cases hhttp : u.Scheme = "http".toList ∨ u.Scheme = "https".toList
    · rw [if_pos hhttp] at h
      cases hm : muxHandle mux0 u.Path (NewWebSocketOrRestReverseProxy u opts auth) with
      | none => rw [hm] at h; simp at h
      | some mux1 =>
        rw [hm] at h
        simp only [] at h
        rcases ih mux1 mux h e he with h1 | ⟨url, hurl, hcase⟩
        · rcases muxHandle_mem _ _ _ _ hm e h1 with h2 | h2
          · exact Or.inl h2
          · exact Or.inr ⟨u, by simp, Or.inl ⟨hhttp, by rw [h2]⟩⟩
        · exact Or.inr ⟨url, by simp [hurl], hcase⟩
    · rw [if_neg hhttp] at h
      by_cases hfile : u.Scheme = "file".toList
      · rw [if_pos hfile] at h
        simp only [] at h
        cases hm : muxHandle mux0 (if u.Fragment ≠ [] then u.Fragment else u.Path)
            { upstream := if u.Fragment ≠ [] then u.Fragment else u.Path,
              handler := NewFileServer (if u.Fragment ≠ [] then u.Fragment else u.Path) u.Path,
              wsHandler := none, auth := none } with
        | none => rw [hm] at h; simp at h
        | some mux1 =>
          rw [hm] at h
          simp only [] at h
          rcases ih mux1 mux h e he with h1 | ⟨url, hurl, hcase⟩
          · rcases muxHandle_mem _ _ _ _ hm e h1 with h2 | h2
            · exact Or.inl h2
            · refine Or.inr ⟨u, by simp, Or.inr ⟨hfile, ?_, ?_, ?_⟩⟩ <;> rw [h2]
          · exact Or.inr ⟨url, by simp [hurl], hcase⟩
      · rw [if_neg hfile] at h
        simp at h

theorem UpstreamProxy_ServeHTTP_eq (env : Env) (u : UpstreamProxy) (st : State) :
    (u.ServeHTTP env st).req = u.outgoing env st ∧
    (u.ServeHTTP env st).calls = st.calls ++
      [Event.Handler
        (match u.wsHandler with
          | some wsHandler =>
            if ToLower ((u.outgoing env st).Header.Get "Connection".toList) = "upgrade".toList
                ∧ (u.outgoing env st).Header.Get "Upgrade".toList = "websocket".toList
            then wsHandler else u.handler
          | none => u.handler)
        (u.outgoing env st)] := by
  have hget : Header.Get (Header.Set st.rw.Header "GAP-Upstream-Address".toList u.upstream)
      "GAP-Auth".toList = Header.Get st.rw.Header "GAP-Auth".toList :=
    Get_Set_other _ _ _ _ (by decide)
  unfold UpstreamProxy.ServeHTTP UpstreamProxy.outgoing Request.withHeader
  simp only [hget]
  cases u.auth <;> cases u.wsHandler <;> simp only [] <;> (try split_ifs) <;> exact ⟨rfl, rfl⟩

theorem outgoing_Get_other (env : Env) (u : UpstreamProxy) (st : State) (k : Str)
    (hsig : ∀ auth, u.auth = some auth → auth.header = SignatureHeader)
    (h1 : CanonicalMIMEHeaderKey k ≠ CanonicalMIMEHeaderKey "GAP-Auth".toList)
    (h2 : CanonicalMIMEHeaderKey k ≠ CanonicalMIMEHeaderKey SignatureHeader) :
    (u.outgoing env st).Header.Get k = st.req.Header.Get k := by
  unfold UpstreamProxy.outgoing
  cases ha : u.auth with
  | none => rfl
  | some auth =>
    simp only [SignRequest, Request.withHeader]
    rw [hsig auth ha, Get_Set_other _ _ _ _ h2, Get_Set_other _ _ _ _ h1]

theorem outgoing_signature (env : Env) (u : UpstreamProxy) (st : State) (auth : HmacAuth)
    (ha : u.auth = some auth) (hh : auth.header = SignatureHeader) :
    (u.outgoing env st).Header.lookup "Gap-Signature".toList =
      some [env.hmacRequestSignature auth (st.req.withHeader
        (Header.Set st.req.Header "GAP-Auth".toList
          (Header.Get st.rw.Header "GAP-Auth".toList)))] := by
  have hc : CanonicalMIMEHeaderKey SignatureHeader = "Gap-Signature".toList := by decide
  unfold UpstreamProxy.outgoing
  rw [ha]
  simp only [SignRequest]
  rw [hh, ← hc]
  exact lookup_Set_self _ _ _

/-- C18 (amended). With a signature key configured, every upstream registered
by `NewOAuthProxy` hands each request to exactly one handler, and it is of one
of two kinds.  An HTTP(S) upstream signs the request first: the signer has the
configured hash and key, covers exactly the ordered list `Content-Length`,
`Content-Md5`, `Content-Type`, `Date`, `Authorization`, `X-Forwarded-User`,
`X-Forwarded-Email`, `X-Forwarded-Access-Token`, `Cookie`, `Gap-Auth`, and the
signature of the request (with the `GAP-Auth` response header copied in) is
attached as the `GAP-Signature` header.  A file upstream has no signer and
hands the request on unchanged. -/
theorem registered_upstream_signing (env : Env) (opts : Options) (sigData : SignatureData)
    (mux : List (Str × UpstreamProxy)) (pattern : Str) (u : UpstreamProxy) (st : State)
    (hkey : opts.signatureData = some sigData)
    (hmux : newServeMux opts = some mux)
    (hmem : (pattern, u) ∈ mux) :
    ∃ auth, newHmacAuth opts = some auth ∧ auth.key = sigData.key ∧ auth.hash = sigData.hash ∧
      auth.header = "GAP-Signature".toList ∧
      auth.headers =
        ["Content-Length".toList, "Content-Md5".toList, "Content-Type".toList, "Date".toList,
         "Authorization".toList, "X-Forwarded-User".toList, "X-Forwarded-Email".toList,
         "X-Forwarded-Access-Token".toList, "Cookie".toList, "Gap-Auth".toList] ∧
      (∃ h, (u.ServeHTTP env st).calls = st.calls ++ [Event.Handler h (u.ServeHTTP env st).req]) ∧
      (((∃ url ∈ opts.proxyURLs,
            (url.Scheme = "http".toList ∨ url.Scheme = "https".toList) ∧
            u = NewWebSocketOrRestReverseProxy url opts (some auth)) ∧
          (u.ServeHTTP env st).req = SignRequest env auth (st.req.withHeader
            (Header.Set st.req.Header "GAP-Auth".toList
              (Header.Get st.rw.Header "GAP-Auth".toList))) ∧
          (u.ServeHTTP env st).req.Header.lookup "Gap-Signature".toList =
            some [env.hmacRequestSignature auth (st.req.withHeader
              (Header.Set st.req.Header "GAP-Auth".toList
                (Header.Get st.rw.Header "GAP-Auth".toList)))]) ∨
        ((∃ url ∈ opts.proxyURLs, url.Scheme = "file".toList ∧
            u.handler = NewFileServer pattern url.Path) ∧
          u.auth = none ∧ (u.ServeHTTP env st).req = st.req)) := by
  obtain ⟨hreq, hcalls⟩ := UpstreamProxy_ServeHTTP_eq env u st
  have hauth : newHmacAuth opts =
      some (HmacAuth.mk sigData.hash sigData.key SignatureHeader SignatureHeaders) := by
    unfold newHmacAuth
    rw [hkey]
    rfl
  refine ⟨_, hauth, rfl, rfl, rfl, rfl, ⟨_, by rw [hcalls, hreq]⟩, ?_⟩
  unfold newServeMux at hmux
  rw [hauth] at hmux
  rcases registerUpstreams_mem opts _ opts.proxyURLs [] mux hmux (pattern, u) hmem with
    h | ⟨url, hurl, h | h⟩
  · simp at h
  · left
    obtain ⟨hs, hu⟩ := h
    simp only [] at hu
    have ha : u.auth =
        some (HmacAuth.mk sigData.hash sigData.key SignatureHeader SignatureHeaders) := by
      rw [hu]; rfl
    refine ⟨⟨url, hurl, hs, hu⟩, ?_, ?_⟩
    · rw [hreq]
      unfold UpstreamProxy.outgoing
      rw [ha]
    · rw [hreq]
      exact outgoing_signature env u st _ ha rfl
  · right
    obtain ⟨hs, ha, -, hh⟩ := h
    refine ⟨⟨url, hurl, hs, hh⟩, ha, ?_⟩
    rw [hreq]
    unfold UpstreamProxy.outgoing
    rw [ha]

/-- C19 (amended). For an upstream whose signer, if any, writes the
`GAP-Signature` header, `UpstreamProxy.ServeHTTP` calls exactly one handler:
the WebSocket handler when one is configured, the `Connection` header equals
`upgrade` after lower-casing and the `Upgrade` header equals `websocket`
exactly, and the generic handler otherwise. -/
theorem UpstreamProxy_websocket_dispatch (env : Env) (u : UpstreamProxy) (st : State)
    (hsig : ∀ auth, u.auth = some auth → auth.header = SignatureHeader) :
    (u.ServeHTTP env st).calls = st.calls ++
      [Event.Handler
        (match u.wsHandler with
          | some wsHandler =>
            if ToLower (st.req.Header.Get "Connection".toList) = "upgrade".toList
                ∧ st.req.Header.Get "Upgrade".toList = "websocket".toList
            then wsHandler else u.handler
          | none => u.handler)
        (u.ServeHTTP env st).req] := by
  obtain ⟨hreq, hcalls⟩ := UpstreamProxy_ServeHTTP_eq env u st
  rw [hcalls, hreq, outgoing_Get_other env u st "Connection".toList hsig (by decide) (by decide),
    outgoing_Get_other env u st "Upgrade".toList hsig (by decide) (by decide)]

/-! ## Redeeming a code -/

/-- An error of `GetEmailAddress` is what `redeemCode` returns when the
redeemed session already names its user: the `User` block, the only place
where an error is reset, is not entered. -/
theorem redeemCode_email_error_kept (env : Env) (p : OAuthProxy) (host code e : Str)
    (s : SessionState) (hcode : code ≠ [])
    (hredeem : p.provider.Redeem (GetRedirectURI env p host) code = .ok s)
    (hemail : s.Email = []) (huser : s.User ≠ [])
    (herr : (p.provider.GetEmailAddress s).2 = some e) :
    (redeemCode env p host code).1 = .error e := by
  simp only [redeemCode, if_neg hcode, hredeem, if_pos hemail, if_neg huser, herr]

/-- With an empty `User` the error of `GetEmailAddress` is overwritten by the
result of `GetUserName`, whose `not implemented` error is reset. -/
theorem redeemCode_user_error_reset (env : Env) (p : OAuthProxy) (host code : Str)
    (s : SessionState) (hcode : code ≠ [])
    (hredeem : p.provider.Redeem (GetRedirectURI env p host) code = .ok s)
    (hemail : s.Email = []) (huser : s.User = [])
    (herr : (p.provider.GetUserName
      { s with Email := (p.provider.GetEmailAddress s).1 }).2 = some "not implemented".toList) :
    (redeemCode env p host code).1 =
      .ok { s with Email := (p.provider.GetEmailAddress s).1,
                   User := (p.provider.GetUserName
                     { s with Email := (p.provider.GetEmailAddress s).1 }).1 } := by
  rw [huser] at herr
  simp only [redeemCode, if_neg hcode, hredeem, if_pos hemail, huser, herr, if_true]

/-! ## The properties at the example configuration -/

/-- C11, counterexample: the credential store validates the user `a:b` with
password `c` and the request carries `Basic ` with the Base64 text of `a:b:c`
and no cookie, yet `Authenticate` answers 403 with no session. -/
theorem colon_user_basic_auth_is_rejected :
    exampleColonRequest.Cookie exampleColonProxy.CookieName = none ∧
    exampleColonProxy.provider.RefreshSessionIfNeeded none = (false, none) ∧
    exampleColonProxy.HtpasswdFile = some exampleColonHtpasswd ∧
    exampleColonHtpasswd.Validate "a:b".toList "c".toList = true ∧
    exampleColonRequest.Header.Get "Authorization".toList =
      "Basic ".toList ++ b64EncodeToString ("a:b".toList ++ ":".toList ++ "c".toList) ∧
    (Authenticate exampleEnv exampleColonProxy { req := exampleColonRequest }).1
      = StatusForbidden ∧
    (Authenticate exampleEnv exampleColonProxy { req := exampleColonRequest }).1
      ≠ StatusAccepted ∧
    authSession exampleEnv exampleColonProxy { req := exampleColonRequest } = none :=
  ⟨by decide, by decide, rfl, by decide, by decide, by decide, by decide, by decide⟩

/-- C11 at the request with the credentials `alice:secret`. -/
theorem Authenticate_basic_auth_accepted_witness :
    Authenticate exampleEnv exampleProxy { req := exampleBasicRequest } =
      (StatusAccepted,
        authHeaders exampleProxy { User := "alice".toList }
          (State.call { req := exampleBasicRequest } (.RefreshSessionIfNeeded none))) ∧
    authSession exampleEnv exampleProxy { req := exampleBasicRequest }
      = some { User := "alice".toList } ∧
    (Authenticate exampleEnv exampleProxy { req := exampleBasicRequest }).2.rw.Header.Get
      "GAP-Auth".toList = "alice".toList ∧
    (Authenticate exampleEnv exampleProxy { req := exampleBasicRequest }).2.rw.SetCookie
      = ({ req := exampleBasicRequest } : State).rw.SetCookie ∧
    (Authenticate exampleEnv exampleProxy { req := exampleBasicRequest }).2.calls =
      ({ req := exampleBasicRequest } : State).calls ++ [Event.RefreshSessionIfNeeded none] :=
  Authenticate_basic_auth_accepted exampleEnv exampleProxy { req := exampleBasicRequest }
    exampleHtpasswd "alice".toList "secret".toList (by decide) (by decide) rfl
    (by decide) (by decide) (by decide) (by decide)

/-- C12 at the cookie of `eve@blocked.com`, whom the strict proxy rejects. -/
theorem Authenticate_drops_rejected_session_witness :
    (authChecked exampleEnv exampleStrictProxy { req := exampleEveRequest }).1.session
      = some exampleEveSession ∧
    exampleEveSession.Email ≠ [] ∧
    exampleStrictProxy.Validator exampleEveSession.Email = false ∧
    (Authenticate exampleEnv exampleStrictProxy { req := exampleEveRequest }).2.calls =
      (authChecked exampleEnv exampleStrictProxy { req := exampleEveRequest }).2.calls ++
        [Event.Validator exampleEveSession.Email, Event.ClearSessionCookie] ∧
    (∀ s, Event.SaveSession s ∈
        (Authenticate exampleEnv exampleStrictProxy { req := exampleEveRequest }).2.calls →
      Event.SaveSession s ∈ ({ req := exampleEveRequest } : State).calls) ∧
    (Authenticate exampleEnv exampleStrictProxy { req := exampleEveRequest }).2.rw.SetCookie =
      (ClearSessionCookie exampleEnv exampleStrictProxy { req := exampleEveRequest }).rw.SetCookie :=
  have h := Authenticate_drops_rejected_session exampleEnv exampleStrictProxy
    { req := exampleEveRequest } exampleEveSession (by decide) (by decide) (by decide)
  ⟨by decide, by decide, by decide, h.1, h.2.1, h.2.2.1⟩

/-- C13 at the request with the credentials `alice:secret`. -/
theorem Authenticate_forwarded_headers_witness :
    (Authenticate exampleEnv exampleProxy { req := exampleBasicRequest }).1 = StatusAccepted ∧
    ∃ session, authSession exampleEnv exampleProxy { req := exampleBasicRequest }
        = some session ∧
      (exampleProxy.PassUserHeaders = true →
        (Authenticate exampleEnv exampleProxy
            { req := exampleBasicRequest }).2.req.Header.lookup "X-Forwarded-User".toList
          = some [session.User] ∧
        (Authenticate exampleEnv exampleProxy
            { req := exampleBasicRequest }).2.req.Header.lookup "X-Forwarded-Email".toList
          = (if session.Email = [] then none else some [session.Email])) :=
  have h := Authenticate_forwarded_headers exampleEnv exampleProxy
    { req := exampleBasicRequest } (by decide)
  ⟨by decide, h.choose, h.choose_spec.1, h.choose_spec.2.1⟩

/-- C14 at a session cookie older than the refresh period: the provider is
asked to validate the session, and the conditions hold. -/
theorem Authenticate_revalidates_only_when_due_witness :
    Event.ValidateSessionState exampleTokenSession ∈
      (Authenticate exampleEnv exampleRevalidateProxy
        { rw := {}, req := exampleTokenRequest }).2.calls ∧
    ∃ loaded, (LoadCookiedSession exampleEnv exampleRevalidateProxy exampleTokenRequest).1
        = some loaded ∧
      exampleRevalidateProxy.CookieRefresh ≠ 0 ∧
      (LoadCookiedSession exampleEnv exampleRevalidateProxy exampleTokenRequest).2.1
        > exampleRevalidateProxy.CookieRefresh ∧
      loaded.AccessToken ≠ [] ∧
      exampleRevalidateProxy.provider.RefreshSessionIfNeeded (some loaded) = (false, none) ∧
      exampleTokenSession = exampleRevalidateProxy.provider.RefreshMutate loaded ∧
      exampleEnv.IsExpired exampleTokenSession = false ∧
      exampleTokenSession.AccessToken ≠ [] :=
  ⟨by decide,
    (Authenticate_revalidates_only_when_due exampleEnv exampleRevalidateProxy {}
      exampleTokenRequest).2 exampleTokenSession (by decide)⟩

/-- C15 at an accepted request, which reaches the mux, and at a rejected
one, which does not. -/
theorem Proxy_forwards_iff_accepted_witness :
    (Authenticate exampleEnv exampleProxy
      (State.call { rw := {}, req := exampleBasicRequest } .Authenticate)).1 = StatusAccepted ∧
    (∃ r, Event.ServeMux r ∈
      (Proxy exampleEnv exampleProxy { rw := {}, req := exampleBasicRequest }).calls) ∧
    (Authenticate exampleEnv exampleProxy
      (State.call { rw := {}, req := exampleEveRequest } .Authenticate)).1 = StatusAccepted ∧
    (Authenticate exampleEnv exampleStrictProxy
      (State.call { rw := {}, req := exampleEveRequest } .Authenticate)).1 = StatusForbidden ∧
    ¬ (∃ r, Event.ServeMux r ∈
      (Proxy exampleEnv exampleStrictProxy { rw := {}, req := exampleEveRequest }).calls) :=
  ⟨by decide,
    (Proxy_forwards_iff_accepted exampleEnv exampleProxy {} exampleBasicRequest).2.1.mpr
      (by decide),
    by decide, by decide,
    fun h => absurd
      ((Proxy_forwards_iff_accepted exampleEnv exampleStrictProxy {}
        exampleEveRequest).2.1.mp h) (by decide)⟩

/-- C16 at a preflight request to the sign-in endpoint, which takes the
whitelist route. -/
theorem ServeHTTP_route_order_witness :
    examplePreflightRequest.URL.Path = examplePreflightProxy.SignInPath ∧
    firstMatchingRoute examplePreflightProxy examplePreflightRequest = Route.whitelist ∧
    ServeHTTP exampleEnv examplePreflightProxy { rw := {}, req := examplePreflightRequest } =
      serveMuxServeHTTP exampleEnv examplePreflightProxy
        { rw := {}, req := stripAuthHeaders examplePreflightProxy examplePreflightRequest } ∧
    Event.ServeMux (stripAuthHeaders examplePreflightProxy examplePreflightRequest) ∈
      (ServeHTTP exampleEnv examplePreflightProxy
        { rw := {}, req := examplePreflightRequest }).calls ∧
    (∀ e ∈ (ServeHTTP exampleEnv examplePreflightProxy
        { rw := {}, req := examplePreflightRequest }).calls,
      e ≠ Event.Authenticate ∧ e.byAuthenticate = false) :=
  ⟨by decide, by decide,
    (ServeHTTP_route_order exampleEnv examplePreflightProxy {} examplePreflightRequest).2.2
      (by decide) (by decide) (Or.inl ⟨by decide, by decide⟩)⟩

/-- C17, counterexample: with the stripping of headers off, a whitelisted
request reaches the mux and the upstream handler with the `X-Forwarded-User`
and `Authorization` headers the client sent. -/
theorem whitelisted_spoofed_header_is_forwarded :
    examplePublicProxy.skipAuthStripHdrs = false ∧
    exampleSpoofedRequest.URL.Path ≠ examplePublicProxy.RobotsPath ∧
    exampleSpoofedRequest.URL.Path ≠ examplePublicProxy.PingPath ∧
    IsWhitelistedRequest examplePublicProxy exampleSpoofedRequest = true ∧
    (ServeHTTP exampleEnv examplePublicProxy { req := exampleSpoofedRequest }).calls =
      [Event.ServeMux exampleSpoofedRequest,
        Event.Handler exampleUpstream.handler
          (exampleUpstream.ServeHTTP exampleEnv { req := exampleSpoofedRequest }).req] ∧
    (exampleUpstream.ServeHTTP exampleEnv
        { req := exampleSpoofedRequest }).req.Header.Get "X-Forwarded-User".toList
      = "admin".toList ∧
    (exampleUpstream.ServeHTTP exampleEnv
        { req := exampleSpoofedRequest }).req.Header.Get "Authorization".toList
      = "Basic YWRtaW46eA==".toList := by
  decide

/-- C17 at the same request with the stripping of headers on:
`X-Forwarded-User` is removed and `Authorization`, whose flag is off, stays. -/
theorem whitelisted_request_headers_witness :
    exampleSpoofedRequest.URL.Path ≠ exampleStripProxy.RobotsPath ∧
    exampleSpoofedRequest.URL.Path ≠ exampleStripProxy.PingPath ∧
    IsWhitelistedRequest exampleStripProxy exampleSpoofedRequest = true ∧
    Event.ServeMux (stripAuthHeaders exampleStripProxy exampleSpoofedRequest) ∈
      (ServeHTTP exampleEnv exampleStripProxy { rw := {}, req := exampleSpoofedRequest }).calls ∧
    (stripAuthHeaders exampleStripProxy exampleSpoofedRequest).Header.lookup
      "X-Forwarded-User".toList = none ∧
    (stripAuthHeaders exampleStripProxy exampleSpoofedRequest).Header.lookup
      "Authorization".toList = some ["Basic YWRtaW46eA==".toList] :=
  have h := whitelisted_request_headers exampleEnv exampleStripProxy {} exampleSpoofedRequest
    (by decide) (by decide) (by decide)
  ⟨by decide, by decide, by decide, h.1, (h.2.2.2 (by decide)).2.1, (h.2.2.2 (by decide)).1⟩

/-- C18, counterexample: with a signature key configured, the file upstream
registered at `/static/` hands the request to its file server unchanged, with
no `GAP-Signature` header. -/
theorem file_upstream_request_is_not_signed :
    exampleOptions.signatureData = some exampleSignatureData ∧
    newServeMux exampleOptions = some exampleProxy.serveMux ∧
    (∃ u, ("/static/".toList, u) ∈ exampleProxy.serveMux ∧
      u.handler = NewFileServer "/static/".toList "/var/www/static".toList ∧
      (u.ServeHTTP exampleEnv { req := exampleStaticRequest }).calls =
        [Event.Handler u.handler exampleStaticRequest]) ∧
    exampleStaticRequest.Header.lookup "Gap-Signature".toList = none ∧
    handlerSignatures (ServeHTTP exampleEnv exampleProxy { req := exampleStaticRequest }).calls =
      [(NewFileServer "/static/".toList "/var/www/static".toList, none)] :=
  ⟨by decide, by decide,
    ⟨{ upstream := "/static/".toList,
       handler := NewFileServer "/static/".toList "/var/www/static".toList,
       wsHandler := none, auth := none }, by decide, by decide, by decide⟩,
    by decide, by decide⟩

/-- C18 at the HTTP upstream of the example options. -/
theorem registered_upstream_signing_witness :
    exampleOptions.signatureData = some exampleSignatureData ∧
    newServeMux exampleOptions = some exampleProxy.serveMux ∧
    ("/".toList, exampleUpstream) ∈ exampleProxy.serveMux ∧
    (exampleUpstream.ServeHTTP exampleEnv { req := exampleBasicRequest }).req.Header.lookup
        "Gap-Signature".toList ≠ none ∧
    ∃ auth, newHmacAuth exampleOptions = some auth ∧ auth.key = exampleSignatureData.key ∧
      auth.hash = exampleSignatureData.hash ∧ auth.header = "GAP-Signature".toList :=
  have h := registered_upstream_signing exampleEnv exampleOptions exampleSignatureData
    exampleProxy.serveMux "/".toList exampleUpstream { req := exampleBasicRequest }
    (by decide) (by decide) (by decide)
  ⟨by decide, by decide, by decide, by decide,
    h.choose, h.choose_spec.1, h.choose_spec.2.1, h.choose_spec.2.2.1, h.choose_spec.2.2.2.1⟩

/-- C19, counterexample: a request with `Connection: Upgrade`, which is not
the text `upgrade`, goes to the WebSocket handler, and a request with
`Connection: upgrade` and `Upgrade: WebSocket` goes to the generic handler; the
two headers are not compared the same way. -/
theorem websocket_dispatch_depends_on_header_case :
    exampleUpstream.wsHandler ≠ none ∧
    exampleBrowserUpgrade.Header.Get "Connection".toList = "Upgrade".toList ∧
    exampleBrowserUpgrade.Header.Get "Connection".toList ≠ "upgrade".toList ∧
    exampleBrowserUpgrade.Header.Get "Upgrade".toList = "websocket".toList ∧
    (some <$> handlersCalled
        (exampleUpstream.ServeHTTP exampleEnv { req := exampleBrowserUpgrade }).calls)
      = [exampleUpstream.wsHandler] ∧
    exampleMixedCaseUpgrade.Header.Get "Connection".toList = "upgrade".toList ∧
    exampleMixedCaseUpgrade.Header.Get "Upgrade".toList = "WebSocket".toList ∧
    ToLower (exampleMixedCaseUpgrade.Header.Get "Upgrade".toList) = "websocket".toList ∧
    handlersCalled
        (exampleUpstream.ServeHTTP exampleEnv { req := exampleMixedCaseUpgrade }).calls
      = [exampleUpstream.handler] := by
  decide

/-- C19 at the HTTP upstream of the example options. -/
theorem UpstreamProxy_websocket_dispatch_witness :
    (∀ auth, exampleUpstream.auth = some auth → auth.header = SignatureHeader) ∧
    (exampleUpstream.ServeHTTP exampleEnv { req := exampleBrowserUpgrade }).calls =
      ({ req := exampleBrowserUpgrade } : State).calls ++
        [Event.Handler
          (match exampleUpstream.wsHandler with
            | some wsHandler =>
              if ToLower (({ req := exampleBrowserUpgrade } : State).req.Header.Get
                    "Connection".toList) = "upgrade".toList
                  ∧ ({ req := exampleBrowserUpgrade } : State).req.Header.Get
                    "Upgrade".toList = "websocket".toList
              then wsHandler else exampleUpstream.handler
            | none => exampleUpstream.handler)
          (exampleUpstream.ServeHTTP exampleEnv { req := exampleBrowserUpgrade }).req] :=
  have hsig : ∀ auth, exampleUpstream.auth = some auth → auth.header = SignatureHeader :=
    fun auth h => by
      have h2 : exampleUpstream.auth =
          some (HmacAuth.mk "sha1".toList "signing-key".toList SignatureHeader
            SignatureHeaders) := by decide
      rw [h2] at h
      cases h
      rfl
  ⟨hsig, UpstreamProxy_websocket_dispatch exampleEnv exampleUpstream
    { req := exampleBrowserUpgrade } hsig⟩

/-- C20, at the failing input: the provider redeems the code for a session
with the user `bob` and no email, `GetEmailAddress` fails with
`not implemented`, and `redeemCode` returns that error, which `OAuthCallback`
answers with 500. -/
theorem redeemCode_email_not_implemented_is_fatal :
    exampleUserProxy.provider.Redeem
        (GetRedirectURI exampleEnv exampleUserProxy "proxy.example.com".toList)
        "good-code".toList
      = .ok { User := "bob".toList, AccessToken := "token".toList } ∧
    exampleUserProxy.provider.GetEmailAddress
        { User := "bob".toList, AccessToken := "token".toList }
      = ([], some "not implemented".toList) ∧
    (redeemCode exampleEnv exampleUserProxy "proxy.example.com".toList "good-code".toList).1
      = .error "not implemented".toList ∧
    (OAuthCallback exampleEnv exampleUserProxy { req := exampleGoodCallback }).rw.Code
      = some 500 :=
  ⟨rfl, by decide, rfl, by decide⟩

/-! ## The OIDC provider -/

/-- C21. For a token whose `id_token` verifies and whose claims parse,
`createSessionState` returns an error exactly when the `email_verified` claim
is present and false; otherwise it returns the session with the access token,
the refresh token and the expiry of the token, with the email claim, or the
subject claim when the email claim is empty, as `Email`, and with no `User`.
An absent `email_verified` claim is accepted. -/
theorem createSessionState_verified_claims (p : OIDCProvider) (token : Token)
    (rawIDToken idToken : Str) (claims : IDTokenClaims)
    (hraw : token.IDToken = some rawIDToken)
    (hverify : p.Verify rawIDToken = .ok idToken)
    (hclaims : p.Claims idToken = .ok claims) :
    ((∃ err, p.createSessionState token = .error err) ↔ claims.Verified = some false) ∧
    (claims.Verified ≠ some false →
      p.createSessionState token =
        .ok { AccessToken := token.AccessToken, RefreshToken := token.RefreshToken,
              ExpiresOn := token.Expiry,
              Email := if claims.Email = [] then claims.Subject else claims.Email,
              User := [] }) ∧
    (claims.Verified = none → ∃ s, p.createSessionState token = .ok s) := by
  have hval : p.createSessionState token =
      if claims.Verified = some false then
        .error ("email in id_token (".toList ++
          (if claims.Email = [] then claims.Subject else claims.Email) ++ ") isn".toList ++
          Char.ofNat 39 :: "t verified".toList)
      else
        .ok { AccessToken := token.AccessToken, RefreshToken := token.RefreshToken,
              ExpiresOn := token.Expiry,
              Email := if claims.Email = [] then claims.Subject else claims.Email,
              User := [] } := by
    simp only [OIDCProvider.createSessionState, hraw, hverify, hclaims]
    by_cases he : claims.Email = [] <;> simp only [he, if_true, if_false]
  refine ⟨?_, ?_, ?_⟩
  · constructor
    · rintro ⟨err, herr⟩
      by_contra hv
      rw [hval, if_neg hv] at herr
      cases herr
    · intro hv
      rw [hval, if_pos hv]
      exact ⟨_, rfl⟩
  · intro hv
    rw [hval, if_neg hv]
  · intro hv
    rw [hval, if_neg (by rw [hv]; simp)]
    exact ⟨_, rfl⟩

/-- What `redeemRefreshToken` returns when it fails: the session is the one it
was given. -/
theorem redeemRefreshToken_error_keeps (env : Env) (p : OIDCProvider) (s : SessionState)
    (err : Str) (h : (p.redeemRefreshToken env s).1 = some err) :
    (p.redeemRefreshToken env s).2 = s := by
  unfold OIDCProvider.redeemRefreshToken at h ⊢
  simp only []
  cases hts : p.TokenSource { RefreshToken := s.RefreshToken, Expiry := env.now - Hour } with
  | error e => simp only [hts]
  | ok token =>
    simp only [hts] at h ⊢
    cases hcs : p.createSessionState token with
    | error e => simp only [hcs]
    | ok newSession =>
      simp only [hcs] at h
      cases h

/-- C22. The OIDC `RefreshSessionIfNeeded` returns `(false, nil)` and leaves
the session as it is when the session is absent, expires after the current
time or has no refresh token.  Otherwise it asks the token source for a token
with the refresh token of the session: when that or `createSessionState`
fails, it returns `false` with an error and the session is unchanged in every
field; when both succeed it returns `(true, nil)` and the session has the
access token, refresh token, expiry and email of the new session and the
`User` it had. -/
theorem OIDC_RefreshSessionIfNeeded_atomic (env : Env) (p : OIDCProvider) :
    p.RefreshSessionIfNeeded env none = ((false, none), none) ∧
    (∀ s : SessionState, env.now < s.ExpiresOn ∨ s.RefreshToken = [] →
      p.RefreshSessionIfNeeded env (some s) = ((false, none), some s)) ∧
    (∀ s : SessionState, ¬ env.now < s.ExpiresOn → s.RefreshToken ≠ [] →
      (∀ err, p.TokenSource { RefreshToken := s.RefreshToken, Expiry := env.now - Hour }
          = .error err →
        p.RefreshSessionIfNeeded env (some s) =
          ((false, some ("unable to redeem refresh token: ".toList ++
            ("failed to get token: ".toList ++ err))), some s)) ∧
      (∀ token err,
        p.TokenSource { RefreshToken := s.RefreshToken, Expiry := env.now - Hour }
          = .ok token →
        p.createSessionState token = .error err →
        p.RefreshSessionIfNeeded env (some s) =
          ((false, some ("unable to redeem refresh token: ".toList ++
            ("unable to update session: ".toList ++ err))), some s)) ∧
      (∀ token newSession,
        p.TokenSource { RefreshToken := s.RefreshToken, Expiry := env.now - Hour }
          = .ok token →
        p.createSessionState token = .ok newSession →
        p.RefreshSessionIfNeeded env (some s) =
          ((true, none),
            some { AccessToken := newSession.AccessToken,
                   RefreshToken := newSession.RefreshToken,
                   ExpiresOn := newSession.ExpiresOn,
                   Email := newSession.Email,
                   User := s.User })) ∧
      ((p.RefreshSessionIfNeeded env (some s)).1.2 ≠ none →
        (p.RefreshSessionIfNeeded env (some s)).1.1 = false ∧
        (p.RefreshSessionIfNeeded env (some s)).2 = some s)) := by
  refine ⟨rfl, ?_, ?_⟩
  · intro s h
    simp only [OIDCProvider.RefreshSessionIfNeeded, if_pos h]
  · intro s hexp hrt
    have hcond : ¬ (env.now < s.ExpiresOn ∨ s.RefreshToken = []) := by
      rintro (h | h)
      · exact hexp h
      · exact hrt h
    refine ⟨?_, ?_, ?_, ?_⟩
    · intro err hts
      simp only [OIDCProvider.RefreshSessionIfNeeded, if_neg hcond,
        OIDCProvider.redeemRefreshToken, hts]
    · intro token err hts hcs
      simp only [OIDCProvider.RefreshSessionIfNeeded, if_neg hcond,
        OIDCProvider.redeemRefreshToken, hts, hcs]
    · intro token newSession hts hcs
      simp only [OIDCProvider.RefreshSessionIfNeeded, if_neg hcond,
        OIDCProvider.redeemRefreshToken, hts, hcs]
    · intro herr
      have hk := redeemRefreshToken_error_keeps env p s
      simp only [OIDCProvider.RefreshSessionIfNeeded, if_neg hcond] at herr ⊢
      cases hr : p.redeemRefreshToken env s with
      | mk e s2 =>
        rw [hr] at hk
        cases e with
        | none => simp only [hr] at herr; exact absurd rfl herr
        | some e =>
          have hs2 : s2 = s := hk e rfl
          simp only [hr, hs2, and_self]

/-! ## The cases of `CheckBasicAuth` -/

/-- A string that holds a byte splits at the first occurrence of it. -/
theorem split_at_first (s : Str) (c : Char) (h : c ∈ s) :
    ∃ a b, s = a ++ c :: b ∧ c ∉ a := by
  induction s with
  | nil => cases h
  | cons x xs ih =>
    by_cases hx : x = c
    · exact ⟨[], xs, by simp [hx], by simp⟩
    · have hmem : c ∈ xs := by
        rcases List.mem_cons.1 h with h1 | h1
        · exact absurd h1.symm hx
        · exact h1
      obtain ⟨a, b, hab, hna⟩ := ih hmem
      refine ⟨x :: a, b, by simp [hab], ?_⟩
      intro hc
      rcases List.mem_cons.1 hc with h1 | h1
      · exact hx h1.symm
      · exact hna h1

/-- The two shapes of `strings.SplitN(s, sep, 2)`. -/
theorem SplitN2_cases (s : Str) (c : Char) :
    (c ∉ s ∧ SplitN2 s c = [s]) ∨
    (∃ a b, s = a ++ c :: b ∧ c ∉ a ∧ SplitN2 s c = [a, b]) := by
  by_cases h : c ∈ s
  · obtain ⟨a, b, hab, hna⟩ := split_at_first s c h
    exact Or.inr ⟨a, b, hab, hna, by rw [hab]; exact SplitN2_append a b c hna⟩
  · exact Or.inl ⟨h, SplitN2_of_not_mem s c h⟩

/-- The first occurrence of a byte is unique. -/
theorem split_at_first_unique (a b a2 b2 : Str) (c : Char) (h : a ++ c :: b = a2 ++ c :: b2)
    (ha : c ∉ a) (ha2 : c ∉ a2) : a = a2 ∧ b = b2 := by
  have h1 := SplitN2_append a b c ha
  have h2 := SplitN2_append a2 b2 c ha2
  rw [h, h2] at h1
  simp only [List.cons.injEq, and_true] at h1
  exact ⟨h1.1.symm, h1.2.symm⟩

/-- The result of `CheckBasicAuth`, case by case. -/
theorem CheckBasicAuth_cases (p : OAuthProxy) (req : Request) :
    (p.HtpasswdFile = none ∧ CheckBasicAuth p req = (none, none)) ∨
    (p.HtpasswdFile ≠ none ∧ req.Header.Get "Authorization".toList = [] ∧
      CheckBasicAuth p req = (none, none)) ∨
    (p.HtpasswdFile ≠ none ∧ req.Header.Get "Authorization".toList ≠ [] ∧
      (¬ ∃ encoded, req.Header.Get "Authorization".toList = "Basic ".toList ++ encoded) ∧
      CheckBasicAuth p req = (none, some ("invalid Authorization header ".toList ++
        req.Header.Get "Authorization".toList))) ∨
    (∃ encoded, p.HtpasswdFile ≠ none ∧
      req.Header.Get "Authorization".toList = "Basic ".toList ++ encoded ∧
      b64DecodeString encoded = none ∧
      CheckBasicAuth p req = (none, some "illegal base64 data".toList)) ∨
    (∃ encoded b, p.HtpasswdFile ≠ none ∧
      req.Header.Get "Authorization".toList = "Basic ".toList ++ encoded ∧
      b64DecodeString encoded = some b ∧ ':' ∉ b ∧
      CheckBasicAuth p req = (none, some ("invalid format ".toList ++ b))) ∨
    (∃ htpasswd encoded user password, p.HtpasswdFile = some htpasswd ∧
      req.Header.Get "Authorization".toList = "Basic ".toList ++ encoded ∧
      b64DecodeString encoded = some (user ++ ':' :: password) ∧ ':' ∉ user ∧
      htpasswd.Validate user password = false ∧
      CheckBasicAuth p req = (none, some (user ++ " not in HtpasswdFile".toList))) ∨
    (∃ htpasswd encoded user password, p.HtpasswdFile = some htpasswd ∧
      req.Header.Get "Authorization".toList = "Basic ".toList ++ encoded ∧
      b64DecodeString encoded = some (user ++ ':' :: password) ∧ ':' ∉ user ∧
      htpasswd.Validate user password = true ∧
      CheckBasicAuth p req = (some { User := user }, none)) := by
  cases hstore : p.HtpasswdFile with
  | none => exact Or.inl ⟨rfl, by simp only [CheckBasicAuth, hstore]⟩
  | some htpasswd =>
    have hne : (some htpasswd : Option HtpasswdFile) ≠ none := by simp
    right
    by_cases hauth : req.Header.Get "Authorization".toList = []
    · exact Or.inl ⟨hne, hauth, by simp only [CheckBasicAuth, hstore, hauth, if_true]⟩
    right
    rcases SplitN2_cases (req.Header.Get "Authorization".toList) ' ' with
      ⟨hns, hsplit⟩ | ⟨scheme, encoded, hab, hna, hsplit⟩
    · refine Or.inl ⟨hne, hauth, ?_, ?_⟩
      · rintro ⟨encoded, he⟩
        apply hns
        rw [he]
        simp
      · simp only [CheckBasicAuth, hstore, if_neg hauth, hsplit]
    by_cases hscheme : scheme = "Basic".toList
    swap
    · refine Or.inl ⟨hne, hauth, ?_, ?_⟩
      · rintro ⟨encoded2, he⟩
        apply hscheme
        have he2 : scheme ++ ' ' :: encoded = "Basic".toList ++ ' ' :: encoded2 := by
          rw [← hab, he]
          simp
        exact (split_at_first_unique scheme encoded "Basic".toList encoded2 ' ' he2 hna
          (by decide)).1
      · simp only [CheckBasicAuth, hstore, if_neg hauth, hsplit, ne_eq, hscheme,
          not_false_eq_true, if_true]
    right
    have hform : req.Header.Get "Authorization".toList = "Basic ".toList ++ encoded := by
      rw [hab, hscheme]
      simp
    cases hdec : b64DecodeString encoded with
    | none =>
      refine Or.inl ⟨encoded, hne, hform, hdec, ?_⟩
      simp only [CheckBasicAuth, hstore, if_neg hauth, hsplit, ne_eq, hscheme,
        not_true_eq_false, if_false, hdec]
    | some b =>
      right
      rcases SplitN2_cases b ':' with ⟨hnb, hsb⟩ | ⟨user, password, hb, hnu, hsb⟩
      · refine Or.inl ⟨encoded, b, hne, hform, hdec, hnb, ?_⟩
        simp only [CheckBasicAuth, hstore, if_neg hauth, hsplit, ne_eq, hscheme,
          not_true_eq_false, if_false, hdec, hsb]
      right
      cases hval : htpasswd.Validate user password with
      | false =>
        refine Or.inl ⟨htpasswd, encoded, user, password, rfl, hform, by rw [hdec, hb], hnu, hval, ?_⟩
        simp only [CheckBasicAuth, hstore, if_neg hauth, hsplit, ne_eq, hscheme,
          not_true_eq_false, if_false, hdec, hsb, hval, Bool.false_eq_true]
      | true =>
        refine Or.inr ⟨htpasswd, encoded, user, password, rfl, hform, by rw [hdec, hb], hnu, hval, ?_⟩
        simp only [CheckBasicAuth, hstore, if_neg hauth, hsplit, ne_eq, hscheme,
          not_true_eq_false, if_false, hdec, hsb, hval, if_true]

/-- The session `CheckBasicAuth` returns on well-formed credentials the store
validates. -/
theorem CheckBasicAuth_of_decoded (p : OAuthProxy) (req : Request) (htpasswd : HtpasswdFile)
    (encoded user password : Str)
    (hstore : p.HtpasswdFile = some htpasswd)
    (hauth : req.Header.Get "Authorization".toList = "Basic ".toList ++ encoded)
    (hdec : b64DecodeString encoded = some (user ++ ':' :: password))
    (hcolon : ':' ∉ user)
    (hvalid : htpasswd.Validate user password = true) :
    CheckBasicAuth p req = (some { User := user }, none) := by
  have hne : req.Header.Get "Authorization".toList ≠ [] := by
    rw [hauth]
    simp
  have hsplit : SplitN2 (req.Header.Get "Authorization".toList) ' '
      = ["Basic".toList, encoded] := by
    rw [hauth]
    exact SplitN2_append "Basic".toList encoded ' ' (by decide)
  have hsb := SplitN2_append user password ':' hcolon
  simp only [CheckBasicAuth, hstore, if_neg hne, hsplit, ne_eq, not_true_eq_false, if_false,
    hdec, hsb, hvalid, if_true]

/-- C25. `CheckBasicAuth` returns a session exactly when a credential store is
configured, the `Authorization` header is `Basic ` followed by standard Base64
that decodes to a text with a `:`, and the store validates the text before the
first `:` with the text after it; the session then has that user name as
`User` and every other field empty, and the error is nil.  Without a store, or
with an empty header, it returns `(nil, nil)`; in every other case without a
session (another scheme, undecodable Base64, no `:` in the decoded text,
credentials the store rejects) it returns an error. -/
theorem CheckBasicAuth_session_iff (p : OAuthProxy) (req : Request) :
    (∀ session, (CheckBasicAuth p req).1 = some session ↔
      ∃ htpasswd encoded user password, p.HtpasswdFile = some htpasswd ∧
        req.Header.Get "Authorization".toList = "Basic ".toList ++ encoded ∧
        b64DecodeString encoded = some (user ++ ':' :: password) ∧ ':' ∉ user ∧
        htpasswd.Validate user password = true ∧
        session = { AccessToken := [], ExpiresOn := 0, RefreshToken := [], Email := [],
                    User := user }) ∧
    ((CheckBasicAuth p req).1 ≠ none → (CheckBasicAuth p req).2 = none) ∧
    (p.HtpasswdFile = none ∨ req.Header.Get "Authorization".toList = [] →
      CheckBasicAuth p req = (none, none)) ∧
    (p.HtpasswdFile ≠ none → req.Header.Get "Authorization".toList ≠ [] →
      (CheckBasicAuth p req).1 = none → ∃ err, CheckBasicAuth p req = (none, some err)) ∧
    (p.HtpasswdFile ≠ none → req.Header.Get "Authorization".toList ≠ [] →
      ((¬ ∃ encoded, req.Header.Get "Authorization".toList = "Basic ".toList ++ encoded) ∨
        (∃ encoded, req.Header.Get "Authorization".toList = "Basic ".toList ++ encoded ∧
          b64DecodeString encoded = none) ∨
        (∃ encoded b, req.Header.Get "Authorization".toList = "Basic ".toList ++ encoded ∧
          b64DecodeString encoded = some b ∧ ':' ∉ b) ∨
        (∃ htpasswd encoded user password, p.HtpasswdFile = some htpasswd ∧
          req.Header.Get "Authorization".toList = "Basic ".toList ++ encoded ∧
          b64DecodeString encoded = some (user ++ ':' :: password) ∧ ':' ∉ user ∧
          htpasswd.Validate user password = false)) →
      (CheckBasicAuth p req).1 = none) := by
  have hcases := CheckBasicAuth_cases p req
  refine ⟨?_, ?_, ?_, ?_, ?_⟩
  · intro session
    constructor
    · intro h
      rcases hcases with ⟨-, hc⟩ | ⟨-, -, hc⟩ | ⟨-, -, -, hc⟩ | ⟨_, -, -, -, hc⟩ |
        ⟨_, _, -, -, -, -, hc⟩ | ⟨_, _, _, _, -, -, -, -, -, hc⟩ |
        ⟨htpasswd, encoded, user, password, h1, h2, h3, h4, h5, hc⟩
      · rw [hc] at h; cases h
      · rw [hc] at h; cases h
      · rw [hc] at h; cases h
      · rw [hc] at h; cases h
      · rw [hc] at h; cases h
      · rw [hc] at h; cases h
      · rw [hc] at h
        exact ⟨htpasswd, encoded, user, password, h1, h2, h3, h4, h5, (Option.some.inj h).symm⟩
    · rintro ⟨htpasswd, encoded, user, password, h1, h2, h3, h4, h5, rfl⟩
      rw [CheckBasicAuth_of_decoded p req htpasswd encoded user password h1 h2 h3 h4 h5]
  · intro h
    rcases hcases with ⟨-, hc⟩ | ⟨-, -, hc⟩ | ⟨-, -, -, hc⟩ | ⟨_, -, -, -, hc⟩ |
      ⟨_, _, -, -, -, -, hc⟩ | ⟨_, _, _, _, -, -, -, -, -, hc⟩ |
      ⟨_, _, _, _, -, -, -, -, -, hc⟩ <;> rw [hc] at h ⊢ <;>
      first | rfl | exact absurd rfl h
  · rintro (h | h)
    · simp only [CheckBasicAuth, h]
    · cases hstore : p.HtpasswdFile with
      | none => simp only [CheckBasicAuth, hstore]
      | some htpasswd => simp only [CheckBasicAuth, hstore, h, if_true]
  · intro hstore hauth hnone
    rcases hcases with ⟨h0, -⟩ | ⟨-, h0, -⟩ | ⟨-, -, -, hc⟩ | ⟨_, -, -, -, hc⟩ |
      ⟨_, _, -, -, -, -, hc⟩ | ⟨_, _, _, _, -, -, -, -, -, hc⟩ |
      ⟨_, _, _, _, -, -, -, -, -, hc⟩
    · exact absurd h0 hstore
    · exact absurd h0 hauth
    · exact ⟨_, hc⟩
    · exact ⟨_, hc⟩
    · exact ⟨_, hc⟩
    · exact ⟨_, hc⟩
    · rw [hc] at hnone; cases hnone
  · intro hstore hauth hbad
    rcases hcases with ⟨-, hc⟩ | ⟨-, -, hc⟩ | ⟨-, -, -, hc⟩ | ⟨_, -, -, -, hc⟩ |
      ⟨_, _, -, -, -, -, hc⟩ | ⟨_, _, _, _, -, -, -, -, -, hc⟩ |
      ⟨htpasswd, encoded, user, password, h1, h2, h3, h4, h5, hc⟩
    · rw [hc]
    · rw [hc]
    · rw [hc]
    · rw [hc]
    · rw [hc]
    · rw [hc]
    · exfalso
      have henc : ∀ e2, req.Header.Get "Authorization".toList = "Basic ".toList ++ e2 →
          e2 = encoded := by
        intro e2 he2
        rw [h2] at he2
        exact (List.append_cancel_left he2).symm
      rcases hbad with hb | ⟨e2, he2, hd⟩ | ⟨e2, b, he2, hd, hnb⟩ |
        ⟨ht2, e2, u2, p2, hs2, he2, hd, hnu2, hv2⟩
      · exact hb ⟨encoded, h2⟩
      · rw [henc e2 he2, h3] at hd
        cases hd
      · rw [henc e2 he2, h3] at hd
        apply hnb
        rw [← Option.some.inj hd]
        simp
      · rw [henc e2 he2, h3] at hd
        have hu := split_at_first_unique user password u2 p2 ':' (Option.some.inj hd) h4 hnu2
        rw [h1] at hs2
        rw [← Option.some.inj hs2, ← hu.1, ← hu.2, h5] at hv2
        cases hv2

/-! ## Saving and clearing the session cookie -/

theorem authLoad_clear (env : Env) (p : OAuthProxy) (st : State) :
    (authLoad env p st).clearSession = false := by
  unfold authLoad
  simp only []
  split <;> rfl

theorem authRefresh_clear (p : OAuthProxy) (v : AuthVars) (st : State)
    (h : v.clearSession = true → v.session = none) :
    (authRefresh p v st).1.clearSession = true → (authRefresh p v st).1.session = none := by
  unfold authRefresh
  simp only []
  cases (p.provider.RefreshSessionIfNeeded v.session).2 with
  | some e => intro _; rfl
  | none =>
    simp only []
    split_ifs
    · intro hc
      simp only [h hc, Option.map_none']
    · intro hc
      simp only [h hc, Option.map_none']

theorem authExpiry_clear (env : Env) (v : AuthVars)
    (h : v.clearSession = true → v.session = none) :
    (authExpiry env v).clearSession = true → (authExpiry env v).session = none := by
  unfold authExpiry
  cases hs : v.session with
  | none => intro _; simp only [hs]
  | some s =>
    simp only []
    split_ifs
    · intro _; rfl
    · intro hc
      rw [h hc] at hs
      cases hs

theorem authRevalidate_clear (p : OAuthProxy) (v : AuthVars) (st : State)
    (h : v.clearSession = true → v.session = none) :
    (authRevalidate p v st).1.clearSession = true →
      (authRevalidate p v st).1.session = none := by
  unfold authRevalidate
  cases hs : v.session with
  | none => intro _; simp only [hs]
  | some s =>
    simp only []
    split_ifs
    · intro _; rfl
    · intro hc
      rw [h hc] at hs
      cases hs
    · intro hc
      rw [h hc] at hs
      cases hs
    · intro hc
      rw [h hc] at hs
      cases hs

theorem authValidator_clear (p : OAuthProxy) (v : AuthVars) (st : State)
    (h : v.clearSession = true → v.session = none) :
    (authValidator p v st).1.clearSession = true →
      (authValidator p v st).1.session = none := by
  unfold authValidator
  cases hs : v.session with
  | none => intro _; simp only [hs]
  | some s =>
    simp only []
    split_ifs
    · intro _; rfl
    · intro hc
      rw [h hc] at hs
      cases hs
    · intro hc
      rw [h hc] at hs
      cases hs

/-- At every step of `Authenticate` up to the save step, a set clear flag goes
with an absent session. -/
theorem auth_clear_dropped (env : Env) (p : OAuthProxy) (st : State) :
    ((authRefresh p (authLoad env p st) st).1.clearSession = true →
      (authRefresh p (authLoad env p st) st).1.session = none) ∧
    ((authExpiry env (authRefresh p (authLoad env p st) st).1).clearSession = true →
      (authExpiry env (authRefresh p (authLoad env p st) st).1).session = none) ∧
    ((authChecked env p st).1.clearSession = true → (authChecked env p st).1.session = none) ∧
    ((authSettled env p st).1.clearSession = true → (authSettled env p st).1.session = none) := by
  have h0 : (authLoad env p st).clearSession = true → (authLoad env p st).session = none := by
    intro h
    rw [authLoad_clear] at h
    cases h
  have h1 := authRefresh_clear p _ st h0
  have h2 := authExpiry_clear env _ h1
  have h3 := authRevalidate_clear p _ (authRefresh p (authLoad env p st) st).2 h2
  have h4 := authValidator_clear p _ (authChecked env p st).2 h3
  exact ⟨h1, h2, h3, h4⟩

/-- The steps before the save step neither save nor clear the session cookie. -/
theorem authSettled_calls_quiet (env : Env) (p : OAuthProxy) (st : State) :
    ∀ e ∈ (authSettled env p st).2.calls,
      e ∈ st.calls ∨ (e ≠ Event.ClearSessionCookie ∧ ∀ s, e ≠ Event.SaveSession s) := by
  have hstep : ∀ (s0 : State) (e0 : Event),
      (e0 ≠ Event.ClearSessionCookie ∧ ∀ s, e0 ≠ Event.SaveSession s) →
      (∀ e ∈ s0.calls,
        e ∈ st.calls ∨ (e ≠ Event.ClearSessionCookie ∧ ∀ s, e ≠ Event.SaveSession s)) →
      ∀ e ∈ (s0.call e0).calls,
        e ∈ st.calls ∨ (e ≠ Event.ClearSessionCookie ∧ ∀ s, e ≠ Event.SaveSession s) := by
    intro s0 e0 h0 hs e he
    simp only [call_calls, List.mem_append, List.mem_singleton] at he
    rcases he with he | rfl
    · exact hs e he
    · exact Or.inr h0
  have h1 : ∀ e ∈ (authRefresh p (authLoad env p st) st).2.calls,
      e ∈ st.calls ∨ (e ≠ Event.ClearSessionCookie ∧ ∀ s, e ≠ Event.SaveSession s) := by
    intro e he
    rw [authRefresh_calls] at he
    simp only [List.mem_append, List.mem_singleton] at he
    rcases he with he | rfl
    · exact Or.inl he
    · exact Or.inr ⟨by simp, by simp⟩
  have h2 : ∀ e ∈ (authChecked env p st).2.calls,
      e ∈ st.calls ∨ (e ≠ Event.ClearSessionCookie ∧ ∀ s, e ≠ Event.SaveSession s) := by
    unfold authChecked authRevalidate
    simp only []
    split
    · split_ifs
      · exact hstep _ _ ⟨by simp, by simp⟩ h1
      · exact hstep _ _ ⟨by simp, by simp⟩ h1
      · exact h1
      · exact h1
    · exact h1
  unfold authSettled authValidator
  split
  · split_ifs
    · exact hstep _ _ ⟨by simp, by simp⟩ h2
    · exact hstep _ _ ⟨by simp, by simp⟩ h2
    · exact h2
  · exact h2

/-- The calls of the save and clear steps. -/
theorem authFinish_calls_cases (env : Env) (p : OAuthProxy) (v : AuthVars) (st : State)
    (h : v.clearSession = true → v.session = none) :
    (authFinish env p v st).2.calls = st.calls ∨
    (v.clearSession = true ∧
      (authFinish env p v st).2.calls = st.calls ++ [Event.ClearSessionCookie]) ∨
    (∃ s, v.session = some s ∧ v.clearSession = false ∧
      (authFinish env p v st).2.calls = st.calls ++ [Event.SaveSession s]) := by
  cases hc : v.clearSession with
  | true =>
    right; left
    refine ⟨rfl, ?_⟩
    rw [authFinish_dropped env p v st (h hc) hc]
    cases (CheckBasicAuth p st.req).1 with
    | none => simp only [ClearSessionCookie_calls]
    | some b => simp only [authHeaders_calls, ClearSessionCookie_calls]
  | false =>
    unfold authFinish
    cases hs : v.session with
    | none =>
      left
      simp only [hc, Bool.false_eq_true, if_false]
      cases (CheckBasicAuth p st.req).1 <;> simp only [authHeaders_calls]
    | some s =>
      by_cases hsave : v.saveSession = true
      · right; right
        refine ⟨s, rfl, rfl, ?_⟩
        simp only [hc, Bool.false_eq_true, if_false, hsave, if_true]
        cases hr : (SaveSession env p st s).1 with
        | some e => simp only [SaveSession_calls]
        | none => simp only [authHeaders_calls, SaveSession_calls]
      · left
        have hs' : v.saveSession = false := by simpa using hsave
        simp only [hc, hs', Bool.false_eq_true, if_false, authHeaders_calls]

theorem authLoad_no_session (env : Env) (p : OAuthProxy) (st : State)
    (h : (LoadCookiedSession env p st.req).1 = none) :
    authLoad env p st = { session := none } := by
  unfold authLoad
  simp only [h]

theorem Authenticate_no_loaded_session (env : Env) (p : OAuthProxy) (st : State)
    (hload : (LoadCookiedSession env p st.req).1 = none)
    (hrefresh : p.provider.RefreshSessionIfNeeded none = (false, none)) :
    Authenticate env p st =
      match (CheckBasicAuth p st.req).1 with
      | none => (StatusForbidden, st.call (.RefreshSessionIfNeeded none))
      | some session =>
        (StatusAccepted, authHeaders p session (st.call (.RefreshSessionIfNeeded none))) := by
  have hset : authSettled env p st =
      ({ session := none }, st.call (.RefreshSessionIfNeeded none)) := by
    unfold authSettled authChecked
    rw [authLoad_no_session env p st hload]
    simp only [authRefresh, hrefresh, Option.map_none', Bool.false_eq_true, if_false,
      authExpiry, authRevalidate, authValidator]
  rw [Authenticate_eq, hset]
  unfold authFinish
  cases hb : (CheckBasicAuth p st.req).1 with
  | none => simp only [Bool.false_eq_true, if_false, call_req, hb]
  | some b => simp only [Bool.false_eq_true, if_false, call_req, hb]

/-- C26. In a call of `Authenticate`, at every step up to the save step a set
clear flag goes with an absent session; so the call makes, after the steps
that settle the session, either no further call, or the one call of
`ClearSessionCookie`, or the one call of `SaveSession`, and never both.  When
the request has no valid session cookie and the refresh of an absent session
returns `(false, nil)`, the response has no new `Set-Cookie`. -/
theorem Authenticate_save_clear_exclusive (env : Env) (p : OAuthProxy)
    (rw : ResponseWriter) (req : Request) :
    (((authRefresh p (authLoad env p { rw := rw, req := req })
          { rw := rw, req := req }).1.clearSession = true →
        (authRefresh p (authLoad env p { rw := rw, req := req })
          { rw := rw, req := req }).1.session = none) ∧
      ((authExpiry env (authRefresh p (authLoad env p { rw := rw, req := req })
          { rw := rw, req := req }).1).clearSession = true →
        (authExpiry env (authRefresh p (authLoad env p { rw := rw, req := req })
          { rw := rw, req := req }).1).session = none) ∧
      ((authChecked env p { rw := rw, req := req }).1.clearSession = true →
        (authChecked env p { rw := rw, req := req }).1.session = none) ∧
      ((authSettled env p { rw := rw, req := req }).1.clearSession = true →
        (authSettled env p { rw := rw, req := req }).1.session = none)) ∧
    ((Authenticate env p { rw := rw, req := req }).2.calls =
        (authSettled env p { rw := rw, req := req }).2.calls ∨
      (Authenticate env p { rw := rw, req := req }).2.calls =
        (authSettled env p { rw := rw, req := req }).2.calls ++ [Event.ClearSessionCookie] ∨
      ∃ s, (Authenticate env p { rw := rw, req := req }).2.calls =
        (authSettled env p { rw := rw, req := req }).2.calls ++ [Event.SaveSession s]) ∧
    ¬ ((∃ s, Event.SaveSession s ∈ (Authenticate env p { rw := rw, req := req }).2.calls) ∧
      Event.ClearSessionCookie ∈ (Authenticate env p { rw := rw, req := req }).2.calls) ∧
    ((LoadCookiedSession env p req).1 = none →
      p.provider.RefreshSessionIfNeeded none = (false, none) →
      (Authenticate env p { rw := rw, req := req }).2.rw.SetCookie = rw.SetCookie) := by
  have hinv := auth_clear_dropped env p { rw := rw, req := req }
  have hquiet := authSettled_calls_quiet env p { rw := rw, req := req }
  have hfin := authFinish_calls_cases env p (authSettled env p { rw := rw, req := req }).1
    (authSettled env p { rw := rw, req := req }).2 hinv.2.2.2
  rw [← Authenticate_eq] at hfin
  have hnot : ∀ e ∈ (authSettled env p { rw := rw, req := req }).2.calls,
      e ≠ Event.ClearSessionCookie ∧ ∀ s, e ≠ Event.SaveSession s := by
    intro e he
    rcases hquiet e he with h | h
    · cases h
    · exact h
  refine ⟨hinv, ?_, ?_, ?_⟩
  · rcases hfin with h | ⟨-, h⟩ | ⟨s, -, -, h⟩
    · exact Or.inl h
    · exact Or.inr (Or.inl h)
    · exact Or.inr (Or.inr ⟨s, h⟩)
  · rintro ⟨⟨s, hs⟩, hc⟩
    rcases hfin with h | ⟨-, h⟩ | ⟨s2, -, -, h⟩
    · rw [h] at hc
      exact (hnot _ hc).1 rfl
    · rw [h] at hs
      simp only [List.mem_append, List.mem_singleton] at hs
      rcases hs with hs | hs
      · exact (hnot _ hs).2 s rfl
      · cases hs
    · rw [h] at hc
      simp only [List.mem_append, List.mem_singleton] at hc
      rcases hc with hc | hc
      · exact (hnot _ hc).1 rfl
      · cases hc
  · intro hload hrefresh
    rw [Authenticate_no_loaded_session env p { rw := rw, req := req } hload hrefresh]
    cases (CheckBasicAuth p ({ rw := rw, req := req } : State).req).1 with
    | none => rfl
    | some b => simp only [authHeaders_SetCookie, call_rw]

/-! ## The redirect pattern anywhere in the candidate -/

/-- What `GetRedirect` returns on a request whose form parses. -/
theorem GetRedirect_of_parsed (env : Env) (p : OAuthProxy) (req : Request)
    (hform : req.ParseFormErr = none) :
    GetRedirect env p req =
      (if IsValidRedirect env p (redirectCandidate env req) = true then redirectCandidate env req
       else "/".toList, none) := by
  unfold GetRedirect redirectCandidate
  rw [hform]
  by_cases h1 : req.Form.Get "rd".toList = []
  · by_cases h2 : req.Header.Get "X-Auth-Request-Redirect".toList = []
    · simp only [h1, h2, if_true, ne_eq, not_true_eq_false, if_false]
      cases IsValidRedirect env p (env.urlRequestURI req.URL) <;> rfl
    · simp only [h1, h2, if_true, ne_eq, not_true_eq_false, if_false, not_false_eq_true]
      cases IsValidRedirect env p (req.Header.Get "X-Auth-Request-Redirect".toList) <;> rfl
  · simp only [h1, if_true, ne_eq, not_true_eq_false, if_false, not_false_eq_true]
    cases IsValidRedirect env p (req.Form.Get "rd".toList) <;> rfl

/-- A candidate that starts with `/` and matches the pattern is not valid. -/
theorem IsValidRedirect_of_match (env : Env) (p : OAuthProxy) (redirect : Str)
    (hp : HasPrefix redirect "/".toList = true)
    (hm : MatchString invalidRedirectRe redirect = true) :
    IsValidRedirect env p redirect = false := by
  unfold IsValidRedirect
  cases env.urlParse redirect with
  | none => rfl
  | some url =>
    simp only [hm, hp, Bool.and_self, if_true]
    split_ifs <;> rfl

/-- C27. The pattern is matched anywhere in the candidate: a candidate that
begins with `/` and holds, at any position, a slash or backslash, then nothing,
white space, `.` or `..`, then a slash or backslash (so `//`, `/./`, `/../` or
a slash followed by a backslash, in the path or in the query) is rejected by
`IsValidRedirect`, and `GetRedirect` returns `/` in its place. -/
theorem IsValidRedirect_rejects_trick_anywhere (env : Env) (p : OAuthProxy)
    (pre mid post : Str) (a b : Char)
    (hstart : HasPrefix (pre ++ a :: mid ++ b :: post) "/".toList = true)
    (ha : a = '/' ∨ a = '\\') (hb : b = '/' ∨ b = '\\')
    (hmid : (∀ c ∈ mid, c ∈ spaceBytes) ∨ mid = ['.'] ∨ mid = ['.', '.']) :
    IsValidRedirect env p (pre ++ a :: mid ++ b :: post) = false ∧
    ∀ req : Request, req.ParseFormErr = none →
      redirectCandidate env req = pre ++ a :: mid ++ b :: post →
      GetRedirect env p req = ("/".toList, none) := by
  have hm : MatchString invalidRedirectRe (pre ++ a :: mid ++ b :: post) = true := by
    have := MatchString_of_infix invalidRedirectRe pre (a :: mid ++ [b]) post
      (invalidRedirectRe_rmatch a b mid ha hb hmid)
    simpa using this
  have hinv := IsValidRedirect_of_match env p _ hstart hm
  refine ⟨hinv, ?_⟩
  intro req hform hcand
  rw [GetRedirect_of_parsed env p req hform, hcand, hinv]
  rfl

/-! ## The redemption in `OAuthCallback` -/

/-- The calls made so far stay at the start of the trace of `callbackFinish`. -/
theorem callbackFinish_calls_extend (env : Env) (p : OAuthProxy) (st : State)
    (session : SessionState) (c nonce redirect : Str) :
    st.calls <+: (callbackFinish env p st session c nonce redirect).calls := by
  unfold callbackFinish
  by_cases hcn : c ≠ nonce
  · rw [if_pos hcn, ErrorPage_calls]
  · rw [if_neg hcn]
    simp only []
    generalize (if (!IsValidRedirect env p redirect) = true then "/".toList else redirect) = r
    by_cases hv : p.Validator session.Email = true
    · rw [if_pos hv]
      by_cases hg : p.provider.ValidateGroup session.Email = true
      · rw [if_pos hg]
        cases hs : SaveSession env p
            ((st.call (.Validator session.Email)).call (.ValidateGroup session.Email))
            session with
        | mk e st2 =>
          have hc : st2.calls = st.calls ++ ([Event.Validator session.Email] ++
              ([Event.ValidateGroup session.Email] ++ [Event.SaveSession session])) := by
            have := SaveSession_calls env p
              ((st.call (.Validator session.Email)).call (.ValidateGroup session.Email))
              session
            rw [hs] at this
            simpa [call_calls] using this
          cases e with
          | some err =>
            simp only [ErrorPage_calls, hc]
            exact List.prefix_append _ _
          | none =>
            simp only [Redirect_calls, hc]
            exact List.prefix_append _ _
      · rw [if_neg hg]
        simp only [ErrorPage_calls, call_calls, List.append_assoc]
        exact List.prefix_append _ _
    · rw [if_neg hv]
      simp only [ErrorPage_calls, call_calls]
      exact List.prefix_append _ _

/-- With a non-empty code `redeemCode` starts with the call of `Redeem`. -/
theorem redeemCode_calls_head (env : Env) (p : OAuthProxy) (host code : Str)
    (hcode : code ≠ []) :
    ∃ rest, (redeemCode env p host code).2 =
      Event.Redeem (GetRedirectURI env p host) code :: rest := by
  unfold redeemCode
  rw [if_neg hcode]
  simp only []
  cases p.provider.Redeem (GetRedirectURI env p host) code with
  | error e => exact ⟨_, rfl⟩
  | ok s =>
    simp only []
    split <;> exact ⟨_, rfl⟩

/-- The calls of `OAuthCallback` on a request whose form parses and has no
`error` parameter start with the calls of `redeemCode`, and a failed
redemption ends in the error page. -/
theorem OAuthCallback_redeem_first (env : Env) (p : OAuthProxy) (req : Request)
    (hform : req.ParseFormErr = none)
    (herr : req.Form.Get "error".toList = []) :
    (redeemCode env p req.Host (req.Form.Get "code".toList)).2
      <+: (OAuthCallback env p { req := req }).calls ∧
    (∀ e, (redeemCode env p req.Host (req.Form.Get "code".toList)).1 = .error e →
      OAuthCallback env p { req := req } =
        ErrorPage p ((preventCaching { req := req }).callAll
          (redeemCode env p req.Host (req.Form.Get "code".toList)).2)
          500 "Internal Error".toList "Internal Error".toList) := by
  constructor
  · unfold OAuthCallback
    simp only [preventCaching_req, hform, herr, ne_eq, not_true_eq_false, if_false,
      callAll_req]
    cases hred : (redeemCode env p req.Host (req.Form.Get "code".toList)).1 with
    | error e =>
      simp only [ErrorPage_calls, callAll_calls, preventCaching_calls, List.nil_append]
      exact List.prefix_refl _
    | ok session =>
      simp only []
      split
      · split
        · simp only [ErrorPage_calls, callAll_calls, preventCaching_calls, List.nil_append]
          exact List.prefix_refl _
        · refine List.IsPrefix.trans ?_ (callbackFinish_calls_extend _ _ _ _ _ _ _)
          simp only [ClearCSRFCookie_calls, callAll_calls, preventCaching_calls,
            List.nil_append]
          exact List.prefix_refl _
      · simp only [ErrorPage_calls, callAll_calls, preventCaching_calls, List.nil_append]
        exact List.prefix_refl _
  · intro e he
    unfold OAuthCallback
    simp only [preventCaching_req, hform, herr, ne_eq, not_true_eq_false, if_false,
      callAll_req, he]

/-- C28 (amended). In `OAuthCallback` the code is redeemed before the CSRF
nonce is checked: on a request whose form parses, with no `error` parameter
and a non-empty code, whatever cookies the request carries, the first call is
the provider's `Redeem` with that code; and when the redemption fails the
response is the 500 error page, with no cookie set and no further call. -/
theorem OAuthCallback_redeems_before_csrf (env : Env) (p : OAuthProxy) (req : Request)
    (hform : req.ParseFormErr = none)
    (herr : req.Form.Get "error".toList = [])
    (hcode : req.Form.Get "code".toList ≠ []) :
    ∀ cookies : List (Str × Str),
      (∃ rest, (OAuthCallback env p { req := { req with Cookies := cookies } }).calls =
        Event.Redeem (GetRedirectURI env p req.Host) (req.Form.Get "code".toList) :: rest) ∧
      (∀ e, (redeemCode env p req.Host (req.Form.Get "code".toList)).1 = .error e →
        (OAuthCallback env p { req := { req with Cookies := cookies } }).rw.Code = some 500 ∧
        (OAuthCallback env p { req := { req with Cookies := cookies } }).rw.Body =
          [Page.error 500 "Internal Error".toList "Internal Error".toList p.ProxyPrefix] ∧
        (OAuthCallback env p { req := { req with Cookies := cookies } }).rw.SetCookie = [] ∧
        (OAuthCallback env p { req := { req with Cookies := cookies } }).calls =
          (redeemCode env p req.Host (req.Form.Get "code".toList)).2) := by
  intro cookies
  have h := OAuthCallback_redeem_first env p { req with Cookies := cookies } hform herr
  obtain ⟨rest, hrest⟩ := redeemCode_calls_head env p req.Host (req.Form.Get "code".toList) hcode
  constructor
  · obtain ⟨t, ht⟩ := h.1
    refine ⟨rest ++ t, ?_⟩
    rw [← ht]
    show (redeemCode env p req.Host (req.Form.Get "code".toList)).2 ++ t = _
    rw [hrest]
    rfl
  · intro e he
    have h2 := h.2 e he
    rw [h2]
    refine ⟨?_, ?_, ?_, ?_⟩
    · rw [ErrorPage_Code]
      rfl
    · simp only [ErrorPage, WriteBody, WriteHeader]
      rfl
    · rw [ErrorPage_SetCookie]
      rfl
    · rw [ErrorPage_calls]
      rfl

/-! ## Requests whose form does not parse -/

theorem ErrorPage_fresh (p : OAuthProxy) (st : State) (c : Nat) (t m : Str)
    (h : st.rw.Code = none) :
    (ErrorPage p st c t m).rw.Code = some c ∧
    (ErrorPage p st c t m).rw.Body = st.rw.Body ++ [Page.error c t m p.ProxyPrefix] := by
  refine ⟨?_, ErrorPage_Body p st c t m⟩
  rw [ErrorPage_Code, h]
  rfl

/-- `OAuthStart` on a request whose form does not parse, once the nonce has
been generated. -/
theorem OAuthStart_unparsable (env : Env) (p : OAuthProxy) (st : State) (e nonce : Str)
    (hform : st.req.ParseFormErr = some e) (hnonce : env.cookieNonce = .ok nonce) :
    OAuthStart env p st =
      ErrorPage p (SetCSRFCookie env p (preventCaching st) nonce) 400 "Bad Request".toList e := by
  have hreq : (SetCSRFCookie env p (preventCaching st) nonce).req = st.req := by
    simp [SetCSRFCookie]
  unfold OAuthStart
  simp only [hnonce, GetRedirect, hreq, hform]

/-- C23 (amended). A request whose form data cannot be parsed is answered by
`OAuthStart`, once the nonce has been generated, with the 400 error page
`Bad Request`, and so by the sign-in endpoint when it hands over to `OAuthStart`
without having read a form value; `OAuthCallback` answers it with the 500
error page `Internal Error`. -/
theorem unparsable_form_responses (env : Env) (p : OAuthProxy) (rw : ResponseWriter)
    (req : Request) (e : Str)
    (hform : req.ParseFormErr = some e) (hfresh : rw.Code = none) :
    (∀ nonce, env.cookieNonce = .ok nonce →
      (OAuthStart env p { rw := rw, req := req }).rw.Code = some 400 ∧
      (OAuthStart env p { rw := rw, req := req }).rw.Body =
        rw.Body ++ [Page.error 400 "Bad Request".toList e p.ProxyPrefix]) ∧
    (∀ nonce, env.cookieNonce = .ok nonce → p.SkipProviderButton = true →
      req.Method ≠ "POST".toList ∨ p.HtpasswdFile = none →
      (SignIn env p { rw := rw, req := req }).rw.Code = some 400 ∧
      (SignIn env p { rw := rw, req := req }).rw.Body =
        rw.Body ++ [Page.error 400 "Bad Request".toList e p.ProxyPrefix]) ∧
    ((OAuthCallback env p { rw := rw, req := req }).rw.Code = some 500 ∧
      (OAuthCallback env p { rw := rw, req := req }).rw.Body =
        rw.Body ++ [Page.error 500 "Internal Error".toList e p.ProxyPrefix]) := by
  have hstart : ∀ nonce, env.cookieNonce = .ok nonce →
      (OAuthStart env p { rw := rw, req := req }).rw.Code = some 400 ∧
      (OAuthStart env p { rw := rw, req := req }).rw.Body =
        rw.Body ++ [Page.error 400 "Bad Request".toList e p.ProxyPrefix] := by
    intro nonce hnonce
    rw [OAuthStart_unparsable env p { rw := rw, req := req } e nonce hform hnonce]
    have hc : (SetCSRFCookie env p (preventCaching { rw := rw, req := req }) nonce).rw.Code
        = none := by
      simp [SetCSRFCookie, hfresh]
    have hb : (SetCSRFCookie env p (preventCaching { rw := rw, req := req }) nonce).rw.Body
        = rw.Body := by
      simp [SetCSRFCookie]
    have := ErrorPage_fresh p _ 400 "Bad Request".toList e hc
    rw [hb] at this
    exact this
  refine ⟨hstart, ?_, ?_⟩
  · intro nonce hnonce hskip hmanual
    have hm : ManualSignIn p req = (([], false), req) := by
      unfold ManualSignIn
      rcases hmanual with h | h
      · cases p.HtpasswdFile with
        | none => rfl
        | some htpasswd => simp only [h, ne_eq, not_false_eq_true, if_true]
      · simp only [h]
    have hs : SignIn env p { rw := rw, req := req } = OAuthStart env p { rw := rw, req := req } := by
      unfold SignIn
      simp only [hm, Bool.false_eq_true, if_false, hskip, if_true]
    rw [hs]
    exact hstart nonce hnonce
  · have hcb : OAuthCallback env p { rw := rw, req := req } =
        ErrorPage p (preventCaching { rw := rw, req := req }) 500 "Internal Error".toList e := by
      unfold OAuthCallback
      simp only [preventCaching_req, hform]
    rw [hcb]
    exact ErrorPage_fresh p _ 500 "Internal Error".toList e hfresh

/-! ## URL-safe Base64 and the cookie secret -/

theorem b64Char_url_fin : ∀ n : Fin 64,
    b64ToURL (b64Char n) ≠ '+' ∧ b64ToURL (b64Char n) ≠ '/' ∧ b64ToURL (b64Char n) ≠ '=' ∧
    b64ToURL (b64Char n) ≠ '\r' ∧ b64ToURL (b64Char n) ≠ '\n' ∧
    b64OfURL (b64ToURL (b64Char n)) = b64Char n ∧ b64Char n ≠ '=' := by decide

theorem b64Char_url (n : Nat) (h : n < 64) :
    b64ToURL (b64Char n) ≠ '+' ∧ b64ToURL (b64Char n) ≠ '/' ∧ b64ToURL (b64Char n) ≠ '=' ∧
    b64ToURL (b64Char n) ≠ '\r' ∧ b64ToURL (b64Char n) ≠ '\n' ∧
    b64OfURL (b64ToURL (b64Char n)) = b64Char n ∧ b64Char n ≠ '=' :=
  b64Char_url_fin ⟨n, h⟩

/-- The shape of an encoding: alphabet bytes, then at most two padding bytes
that fill the last quantum. -/
theorem b64EncodeBytes_shape (bs : List Nat) (h : ∀ b ∈ bs, b < 256) :
    ∃ body pad, b64EncodeBytes bs = body ++ pad ∧
      (∀ c ∈ body, ∃ n, n < 64 ∧ c = b64Char n) ∧
      (pad = [] ∨ pad = ['='] ∨ pad = ['=', '=']) ∧
      (body.length + pad.length) % 4 = 0 := by
  induction bs using b64EncodeBytes.induct with
  | case1 => exact ⟨[], [], rfl, by simp, Or.inl rfl, rfl⟩
  | case2 a =>
    have ha : a < 256 := h a (by simp)
    refine ⟨[b64Char (a / 4), b64Char ((a % 4) * 16)], ['=', '='], rfl, ?_, Or.inr (Or.inr rfl),
      by simp⟩
    intro c hc
    simp only [List.mem_cons, List.mem_singleton, List.not_mem_nil, or_false] at hc
    rcases hc with rfl | rfl
    · exact ⟨_, by omega, rfl⟩
    · exact ⟨_, by omega, rfl⟩
  | case3 a b =>
    have ha : a < 256 := h a (by simp)
    have hb : b < 256 := h b (by simp)
    refine ⟨[b64Char (a / 4), b64Char ((a % 4) * 16 + b / 16), b64Char ((b % 16) * 4)], ['='],
      rfl, ?_, Or.inr (Or.inl rfl), by simp⟩
    intro c hc
    simp only [List.mem_cons, List.mem_singleton, List.not_mem_nil, or_false] at hc
    rcases hc with rfl | rfl | rfl
    · exact ⟨_, by omega, rfl⟩
    · exact ⟨_, by omega, rfl⟩
    · exact ⟨_, by omega, rfl⟩
  | case4 a b c rest ih =>
    have ha : a < 256 := h a (by simp)
    have hb : b < 256 := h b (by simp)
    have hc : c < 256 := h c (by simp)
    have hrest : ∀ x ∈ rest, x < 256 := fun x hx => h x (by simp [hx])
    obtain ⟨body, pad, he, hbody, hpad, hlen⟩ := ih hrest
    refine ⟨b64Char (a / 4) :: b64Char ((a % 4) * 16 + b / 16) ::
        b64Char ((b % 16) * 4 + c / 64) :: b64Char (c % 64) :: body, pad, ?_, ?_, hpad, ?_⟩
    · simp only [b64EncodeBytes, he, List.cons_append]
    · intro x hx
      simp only [List.mem_cons] at hx
      rcases hx with rfl | rfl | rfl | rfl | hx
      · exact ⟨_, by omega, rfl⟩
      · exact ⟨_, by omega, rfl⟩
      · exact ⟨_, by omega, rfl⟩
      · exact ⟨_, by omega, rfl⟩
      · exact hbody x hx
    · simp only [List.length_cons]
      omega

/-- A text that decodes consists of whole quanta. -/
theorem b64Quanta_length : ∀ (u : Str) (bs : List Nat), b64Quanta u = some bs →
    u.length % 4 = 0
  | [], _, _ => rfl
  | [_], _, h => by simp [b64Quanta] at h
  | [_, _], _, h => by simp [b64Quanta] at h
  | [_, _, _], _, h => by simp [b64Quanta] at h
  | a :: b :: c :: d :: rest, bs, h => by
    have ih := b64Quanta_length rest
    have hlen : (a :: b :: c :: d :: rest).length = rest.length + 4 := rfl
    rw [hlen]
    unfold b64Quanta at h
    split at h
    · cases hr : b64Quanta rest with
      | none => rw [hr] at h; cases h
      | some out =>
        have := ih out hr
        omega
    · split_ifs at h with hd
      rw [hd.2]
      rfl
    · split_ifs at h with hd
      rw [hd.2.2]
      rfl
    · cases h

/-- The URL-safe encoding and its unpadded form, by their parts. -/
theorem b64URL_shape (s : Str) :
    ∃ body pad : Str, b64EncodeToString s = body ++ pad ∧
      b64URLEncodeToString s = body.map b64ToURL ++ pad ∧
      b64RawURLEncodeToString s = body.map b64ToURL ∧
      (∀ c ∈ body, ∃ n, n < 64 ∧ c = b64Char n) ∧
      (pad = [] ∨ pad = ['='] ∨ pad = ['=', '=']) ∧
      (body.length + pad.length) % 4 = 0 := by
  have hb : ∀ b ∈ s.map (fun c => c.toNat % 256), b < 256 := by
    intro b hb
    rw [List.mem_map] at hb
    obtain ⟨c, -, rfl⟩ := hb
    omega
  obtain ⟨body, pad, he, hbody, hpad, hlen⟩ := b64EncodeBytes_shape _ hb
  have hpadmap : pad.map b64ToURL = pad := by
    rcases hpad with rfl | rfl | rfl <;> decide
  have hpadfilter : pad.filter (fun c => c != '=') = [] := by
    rcases hpad with rfl | rfl | rfl <;> decide
  have hbodyfilter : (body.map b64ToURL).filter (fun c => c != '=') = body.map b64ToURL := by
    rw [List.filter_eq_self]
    intro c hc
    rw [List.mem_map] at hc
    obtain ⟨x, hx, rfl⟩ := hc
    obtain ⟨n, hn, rfl⟩ := hbody x hx
    simpa using (b64Char_url n hn).2.2.1
  have hurl : b64URLEncodeToString s = body.map b64ToURL ++ pad := by
    unfold b64URLEncodeToString b64EncodeToString
    rw [he, List.map_append, hpadmap]
  refine ⟨body, pad, he, hurl, ?_, hbody, hpad, hlen⟩
  unfold b64RawURLEncodeToString
  rw [hurl, List.filter_append, hbodyfilter, hpadfilter, List.append_nil]

/-- Decoding the URL-safe encoding of a byte string gives the string back. -/
theorem b64URLDecodeString_encode (s : Str) (h : ∀ c ∈ s, c.toNat < 256) :
    b64URLDecodeString (b64URLEncodeToString s) = some s := by
  obtain ⟨body, pad, he, hurl, -, hbody, hpad, -⟩ := b64URL_shape s
  have hany : (body.map b64ToURL ++ pad).any (fun c => c == '+' || c == '/') = false := by
    rw [List.any_eq_false]
    intro c hc
    rw [List.mem_append] at hc
    rcases hc with hc | hc
    · rw [List.mem_map] at hc
      obtain ⟨x, hx, rfl⟩ := hc
      obtain ⟨n, hn, rfl⟩ := hbody x hx
      have := b64Char_url n hn
      simp [this.1, this.2.1]
    · rcases hpad with rfl | rfl | rfl
      · cases hc
      · simp only [List.mem_singleton] at hc
        subst hc
        decide
      · simp only [List.mem_cons, List.mem_singleton, List.not_mem_nil, or_false,
          or_self] at hc
        subst hc
        decide
  have hmap : (body.map b64ToURL ++ pad).map b64OfURL = body ++ pad := by
    rw [List.map_append, List.map_map]
    congr 1
    · conv_rhs => rw [← List.map_id body]
      apply List.map_congr_left
      intro x hx
      obtain ⟨n, hn, rfl⟩ := hbody x hx
      exact (b64Char_url n hn).2.2.2.2.2.1
    · rcases hpad with rfl | rfl | rfl <;> decide
  unfold b64URLDecodeString
  rw [hurl, hany, hmap, ← he]
  simp only [Bool.false_eq_true, if_false]
  exact b64DecodeString_encode s h

/-- Decoding the unpadded URL-safe encoding of a byte string gives the string
back. -/
theorem b64RawURLDecodeString_encode (s : Str) (h : ∀ c ∈ s, c.toNat < 256) :
    b64RawURLDecodeString (b64RawURLEncodeToString s) = some s := by
  obtain ⟨body, pad, -, hurl, hraw, hbody, hpad, hlen⟩ := b64URL_shape s
  have hkeep : (body.map b64ToURL).filter (fun c => c != '\r' && c != '\n')
      = body.map b64ToURL := by
    rw [List.filter_eq_self]
    intro c hc
    rw [List.mem_map] at hc
    obtain ⟨x, hx, rfl⟩ := hc
    obtain ⟨n, hn, rfl⟩ := hbody x hx
    have := b64Char_url n hn
    simp [this.2.2.2.1, this.2.2.2.2.1]
  have hnopad : (body.map b64ToURL).contains '=' = false := by
    rw [Bool.eq_false_iff]
    intro hc
    have hmem : '=' ∈ body.map b64ToURL := by simpa using hc
    rw [List.mem_map] at hmem
    obtain ⟨x, hx, hxe⟩ := hmem
    obtain ⟨n, hn, rfl⟩ := hbody x hx
    exact (b64Char_url n hn).2.2.1 hxe
  have hpadrep : List.replicate ((4 - (body.map b64ToURL).length % 4) % 4) '=' = pad := by
    rw [List.length_map]
    rcases hpad with rfl | rfl | rfl
    · have : (4 - body.length % 4) % 4 = 0 := by
        simp only [List.length_nil] at hlen
        omega
      rw [this]
      rfl
    · have : (4 - body.length % 4) % 4 = 1 := by
        simp only [List.length_cons, List.length_nil] at hlen
        omega
      rw [this]
      rfl
    · have : (4 - body.length % 4) % 4 = 2 := by
        simp only [List.length_cons, List.length_nil] at hlen
        omega
      rw [this]
      rfl
  unfold b64RawURLDecodeString
  simp only [hraw, hkeep, hnopad, Bool.false_eq_true, if_false, hpadrep]
  rw [← hurl]
  exact b64URLDecodeString_encode s h

/-- When the padded decoder accepts an unpadded encoding, there was no padding
to drop, and it yields the encoded string. -/
theorem b64URLDecodeString_raw (s b : Str) (h : ∀ c ∈ s, c.toNat < 256)
    (hb : b64URLDecodeString (b64RawURLEncodeToString s) = some b) : b = s := by
  obtain ⟨body, pad, -, hurl, hraw, hbody, hpad, hlen⟩ := b64URL_shape s
  have hmap : (body.map b64ToURL).map b64OfURL = body := by
    rw [List.map_map]
    conv_rhs => rw [← List.map_id body]
    apply List.map_congr_left
    intro x hx
    obtain ⟨n, hn, rfl⟩ := hbody x hx
    exact (b64Char_url n hn).2.2.2.2.2.1
  have hkeep : body.filter (fun c => c != '\r' && c != '\n') = body := by
    rw [List.filter_eq_self]
    intro x hx
    obtain ⟨n, hn, rfl⟩ := hbody x hx
    exact b64Char_keep n hn
  have hq : ∃ bs, b64Quanta body = some bs := by
    rw [hraw] at hb
    unfold b64URLDecodeString at hb
    split_ifs at hb
    rw [hmap] at hb
    unfold b64DecodeString at hb
    rw [hkeep] at hb
    cases hq : b64Quanta body with
    | none => rw [hq] at hb; cases hb
    | some bs => exact ⟨bs, rfl⟩
  obtain ⟨bs, hbs⟩ := hq
  have hl := b64Quanta_length body bs hbs
  have hpad0 : pad = [] := by
    rcases hpad with rfl | rfl | rfl
    · rfl
    · simp only [List.length_cons, List.length_nil] at hlen
      omega
    · simp only [List.length_cons, List.length_nil] at hlen
      omega
  have hsame : b64RawURLEncodeToString s = b64URLEncodeToString s := by
    rw [hraw, hurl, hpad0, List.append_nil]
  rw [hsame, b64URLDecodeString_encode s h] at hb
  exact (Option.some.inj hb).symm

/-- What `secretBytes` decodes from either encoding of a byte string. -/
theorem secretBytes_decoded (k : Str) (hbytes : ∀ c ∈ k, c.toNat < 256) :
    (b64URLDecodeString (b64URLEncodeToString k)).orElse
        (fun _ => b64RawURLDecodeString (b64URLEncodeToString k)) = some k ∧
    (b64URLDecodeString (b64RawURLEncodeToString k)).orElse
        (fun _ => b64RawURLDecodeString (b64RawURLEncodeToString k)) = some k := by
  constructor
  · rw [b64URLDecodeString_encode k hbytes]
    rfl
  · cases hd : b64URLDecodeString (b64RawURLEncodeToString k) with
    | none =>
      rw [b64RawURLDecodeString_encode k hbytes]
      rfl
    | some b =>
      rw [b64URLDecodeString_raw k b hbytes hd]
      rfl

/-- C24. For a byte string `k` of 16, 24 or 32 bytes, `secretBytes` of the
URL-safe Base64 encoding of `k`, padded or unpadded, is `k`.  For a byte
string of another length it is the encoding itself; and any secret that
neither decoder accepts, or that decodes to a length other than 16, 24 or 32,
such as `equals==========`, is returned as it is. -/
theorem secretBytes_key_or_original (k : Str) (hbytes : ∀ c ∈ k, c.toNat < 256) :
    (k.length = 16 ∨ k.length = 24 ∨ k.length = 32 →
      secretBytes (b64URLEncodeToString k) = k ∧
      secretBytes (b64RawURLEncodeToString k) = k) ∧
    (¬ (k.length = 16 ∨ k.length = 24 ∨ k.length = 32) →
      secretBytes (b64URLEncodeToString k) = b64URLEncodeToString k ∧
      secretBytes (b64RawURLEncodeToString k) = b64RawURLEncodeToString k) ∧
    (∀ secret : Str, b64URLDecodeString secret = none →
      b64RawURLDecodeString secret = none → secretBytes secret = secret) ∧
    (∀ secret b : Str,
      (b64URLDecodeString secret).orElse (fun _ => b64RawURLDecodeString secret) = some b →
      ¬ (b.length = 16 ∨ b.length = 24 ∨ b.length = 32) → secretBytes secret = secret) ∧
    secretBytes "equals==========".toList = "equals==========".toList := by
  have hd := secretBytes_decoded k hbytes
  refine ⟨?_, ?_, ?_, ?_, by decide⟩
  · intro hlen
    unfold secretBytes
    rw [hd.1, hd.2]
    simp only [if_pos hlen, and_self]
  · intro hlen
    unfold secretBytes
    rw [hd.1, hd.2]
    simp only [if_neg hlen, and_self]
  · intro secret h1 h2
    unfold secretBytes
    rw [h1, h2]
    rfl
  · intro secret b hb hlen
    unfold secretBytes
    rw [hb]
    simp only [if_neg hlen]

/-! ## The later properties at the example configuration -/

/-- C21 at the example token: no `email_verified` claim, and a session with the
email claim. -/
theorem createSessionState_verified_claims_witness :
    exampleToken.IDToken = some "signed-id-token".toList ∧
    exampleOIDC.Verify "signed-id-token".toList = .ok "payload".toList ∧
    exampleOIDC.createSessionState exampleToken =
      .ok { AccessToken := "access-2".toList, RefreshToken := "refresh-2".toList,
            ExpiresOn := 1700003600000000000, Email := "bob@example.com".toList,
            User := [] } :=
  have h := createSessionState_verified_claims exampleOIDC exampleToken
    "signed-id-token".toList "payload".toList
    { Subject := "sub-1".toList, Email := "bob@example.com".toList, Verified := none }
    rfl rfl rfl
  ⟨rfl, rfl, h.2.1 (by decide)⟩

/-- C22 at a stale session whose refresh token the token source answers: the
tokens, the expiry and the email are replaced and the user stays. -/
theorem OIDC_RefreshSessionIfNeeded_atomic_witness :
    ¬ exampleEnv.now < exampleStaleSession.ExpiresOn ∧
    exampleStaleSession.RefreshToken ≠ [] ∧
    exampleOIDC.RefreshSessionIfNeeded exampleEnv (some exampleStaleSession) =
      ((true, none),
        some { AccessToken := "access-2".toList, RefreshToken := "refresh-2".toList,
               ExpiresOn := 1700003600000000000, Email := "bob@example.com".toList,
               User := "bob".toList }) :=
  ⟨by decide, by decide,
    ((OIDC_RefreshSessionIfNeeded_atomic exampleEnv exampleOIDC).2.2 exampleStaleSession
      (by decide) (by decide)).2.2.1 exampleToken
      { AccessToken := "access-2".toList, RefreshToken := "refresh-2".toList,
        ExpiresOn := 1700003600000000000, Email := "bob@example.com".toList }
      rfl rfl⟩

/-- C23, counterexample: the form of the callback does not parse, and
`OAuthCallback` answers with 500 `Internal Error`, not with 400. -/
theorem unparsable_callback_is_answered_500 :
    exampleUnparsableCallback.ParseFormErr = some "invalid URL escape".toList ∧
    (OAuthCallback exampleEnv exampleProxy { req := exampleUnparsableCallback }).rw.Code
      = some 500 ∧
    (OAuthCallback exampleEnv exampleProxy { req := exampleUnparsableCallback }).rw.Code
      ≠ some 400 ∧
    (OAuthCallback exampleEnv exampleProxy { req := exampleUnparsableCallback }).rw.Body =
      [Page.error 500 "Internal Error".toList "invalid URL escape".toList "/oauth2".toList] := by
  decide

/-- C23 at the callback whose form does not parse. -/
theorem unparsable_form_responses_witness :
    exampleUnparsableCallback.ParseFormErr = some "invalid URL escape".toList ∧
    (OAuthStart exampleEnv exampleProxy
      { rw := {}, req := exampleUnparsableCallback }).rw.Code = some 400 ∧
    (OAuthCallback exampleEnv exampleProxy
      { rw := {}, req := exampleUnparsableCallback }).rw.Code = some 500 :=
  have h := unparsable_form_responses exampleEnv exampleProxy {} exampleUnparsableCallback
    "invalid URL escape".toList rfl rfl
  ⟨rfl, (h.1 "nonce123".toList rfl).1, h.2.2.1⟩

/-- C24 at the 16-byte key `0123456789abcdef`. -/
theorem secretBytes_key_or_original_witness :
    (∀ c ∈ "0123456789abcdef".toList, c.toNat < 256) ∧
    b64URLEncodeToString "0123456789abcdef".toList = "MDEyMzQ1Njc4OWFiY2RlZg==".toList ∧
    b64RawURLEncodeToString "0123456789abcdef".toList = "MDEyMzQ1Njc4OWFiY2RlZg".toList ∧
    secretBytes (b64URLEncodeToString "0123456789abcdef".toList)
      = "0123456789abcdef".toList ∧
    secretBytes (b64RawURLEncodeToString "0123456789abcdef".toList)
      = "0123456789abcdef".toList :=
  have h := (secretBytes_key_or_original "0123456789abcdef".toList (by decide)).1
    (Or.inl (by decide))
  ⟨by decide, by decide, by decide, h.1, h.2⟩

/-- C25 at the request with the credentials `alice:secret`. -/
theorem CheckBasicAuth_session_iff_witness :
    (CheckBasicAuth exampleProxy exampleBasicRequest).1 = some { User := "alice".toList } :=
  ((CheckBasicAuth_session_iff exampleProxy exampleBasicRequest).1 _).2
    ⟨exampleHtpasswd, "YWxpY2U6c2VjcmV0".toList, "alice".toList, "secret".toList,
      rfl, by decide, by decide, by decide, by decide, rfl⟩

/-- C26 at the cookie of a rejected account: the cookie is cleared and not
saved. -/
theorem Authenticate_save_clear_exclusive_witness :
    Event.ClearSessionCookie ∈
      (Authenticate exampleEnv exampleStrictProxy
        { rw := {}, req := exampleEveRequest }).2.calls ∧
    ¬ ((∃ s, Event.SaveSession s ∈
        (Authenticate exampleEnv exampleStrictProxy
          { rw := {}, req := exampleEveRequest }).2.calls) ∧
      Event.ClearSessionCookie ∈
        (Authenticate exampleEnv exampleStrictProxy
          { rw := {}, req := exampleEveRequest }).2.calls) :=
  ⟨by decide,
    (Authenticate_save_clear_exclusive exampleEnv exampleStrictProxy {}
      exampleEveRequest).2.2.1⟩

/-- C27 at `/a/../b` and at `/app?next=https://example.com/`. -/
theorem IsValidRedirect_rejects_trick_anywhere_witness :
    "/a".toList ++ '/' :: "..".toList ++ '/' :: "b".toList = "/a/../b".toList ∧
    IsValidRedirect exampleEnv exampleProxy "/a/../b".toList = false ∧
    redirectCandidate exampleEnv exampleTrickRequest = "/a/../b".toList ∧
    GetRedirect exampleEnv exampleProxy exampleTrickRequest = ("/".toList, none) ∧
    IsValidRedirect exampleEnv exampleProxy "/app?next=https://example.com/".toList = false :=
  have h1 := IsValidRedirect_rejects_trick_anywhere exampleEnv exampleProxy "/a".toList
    "..".toList "b".toList '/' '/' (by decide) (Or.inl rfl) (Or.inl rfl) (Or.inr (Or.inr rfl))
  have h2 := IsValidRedirect_rejects_trick_anywhere exampleEnv exampleProxy
    "/app?next=https:".toList [] "example.com/".toList '/' '/' (by decide) (Or.inl rfl)
    (Or.inl rfl) (Or.inl (by simp))
  ⟨by decide, h1.1, by decide, h1.2 exampleTrickRequest rfl (by decide), h2.1⟩

/-- C28, counterexample: the callback has no `error` parameter and the code
`good-code`, but its form does not parse: `OAuthCallback` answers 500 without
any call to the provider. -/
theorem unparsable_callback_is_not_redeemed :
    exampleUnparsableCallback.Form.Get "error".toList = [] ∧
    exampleUnparsableCallback.Form.Get "code".toList = "good-code".toList ∧
    exampleUnparsableCallback.Form.Get "code".toList ≠ [] ∧
    (OAuthCallback exampleEnv exampleProxy { req := exampleUnparsableCallback }).calls = [] ∧
    Event.Redeem (GetRedirectURI exampleEnv exampleProxy exampleUnparsableCallback.Host)
        (exampleUnparsableCallback.Form.Get "code".toList) ∉
      (OAuthCallback exampleEnv exampleProxy { req := exampleUnparsableCallback }).calls := by
  decide

/-- C28 at a callback with a redeemable code and no cookie at all. -/
theorem OAuthCallback_redeems_before_csrf_witness :
    exampleGoodCallback.ParseFormErr = none ∧
    exampleGoodCallback.Form.Get "error".toList = [] ∧
    exampleGoodCallback.Form.Get "code".toList ≠ [] ∧
    ∃ rest, (OAuthCallback exampleEnv exampleProxy
        { req := { exampleGoodCallback with Cookies := [] } }).calls =
      Event.Redeem (GetRedirectURI exampleEnv exampleProxy exampleGoodCallback.Host)
        (exampleGoodCallback.Form.Get "code".toList) :: rest :=
  ⟨by decide, by decide, by decide,
    (OAuthCallback_redeems_before_csrf exampleEnv exampleProxy exampleGoodCallback
      (by decide) (by decide) (by decide) []).1⟩

end OAuth2Proxy
